import Mathlib

/-!
# PKSM-Core, `Sav6`: the generation-six save container

A shallow embedding of `source/sav/Sav6.cpp` (slot addressing, slot read and
write, the trade rewrite, the dex flag writer and its counters, the voucher
ring and the item pouches) and of the region table of `include/sav/SavLGPE.hpp`.

Conventions of the embedding.

* The save buffer `data` is a map from byte offsets to bytes.  The C++ code
  indexes a raw `u8` array without any bounds check, so a read or a write is
  defined at every offset; `Sav6.length` records how long the real buffer is.
* Machine integers are natural numbers.  A conversion to `u8` or `u16` that the
  source writes is kept as a reduction modulo `2^8` or `2^16`; every store to
  the buffer reduces modulo 256.
* What the source takes from headers that are not part of the sources at hand
  (layout constants of `Sav6.hpp`, `PK6`, `WC6`, `Item6`, the string helpers,
  the species set, the form-count table) is a field of `Sav6` or of `Env`.
-/

namespace pksm

/-! ## Bytes and the buffer -/

/-- One `u8` of the save buffer. -/
abbrev Byte := Fin 256

/-- The raw save data, `std::shared_ptr<u8[]> data`, addressed by byte offset. -/
abbrev Buffer := Nat → Byte

/-- Conversion to `u8`. -/
def u8 (x : Nat) : Nat := x % 256

/-- Conversion to `u16`. -/
def u16 (x : Nat) : Nat := x % 65536

/-- The value of `data[i]`. -/
def Buffer.read (b : Buffer) (i : Nat) : Nat := (b i).val

/-- The store `data[i] = v`, the value truncated to a byte. -/
def Buffer.write (b : Buffer) (i : Nat) (v : Nat) : Buffer :=
  fun j => if j = i then ⟨v % 256, Nat.mod_lt v (by decide)⟩ else b j

/-- The statement `data[i] |= m`. -/
def Buffer.orAt (b : Buffer) (i : Nat) (m : Nat) : Buffer :=
  b.write i (b.read i ||| m)

/-- The `n` bytes starting at `&data[ofs]`. -/
def Buffer.readBytes (b : Buffer) (ofs n : Nat) : List Byte :=
  (List.range n).map (fun i => b (ofs + i))

/-- The call `std::copy(first, last, &data[ofs])`: the bytes of the list are stored one
after the other from `ofs` on. -/
def Buffer.copyTo : Buffer → Nat → List Byte → Buffer
  | b, _, [] => b
  | b, ofs, x :: xs => Buffer.copyTo (fun j => if j = ofs then x else b j) (ofs + 1) xs

/-- Function `LittleEndian::convertTo<u16>(&data[i])`. -/
def Buffer.convertTo16 (b : Buffer) (i : Nat) : Nat :=
  b.read i + 256 * b.read (i + 1)

/-- Function `LittleEndian::convertFrom<u16>(&data[i], v)`. -/
def Buffer.convertFrom16 (b : Buffer) (i : Nat) (v : Nat) : Buffer :=
  (b.write i v).write (i + 1) (v / 256)

/-- Function `LittleEndian::convertTo<u32>(&data[i])`. -/
def Buffer.convertTo32 (b : Buffer) (i : Nat) : Nat :=
  b.read i + 256 * b.read (i + 1) + 65536 * b.read (i + 2) + 16777216 * b.read (i + 3)

/-- Function `LittleEndian::convertFrom<u32>(&data[i], v)`. -/
def Buffer.convertFrom32 (b : Buffer) (i : Nat) (v : Nat) : Buffer :=
  (((b.write i v).write (i + 1) (v / 256)).write (i + 2) (v / 65536)).write (i + 3) (v / 16777216)

/-- Bit `k` of `data[i]`. -/
def Buffer.bit (b : Buffer) (i k : Nat) : Bool := (b.read i).testBit k

/-- Every bit that is set in `a` is set in `b`. -/
def Buffer.le (a b : Buffer) : Prop := ∀ i k, a.bit i k = true → b.bit i k = true

/-- A buffer update that only sets bits and that changes nothing in a buffer which
already holds the bits it set in a smaller buffer. -/
structure Absorbing (F : Buffer → Buffer) : Prop where
  infl : ∀ b : Buffer, b.le (F b)
  absorb : ∀ a c : Buffer, a.le c → (F a).le c → F c = c

/-! ## Records exchanged with the container -/

/-- The sub-game a `Sav6` is for (`Sav6::game`). -/
inductive Game where
  | XY
  | ORAS
  deriving DecidableEq, Repr

/-- The generation tag of a record or voucher. -/
inductive Generation where
  | ONE | TWO | THREE | FOUR | FIVE | SIX | SEVEN | LGPE | EIGHT
  deriving DecidableEq, Repr

/-- A calendar date, as `trade` receives it. -/
structure Date where
  day : Nat
  month : Nat
  year : Nat
  deriving DecidableEq, Repr

/-- Modelled from the spec: the entity record `PKX` / `PK6` (pkx/PKX.hpp and pkx/PK6.hpp
are not among the sources).  The record exposes the attributes the container reads and
writes: generation tag, species, form, gender, shininess, egg flag, origin version,
language, original-trainer identity, handler identity and geolocation history,
memory and feeling fields, friendship, met location and date.  Each getter of the
source is a field and each one-argument setter is a field update.  The getters
`untraded`, `untradedEvent`, `baseFriendship` and `shiny`, which the source only reads,
are fields as well.  The geolocation history is indexed by entry number. -/
structure PKX where
  generation : Generation
  species : Nat
  alternativeForm : Nat
  gender : Nat
  shiny : Bool
  egg : Bool
  version : Nat
  language : Nat
  otName : String
  TID : Nat
  SID : Nat
  otGender : Nat
  metLocation : Nat
  metDate : Date
  currentHandler : Nat
  untraded : Bool
  untradedEvent : Bool
  geoCountry : Nat → Nat
  geoRegion : Nat → Nat
  htName : String
  htGender : Nat
  htFriendship : Nat
  baseFriendship : Nat
  htAffection : Nat
  htMemory : Nat
  htTextVar : Nat
  htIntensity : Nat
  htFeeling : Nat

/-- Modelled from the spec: a gift voucher `WCX` (wcx/WCX.hpp and wcx/WC6.hpp are not
among the sources): "opaque fixed-length byte blocks plus a 16-bit ID and an
object/item tag".  `rawData` is the `const u8*` the source copies from. -/
structure WCX where
  generation : Generation
  ID : Nat
  object : Nat
  rawData : Nat → Byte

/-- Modelled from the spec: an item record (sav/Item.hpp is not among the sources):
"opaque fixed-length (4-byte) records per pouch slot"; `bytes` is `Item6::bytes()`. -/
structure Item where
  bytes : List Byte
  deriving DecidableEq, Repr

/-- The pouch identities of `Sav::Pouch`; `Sav6` knows the first five. -/
inductive Pouch where
  | NormalItem | KeyItem | TM | Medicine | Berry
  | Mail | Ball | Battle | ZCrystals | Candy | Ingredient | PCItem | RotomPower | CatchingItem
  deriving DecidableEq, Repr

/-- What `Sav6.cpp` uses from code that is not among the sources. -/
structure Env where
  /-- The constant PK6::BOX_LENGTH. -/
  BOX_LENGTH : Nat
  /-- The constant PK6::PARTY_LENGTH. -/
  PARTY_LENGTH : Nat
  /-- The constant WC6::length. -/
  WC6_length : Nat
  /-- The number of the enumerator GameVersion::X. -/
  versionX : Nat
  /-- The call PKX::getPKM<Generation::SIX>(ptr, len), on the len bytes at ptr. -/
  getPKM : List Byte → PKX
  /-- The span PKX::rawData(). -/
  rawData : PKX → List Byte
  /-- The copy PKX::partyClone(). -/
  partyClone : PKX → PKX
  /-- The record after PKX::encrypt(). -/
  encrypt : PKX → PKX
  /-- The string transString67(getString(data, ofs, len)). -/
  getString : Buffer → Nat → Nat → String
  /-- The table PersonalXYORAS::formCount. -/
  formCount : Nat → Nat
  /-- Whether the two-argument setters `PK6::geoCountry` and `PK6::geoRegion` take the
  value first and the entry number second; otherwise the entry number comes first -/
  geoValueFirst : Bool

/-- The two-argument setter `pk6.geoCountry(a, b)`, both arguments `u8`. -/
def PKX.geoCountrySet (e : Env) (a b : Nat) (pk : PKX) : PKX :=
  if e.geoValueFirst then
    { pk with geoCountry := fun i => if i = u8 b then u8 a else pk.geoCountry i }
  else
    { pk with geoCountry := fun i => if i = u8 a then u8 b else pk.geoCountry i }

/-- The two-argument setter `pk6.geoRegion(a, b)`, both arguments `u8`. -/
def PKX.geoRegionSet (e : Env) (a b : Nat) (pk : PKX) : PKX :=
  if e.geoValueFirst then
    { pk with geoRegion := fun i => if i = u8 b then u8 a else pk.geoRegion i }
  else
    { pk with geoRegion := fun i => if i = u8 a then u8 b else pk.geoRegion i }

/-! ## The container -/

/-- The state of a `Sav6`: the sub-game, the buffer and the layout constants that the
subclasses set (`Sav6.hpp` is not among the sources, so the constants are fields). -/
structure Sav6 where
  game : Game
  data : Buffer
  length : Nat
  TrainerCard : Nat
  Box : Nat
  Party : Nat
  PokeDex : Nat
  PokeDexLanguageFlags : Nat
  EncounterCount : Nat
  WondercardFlags : Nat
  WondercardData : Nat
  PouchHeldItem : Nat
  PouchKeyItem : Nat
  PouchTMHM : Nat
  PouchMedicine : Nat
  PouchBerry : Nat
  /-- The value of maxBoxes(). -/
  maxBoxes : Nat
  /-- The set availableSpecies(), a std::set listed in iteration order. -/
  availableSpecies : List Nat

namespace Sav6

/-- Getter `Sav6::TID`. -/
def TID (s : Sav6) : Nat := s.data.convertTo16 s.TrainerCard

/-- Getter `Sav6::SID`. -/
def SID (s : Sav6) : Nat := s.data.convertTo16 (s.TrainerCard + 2)

/-- Getter `Sav6::gender`. -/
def gender (s : Sav6) : Nat := s.data.read (s.TrainerCard + 5)

/-- Getter `Sav6::subRegion`. -/
def subRegion (s : Sav6) : Nat := s.data.read (s.TrainerCard + 0x26)

/-- Getter `Sav6::country`. -/
def country (s : Sav6) : Nat := s.data.read (s.TrainerCard + 0x27)

/-- Getter `Sav6::otName`. -/
def otName (e : Env) (s : Sav6) : String := e.getString s.data (s.TrainerCard + 0x48) 13

/-- Function `Sav6::boxOffset`. -/
def boxOffset (e : Env) (s : Sav6) (box slot : Nat) : Nat :=
  s.Box + e.BOX_LENGTH * 30 * box + e.BOX_LENGTH * slot

/-- Function `Sav6::partyOffset`. -/
def partyOffset (e : Env) (s : Sav6) (slot : Nat) : Nat :=
  s.Party + e.PARTY_LENGTH * slot

/-- The party read `Sav6::pkm(u8 slot) const`. -/
def pkmParty (e : Env) (s : Sav6) (slot : Nat) : PKX :=
  e.getPKM (s.data.readBytes (partyOffset e s slot) e.PARTY_LENGTH)

/-- The party write `Sav6::pkm(const PKX&, u8 slot)`. -/
def pkmPartySet (e : Env) (s : Sav6) (pk : PKX) (slot : Nat) : Sav6 :=
  if pk.generation = Generation.SIX then
    let pk6 := e.encrypt (e.partyClone pk)
    { s with data := s.data.copyTo (partyOffset e s slot) (e.rawData pk6) }
  else s

/-- The box read `Sav6::pkm(u8 box, u8 slot) const`. -/
def pkmBox (e : Env) (s : Sav6) (box slot : Nat) : PKX :=
  e.getPKM (s.data.readBytes (boxOffset e s box slot) e.BOX_LENGTH)

/-- The loop of `trade` that moves the geolocation history down one entry, followed by
the two stores of the container's country and sub-region, with the arguments in the
order the source passes them. -/
def geoPush (e : Env) (s : Sav6) (pk : PKX) : PKX :=
  let pk := [4, 3, 2, 1].foldl
    (fun (p : PKX) (i : Nat) =>
      let p := p.geoCountrySet e (p.geoCountry (i - 1)) i
      p.geoRegionSet e (p.geoRegion (i - 1)) i) pk
  let pk := pk.geoCountrySet e 0 s.country
  pk.geoRegionSet e 0 s.subRegion

/-- The rejection loop of `trade`: `while (true)` draws `feel = randomNumber(0, 19)`
and stops at the first draw whose bit is set in `bits`.  The draws are an explicit
list; `none` means the list ran out with the loop still running. -/
def feelLoop (bits : Nat) : List (Fin 20) → Option (Nat × List (Fin 20))
  | [] => none
  | feel :: rest =>
    if bits &&& (1 <<< feel.val) ≠ 0 then some (feel.val, rest) else feelLoop bits rest

/-- Function `Sav6::trade(PKX&, const Date&)`.  The result is the rewritten record together with
the draws that were not consumed. -/
def trade (e : Env) (s : Sav6) (pk : PKX) (date : Date) (draws : List (Fin 20)) :
    Option (PKX × List (Fin 20)) :=
  if pk.generation = Generation.SIX then
    if pk.egg then
      if otName e s ≠ pk.otName ∨ TID s ≠ pk.TID ∨ SID s ≠ pk.SID ∨ gender s ≠ pk.otGender then
        some ({ pk with metLocation := 30002, metDate := date }, draws)
      else some (pk, draws)
    else if otName e s = pk.otName ∧ TID s = pk.TID ∧ SID s = pk.SID ∧
        gender s = pk.otGender then
      let pk := { pk with currentHandler := 0 }
      if ¬ pk.untraded ∧ (country s ≠ pk.geoCountry 0 ∨ subRegion s ≠ pk.geoRegion 0) then
        some (geoPush e s pk, draws)
      else some (pk, draws)
    else
      let pk :=
        if otName e s ≠ pk.htName ∨ gender s ≠ pk.htGender ∨
            (pk.geoCountry 0 = 0 ∧ pk.geoRegion 0 = 0 ∧ ¬ pk.untradedEvent) then
          geoPush e s pk
        else pk
      let pk :=
        if pk.htName ≠ otName e s then
          { pk with htFriendship := pk.baseFriendship, htAffection := 0, htName := otName e s }
        else pk
      let pk := { pk with currentHandler := 1, htGender := gender s }
      if pk.htMemory = 0 then
        let pk := { pk with htMemory := 4, htTextVar := 9, htIntensity := 1 }
        let bits := 0x04CBFD
        match feelLoop bits draws with
        | none => none
        | some (feel, rest) => some ({ pk with htFeeling := feel }, rest)
      else some (pk, draws)
  else some (pk, draws)

/-- The box write `Sav6::pkm(const PKX&, u8 box, u8 slot, bool applyTrade)`.  The
clone (a copy of the record) is traded with the given date and draws when `applyTrade` is set. -/
def pkmBoxSet (e : Env) (s : Sav6) (pk : PKX) (box slot : Nat) (applyTrade : Bool)
    (date : Date) (draws : List (Fin 20)) : Option (Sav6 × List (Fin 20)) :=
  if pk.generation = Generation.SIX then
    let traded := if applyTrade then trade e s pk date draws else some (pk, draws)
    match traded with
    | none => none
    | some (pkm, rest) =>
      some ({ s with data :=
        s.data.copyTo (boxOffset e s box slot) ((e.rawData pkm).take e.BOX_LENGTH) }, rest)
  else some (s, draws)

/-- The ORAS-only cases of the `switch` in `Sav6::dexFormIndex`, as (species, index). -/
def dexFormTableORAS : List (Int × Int) :=
  [(25, 189), (720, 196), (15, 198), (18, 200), (80, 202), (208, 204), (254, 206),
   (260, 208), (302, 210), (319, 212), (323, 214), (334, 216), (362, 218), (373, 220),
   (376, 222), (384, 224), (428, 226), (475, 228), (531, 230), (719, 232), (382, 234),
   (383, 236), (493, 238), (649, 256), (676, 261)]

/-- The cases of the second `switch` in `Sav6::dexFormIndex`, as (species, index). -/
def dexFormTable : List (Int × Int) :=
  [(666, 83), (669, 103), (670, 108), (671, 114), (710, 119), (711, 123), (681, 127),
   (716, 129), (3, 131), (6, 133), (9, 136), (65, 138), (94, 140), (115, 142), (127, 144),
   (130, 146), (142, 148), (150, 150), (181, 153), (212, 155), (214, 157), (229, 159),
   (248, 161), (257, 163), (282, 165), (303, 167), (306, 169), (308, 171), (310, 173),
   (354, 175), (359, 177), (380, 179), (381, 181), (445, 183), (448, 185), (460, 187),
   (646, 72), (647, 75), (642, 77), (641, 79), (645, 81), (201, 0), (386, 28), (492, 32),
   (487, 34), (479, 36), (422, 42), (423, 44), (412, 46), (413, 49), (351, 52), (421, 56),
   (585, 58), (586, 62), (648, 66), (555, 68), (550, 70)]

/-- Function `Sav6::dexFormIndex`: the first `switch` is tried on an ORAS container only,
a species it does not list falls through to the second one, whose default is -1. -/
def dexFormIndex (game : Game) (species formct : Int) : Int :=
  if formct < 1 ∨ species < 0 then -1
  else
    match (if game = Game.ORAS then dexFormTableORAS.lookup species else none) with
    | some r => r
    | none =>
      match dexFormTable.lookup species with
      | some r => r
      | none => -1

/-- The section "Owned quality flag" of `Sav6::dex`. -/
def dexOwnedFlag (e : Env) (s : Sav6) (pk : PKX) (d : Buffer) : Buffer :=
  let brSize := 0x60
  let bit := u16 pk.species - 1
  let bd := bit >>> 3
  let bm := bit &&& 7
  let mask := u8 (1 <<< bm)
  let ofs := s.PokeDex + 0x8 + bd
  if pk.version < e.versionX ∧ bit < 649 ∧ s.game ≠ Game.ORAS then
    d.orAt (ofs + 0x644) mask
  else if pk.version ≥ e.versionX ∨ s.game = Game.ORAS then
    d.orAt (ofs + brSize * 0) mask
  else d

/-- The section "Set the [Species/Gender/Shiny] Seen Flag" of `Sav6::dex`. -/
def dexSeenFlag (s : Sav6) (pk : PKX) (d : Buffer) : Buffer :=
  let brSize := 0x60
  let bit := u16 pk.species - 1
  let gender := u8 pk.gender % 2
  let shiny := if pk.shiny then 1 else 0
  let shiftoff := brSize * (1 + gender + 2 * shiny)
  let bd := bit >>> 3
  let bm := bit &&& 7
  let mask := u8 (1 <<< bm)
  let ofs := s.PokeDex + 0x8 + bd
  d.orAt (ofs + shiftoff) mask

/-- The value of `displayed` in `Sav6::dex` after the four tests of the display planes. -/
def dexDisplayed (s : Sav6) (pk : PKX) (d : Buffer) : Bool :=
  let brSize := 0x60
  let bit := u16 pk.species - 1
  let bd := bit >>> 3
  let bm := bit &&& 7
  let mask := u8 (1 <<< bm)
  let ofs := s.PokeDex + 0x8 + bd
  decide (d.read (ofs + brSize * 5) &&& mask ≠ 0) ||
  decide (d.read (ofs + brSize * 6) &&& mask ≠ 0) ||
  decide (d.read (ofs + brSize * 7) &&& mask ≠ 0) ||
  decide (d.read (ofs + brSize * 8) &&& mask ≠ 0)

/-- The section "Set the Display flag if none are set" of `Sav6::dex`. -/
def dexDisplayFlag (s : Sav6) (pk : PKX) (d : Buffer) : Buffer :=
  let brSize := 0x60
  let bit := u16 pk.species - 1
  let gender := u8 pk.gender % 2
  let shiny := if pk.shiny then 1 else 0
  let shiftoff := brSize * (1 + gender + 2 * shiny)
  let bd := bit >>> 3
  let bm := bit &&& 7
  let mask := u8 (1 <<< bm)
  let ofs := s.PokeDex + 0x8 + bd
  if ¬ dexDisplayed s pk d then d.orAt (ofs + brSize * 4 + shiftoff) mask else d

/-- The language index of `Sav6::dex`: `lang = u8(language) - 1`, one less when above 5,
and 1 when negative. -/
def dexLang (pk : PKX) : Nat :=
  let lang : Int := (u8 pk.language : Int) - 1
  let lang : Int := if lang > 5 then lang - 1 else lang
  let lang : Int := if lang < 0 then 1 else lang
  lang.toNat

/-- The section "Set the Language" of `Sav6::dex`. -/
def dexLanguageFlag (s : Sav6) (pk : PKX) (d : Buffer) : Buffer :=
  let bit := u16 pk.species - 1
  let lang := dexLang pk
  d.orAt (s.PokeDexLanguageFlags + (bit * 7 + lang) / 8) (u8 (1 <<< ((bit * 7 + lang) % 8)))

/-- The section "Set DexNav count (only if not encountered previously)" of `Sav6::dex`. -/
def dexNavCount (s : Sav6) (pk : PKX) (d : Buffer) : Buffer :=
  if s.game = Game.ORAS ∧ d.convertTo16 (s.EncounterCount + (u16 pk.species - 1) * 2) = 0 then
    d.convertFrom16 (s.EncounterCount + (u16 pk.species - 1) * 2) 1
  else d

/-- Whether the loop over the forms in `Sav6::dex` returns early: some form `f + i` with
`i < fc` has its bit set in the non-shiny or in the shiny displayed plane. -/
def dexFormDisplayed (s : Sav6) (f fc : Nat) (d : Buffer) : Bool :=
  let brSize := 0x60
  let formLen := if s.game = Game.XY then 0x18 else 0x26
  let formDex := s.PokeDex + 0x8 + brSize * 9
  (List.range fc).any (fun i =>
    let bit := f + i
    decide (d.read (formDex + formLen * 2 + bit / 8) &&& u8 (1 <<< (bit % 8)) ≠ 0) ||
    decide (d.read (formDex + formLen * 3 + bit / 8) &&& u8 (1 <<< (bit % 8)) ≠ 0))

/-- The section "Set Form flags" of `Sav6::dex`. -/
def dexFormFlags (e : Env) (s : Sav6) (pk : PKX) (d : Buffer) : Buffer :=
  let brSize := 0x60
  let shiny := if pk.shiny then 1 else 0
  let fc := e.formCount (u16 pk.species)
  let f := dexFormIndex s.game (u16 pk.species) fc
  if f < 0 then d
  else
    let formLen := if s.game = Game.XY then 0x18 else 0x26
    let formDex := s.PokeDex + 0x8 + brSize * 9
    let bit := f.toNat + pk.alternativeForm
    let d := d.orAt (formDex + formLen * shiny + bit / 8) (u8 (1 <<< (bit % 8)))
    if dexFormDisplayed s f.toNat fc d then d
    else
      let bit := f.toNat + pk.alternativeForm
      d.orAt (formDex + formLen * (2 + shiny) + bit / 8) (u8 (1 <<< (bit % 8)))

/-- Function `Sav6::dex`.  The subtraction `u16(species) - 1` is the source's for every
species number from 1 on; for species 0 the source goes on to shift by a negative
amount, which C++ leaves undefined. -/
def dex (e : Env) (s : Sav6) (pk : PKX) : Sav6 :=
  if ¬ (s.availableSpecies.count pk.species > 0) ∨ pk.egg then s
  else
    let d := dexOwnedFlag e s pk s.data
    let d := dexSeenFlag s pk d
    let d := dexDisplayFlag s pk d
    let d := dexLanguageFlag s pk d
    let d := dexNavCount s pk d
    { s with data := dexFormFlags e s pk d }

/-- The inner loop of `Sav6::dexSeen` for one species: one of the four seen planes
(gender and shinies) has the species' bit set. -/
def seenAny (s : Sav6) (spec : Nat) : Bool :=
  let i := u16 spec
  let bitIndex := (i - 1) &&& 7
  (List.range 4).any (fun j =>
    decide ((s.data.read (s.PokeDex + (0x68 + j * 0x60) + ((i - 1) >>> 3))
      >>> bitIndex) &&& 1 ≠ 0))

/-- Function `Sav6::dexSeen`. -/
def dexSeen (s : Sav6) : Nat :=
  s.availableSpecies.foldl (fun ret spec => if seenAny s spec then ret + 1 else ret) 0

/-- The layout of the dex region that the counting results rely on: the species set has
no repetition and holds numbers from 1 to 768 (a plane is 0x60 bytes), the language
flags lie after the nine planes at `PokeDex + 0x8` (owned, four seen, four displayed),
and on ORAS the encounter table lies outside those planes. -/
structure DexLayout (s : Sav6) : Prop where
  nodup : s.availableSpecies.Nodup
  range : ∀ sp ∈ s.availableSpecies, 1 ≤ sp ∧ sp ≤ 768
  lang : s.PokeDex + 0x8 + 0x60 * 9 ≤ s.PokeDexLanguageFlags
  enc : s.game = Game.ORAS →
    s.PokeDex + 0x8 + 0x60 * 9 ≤ s.EncounterCount ∨
    s.EncounterCount + 2 * 768 ≤ s.PokeDex + 0x8

/-- Function `Sav6::mysteryGift(const WCX&, int&)`; the cursor `pos` is passed in and the
new cursor is returned with the container. -/
def mysteryGift (e : Env) (s : Sav6) (wc : WCX) (pos : Nat) : Sav6 × Nat :=
  if wc.generation = Generation.SIX then
    let d := s.data.orAt (s.WondercardFlags + wc.ID / 8) (0x1 <<< (wc.ID % 8))
    let d := d.copyTo (s.WondercardData + e.WC6_length * pos)
      ((List.range e.WC6_length).map wc.rawData)
    let d :=
      if s.game = Game.ORAS ∧ wc.ID = 2048 ∧ wc.object = 726 then
        (d.convertFrom32 0x319B8 0x225D73C2).convertFrom32 0x319DE 0x225D73C2
      else d
    ({ s with data := d }, (pos + 1) % 24)
  else (s, pos)

/-- The inner loop of `Sav6::currentGiftAmount`: voucher slot `t` holds only zero bytes. -/
def giftSlotEmpty (e : Env) (s : Sav6) (t : Nat) : Bool :=
  (List.range e.WC6_length).all (fun j =>
    decide (s.data.read (s.WondercardData + t * e.WC6_length + j) = 0))

/-- The outer loop of `Sav6::currentGiftAmount` from slot `t` on, with `n` slots left. -/
def giftScan (e : Env) (s : Sav6) : Nat → Nat → Nat
  | 0, t => t
  | n + 1, t => if giftSlotEmpty e s t then t else giftScan e s n (t + 1)

/-- Function `Sav6::currentGiftAmount`. -/
def currentGiftAmount (e : Env) (s : Sav6) : Nat := giftScan e s 24 0

/-- The item write `Sav6::item(const Item&, Pouch, u16 slot)`. -/
def itemSet (s : Sav6) (item : Item) (pouch : Pouch) (slot : Nat) : Sav6 :=
  let write := item.bytes
  match pouch with
  | Pouch.NormalItem => { s with data := s.data.copyTo (s.PouchHeldItem + slot * 4) write }
  | Pouch.KeyItem => { s with data := s.data.copyTo (s.PouchKeyItem + slot * 4) write }
  | Pouch.TM => { s with data := s.data.copyTo (s.PouchTMHM + slot * 4) write }
  | Pouch.Medicine => { s with data := s.data.copyTo (s.PouchMedicine + slot * 4) write }
  | Pouch.Berry => { s with data := s.data.copyTo (s.PouchBerry + slot * 4) write }
  | _ => s

/-- The item read `Sav6::item(Pouch, u16 slot) const`; `none` is the null pointer. -/
def itemGet (s : Sav6) (pouch : Pouch) (slot : Nat) : Option Item :=
  match pouch with
  | Pouch.NormalItem => some ⟨s.data.readBytes (s.PouchHeldItem + slot * 4) 4⟩
  | Pouch.KeyItem => some ⟨s.data.readBytes (s.PouchKeyItem + slot * 4) 4⟩
  | Pouch.TM => some ⟨s.data.readBytes (s.PouchTMHM + slot * 4) 4⟩
  | Pouch.Medicine => some ⟨s.data.readBytes (s.PouchMedicine + slot * 4) 4⟩
  | Pouch.Berry => some ⟨s.data.readBytes (s.PouchBerry + slot * 4) 4⟩
  | _ => none

/-- Function `Sav6::pouches`: each known pouch with its capacity. -/
def pouches (s : Sav6) : List (Pouch × Nat) :=
  [(Pouch.NormalItem, if s.game = Game.XY then 286 else 305),
   (Pouch.KeyItem, if s.game = Game.XY then 31 else 47),
   (Pouch.TM, if s.game = Game.XY then 105 else 107),
   (Pouch.Medicine, if s.game = Game.XY then 51 else 54),
   (Pouch.Berry, 67)]

end Sav6

/-- The table `SavLGPE::chkofs`: the offset of each of the 21 checksummed regions. -/
def SavLGPE.chkofs : List Nat :=
  [0x00000, 0x00E00, 0x01000, 0x01200, 0x02A00, 0x04C00, 0x05600, 0x05800, 0x05A00,
   0x05C00, 0x45400, 0x45600, 0x46600, 0x47800, 0x47A00, 0x4DC00, 0x4DE00, 0x4E000,
   0x4E200, 0xB7A00, 0xB7C00]

/-- The table `SavLGPE::chklen`: the length of each of the 21 checksummed regions. -/
def SavLGPE.chklen : List Nat :=
  [0xD90, 0x200, 0x168, 0x1800, 0x20E8, 0x930, 0x004, 0x130, 0x012, 0x3F7A0, 0x008,
   0xE90, 0x10A4, 0x0F0, 0x6010, 0x200, 0x098, 0x068, 0x69780, 0x0B0, 0x940]

/-- A run of `Sav6::mysteryGift` calls, one for each voucher of the list in order, the
cursor of each call being the one the previous call returned. -/
def Sav6.redeemAll (e : Env) (s : Sav6) (wcs : List WCX) (pos : Nat) : Sav6 × Nat :=
  wcs.foldl (fun sp wc => Sav6.mysteryGift e sp.1 wc sp.2) (s, pos)

/-- A voucher whose redemption fills one slot of the ring and touches no other slot: it
is of generation six, one of its `WC6::length` bytes is not zero, the byte of its
redeemed flag lies outside the 24-slot ring, and if it is the special-cased voucher of
an ORAS container the two patched words lie outside the ring. -/
structure Sav6.Redeemable (e : Env) (s : Sav6) (wc : WCX) : Prop where
  gen : wc.generation = Generation.SIX
  nonzero : ∃ j, j < e.WC6_length ∧ wc.rawData j ≠ 0
  flag : s.WondercardFlags + wc.ID / 8 < s.WondercardData ∨
    s.WondercardData + 24 * e.WC6_length ≤ s.WondercardFlags + wc.ID / 8
  patch : s.game = Game.ORAS → wc.ID = 2048 → wc.object = 726 →
    0x319DE + 4 ≤ s.WondercardData ∨ s.WondercardData + 24 * e.WC6_length ≤ 0x319B8

/-- The part of the handler-change branch of `Sav6::trade` that comes before the test of
the handler memory: the conditional push of the geolocation history, the conditional
reset of the handler relationship, and the stores of the current handler and the
handler gender. -/
def Sav6.handlerChange (e : Env) (s : Sav6) (pk : PKX) : PKX :=
  let pk :=
    if Sav6.otName e s ≠ pk.htName ∨ Sav6.gender s ≠ pk.htGender ∨
        (pk.geoCountry 0 = 0 ∧ pk.geoRegion 0 = 0 ∧ ¬ pk.untradedEvent) then
      Sav6.geoPush e s pk
    else pk
  let pk :=
    if pk.htName ≠ Sav6.otName e s then
      { pk with htFriendship := pk.baseFriendship, htAffection := 0, htName := Sav6.otName e s }
    else pk
  { pk with currentHandler := 1, htGender := Sav6.gender s }

/-- The byte offsets at which the flag sections of `Sav6::dex` store for a record: the
owned byte of the plane that the owned section selects (none if it selects no plane),
the seen byte, the displayed byte, the language byte and, when the species has a form
index, the form-seen and the form-displayed byte.  The two bytes of the encounter count
are not in the list. -/
def Sav6.dexFlagBytes (e : Env) (s : Sav6) (pk : PKX) : List Nat :=
  let brSize := 0x60
  let bit := u16 pk.species - 1
  let gender := u8 pk.gender % 2
  let shiny := if pk.shiny then 1 else 0
  let shiftoff := brSize * (1 + gender + 2 * shiny)
  let bd := bit >>> 3
  let ofs := s.PokeDex + 0x8 + bd
  let fc := e.formCount (u16 pk.species)
  let f := Sav6.dexFormIndex s.game (u16 pk.species) fc
  let formLen := if s.game = Game.XY then 0x18 else 0x26
  let formDex := s.PokeDex + 0x8 + brSize * 9
  let fbit := f.toNat + pk.alternativeForm
  (if pk.version < e.versionX ∧ bit < 649 ∧ s.game ≠ Game.ORAS then [ofs + 0x644]
    else if pk.version ≥ e.versionX ∨ s.game = Game.ORAS then [ofs + brSize * 0]
    else []) ++
  [ofs + shiftoff, ofs + brSize * 4 + shiftoff,
    s.PokeDexLanguageFlags + (bit * 7 + Sav6.dexLang pk) / 8] ++
  (if f < 0 then []
    else [formDex + formLen * shiny + fbit / 8, formDex + formLen * (2 + shiny) + fbit / 8])

/-! ## Concrete inputs

A layout with the record lengths of generation six (232-byte box records, 260-byte
party records, 264-byte vouchers), a buffer that holds a trainer card and zero bytes
elsewhere, and the species 1 to 721. -/

/-- A record of generation six: species 1, male, not shiny, not an egg, of origin
version 24, with original trainer "Serena" (12345 / 54321, gender 1). -/
def examplePK : PKX :=
  { generation := Generation.SIX, species := 1, alternativeForm := 0, gender := 0,
    shiny := false, egg := false, version := 24, language := 2, otName := "Serena",
    TID := 12345, SID := 54321, otGender := 1, metLocation := 8, metDate := ⟨1, 1, 2014⟩,
    currentHandler := 1, untraded := false, untradedEvent := false,
    geoCountry := fun _ => 0, geoRegion := fun _ => 0, htName := "Calem", htGender := 0,
    htFriendship := 70, baseFriendship := 70, htAffection := 0, htMemory := 0,
    htTextVar := 0, htIntensity := 0, htFeeling := 0 }

/-- An egg of another trainer (TID 999). -/
def exampleEgg : PKX := { examplePK with egg := true, TID := 999 }

/-- A record of generation five. -/
def examplePK5 : PKX := { examplePK with generation := Generation.FIVE }

/-- A record that comes from an older game: origin version 20, before version 24. -/
def examplePKOld : PKX := { examplePK with version := 20 }

/-- A female shiny record of the species of `examplePK`. -/
def examplePKFemaleShiny : PKX := { examplePK with gender := 1, shiny := true }

/-- A generation-six voucher with ID 0 whose bytes are all zero. -/
def exampleWCZero : WCX :=
  { generation := Generation.SIX, ID := 0, object := 0, rawData := fun _ => 0 }

/-- A generation-six voucher with ID 1, the ID being its first byte. -/
def exampleWC : WCX :=
  { generation := Generation.SIX, ID := 1, object := 0,
    rawData := fun j => if j = 0 then 1 else 0 }

/-- An item record of four bytes. -/
def exampleItem : Item := ⟨[1, 0, 5, 0]⟩

/-- A toy codec for the concrete inputs: the encoded record is 232 bytes, the species
number in the first byte and zero bytes after it. -/
def exampleRawData (pk : PKX) : List Byte :=
  ⟨pk.species % 256, Nat.mod_lt _ (by decide)⟩ :: List.replicate 231 0

/-- The decoder of the toy codec: the species is read from the first byte. -/
def exampleGetPKM (bs : List Byte) : PKX :=
  { examplePK with species := (bs.headD 0).val }

/-- The environment of the concrete inputs. -/
def exampleEnv : Env :=
  { BOX_LENGTH := 232, PARTY_LENGTH := 260, WC6_length := 264, versionX := 24,
    getPKM := exampleGetPKM, rawData := exampleRawData, partyClone := id, encrypt := id,
    getString := fun _ _ _ => "Serena", formCount := fun _ => 1, geoValueFirst := true }

/-- The environment of the concrete inputs with the other argument order of the
geolocation setters: the entry number first, the value second. -/
def exampleEnvEntryFirst : Env := { exampleEnv with geoValueFirst := false }

/-- The record of the container's own trainer with a geolocation history: countries
10, 20, 30, 40, 50 and regions 11, 12, 13, 14, 15 in entries 0 to 4. -/
def examplePKHistory : PKX :=
  { examplePK with
    geoCountry := fun i => [10, 20, 30, 40, 50].getD i 0,
    geoRegion := fun i => [11, 12, 13, 14, 15].getD i 0 }

/-- A record of another trainer (TID 999) with the same history, whose handler has the
container's trainer name but gender 0, and whose handler memory is 5. -/
def examplePKTraded : PKX :=
  { examplePKHistory with TID := 999, htName := "Serena", htGender := 0, htMemory := 5 }

/-- A record of another trainer (TID 999) with no handler memory yet. -/
def examplePKOther : PKX := { examplePK with TID := 999 }

/-- A record of the species of `examplePK` whose language value is 9. -/
def examplePKLanguage9 : PKX := { examplePK with language := 9 }

/-- A record of species 650 that comes from an older game (origin version 20). -/
def examplePKOld650 : PKX := { examplePKOld with species := 650 }

/-- A generation-six voucher with the ID and the object number of the special case of
`Sav6::mysteryGift` (ID 2048, object 726); its first two bytes are the ID in
little-endian order, the other bytes are zero. -/
def exampleWCEon : WCX :=
  { generation := Generation.SIX, ID := 2048, object := 726,
    rawData := fun j => if j = 1 then 8 else 0 }

/-- A generation-six voucher with ID 2, its first two bytes being the ID in little-endian
order, the other bytes zero. -/
def exampleWCTwo : WCX :=
  { generation := Generation.SIX, ID := 2, object := 0,
    rawData := fun j => if j = 0 then 2 else 0 }

/-- A buffer that is zero except for the trainer card at 0x14000: TID 12345, SID 54321,
gender 1, sub-region 7 and country 49. -/
def exampleData : Buffer := fun i =>
  if i = 0x14000 then 0x39 else if i = 0x14001 then 0x30
  else if i = 0x14002 then 0x31 else if i = 0x14003 then 0xD4
  else if i = 0x14005 then 1 else if i = 0x14026 then 7 else if i = 0x14027 then 49
  else 0

/-- An XY container over `exampleData`. -/
def exampleXY : Sav6 :=
  { game := Game.XY, data := exampleData, length := 0x65600, TrainerCard := 0x14000,
    Box := 0x22600, Party := 0x14200, PokeDex := 0x15000, PokeDexLanguageFlags := 0x153C8,
    EncounterCount := 0x15686, WondercardFlags := 0x1BC00, WondercardData := 0x1BD00,
    PouchHeldItem := 0x400, PouchKeyItem := 0x840, PouchTMHM := 0x9C0,
    PouchMedicine := 0xB68, PouchBerry := 0xC68, maxBoxes := 31,
    availableSpecies := List.range' 1 721 }

/-- An ORAS container over `exampleData`. -/
def exampleORAS : Sav6 :=
  { exampleXY with
    game := Game.ORAS, length := 0x76000, Box := 0x33000,
    PokeDexLanguageFlags := 0x15400, WondercardFlags := 0x1CC00, WondercardData := 0x1CD00 }

end pksm

/-! ## Lemmas about the buffer -/

namespace pksm

theorem Buffer.read_lt (b : Buffer) (i : Nat) : b.read i < 256 := (b i).isLt

theorem Buffer.ext_read {a b : Buffer} (h : ∀ i, a.read i = b.read i) : a = b :=
  funext fun i => Fin.ext (h i)

theorem Buffer.read_write (b : Buffer) (i v j : Nat) :
    (b.write i v).read j = if j = i then v % 256 else b.read j := by
  unfold Buffer.write Buffer.read
  by_cases h : j = i <;> simp [h]

theorem Buffer.copyTo_apply (bs : List Byte) : ∀ (b : Buffer) (ofs j : Nat),
    (b.copyTo ofs bs) j =
      if h : ofs ≤ j ∧ j < ofs + bs.length then bs.get ⟨j - ofs, by omega⟩ else b j := by
  induction bs with
  | nil =>
    intro b ofs j
    have h : ¬ (ofs ≤ j ∧ j < ofs + ([] : List Byte).length) := by
      simp only [List.length_nil]; omega
    rw [dif_neg h, Buffer.copyTo]
  | cons x xs ih =>
    intro b ofs j
    rw [Buffer.copyTo, ih]
    by_cases h1 : ofs + 1 ≤ j ∧ j < ofs + 1 + xs.length
    · have h2 : ofs ≤ j ∧ j < ofs + (x :: xs).length := by
        simp only [List.length_cons]; omega
      rw [dif_pos h1, dif_pos h2]
      have h3 : j - ofs = (j - (ofs + 1)) + 1 := by omega
      simp only [List.get_eq_getElem, h3, List.getElem_cons_succ]
    · rw [dif_neg h1]
      by_cases h4 : j = ofs
      · subst h4
        have h2 : j ≤ j ∧ j < j + (x :: xs).length := by
          simp only [List.length_cons]; omega
        rw [dif_pos h2]
        simp
      · have h2 : ¬ (ofs ≤ j ∧ j < ofs + (x :: xs).length) := by
          simp only [List.length_cons]; omega
        rw [dif_neg h2]
        simp [h4]

theorem Buffer.copyTo_outside (b : Buffer) (ofs : Nat) (bs : List Byte) (j : Nat)
    (h : j < ofs ∨ ofs + bs.length ≤ j) : (b.copyTo ofs bs) j = b j := by
  rw [Buffer.copyTo_apply]
  have : ¬ (ofs ≤ j ∧ j < ofs + bs.length) := by omega
  rw [dif_neg this]

theorem Buffer.readBytes_copyTo (b : Buffer) (ofs : Nat) (bs : List Byte) :
    (b.copyTo ofs bs).readBytes ofs bs.length = bs := by
  apply List.ext_get
  · simp [Buffer.readBytes]
  · intro n h1 h2
    simp only [Buffer.readBytes, List.get_eq_getElem, List.getElem_map, List.getElem_range]
    rw [Buffer.copyTo_apply]
    have : ofs ≤ ofs + n ∧ ofs + n < ofs + bs.length := by omega
    rw [dif_pos this]
    simp

end pksm

/-! ## Bits of the buffer -/

namespace pksm

theorem Buffer.bit_lt {b : Buffer} {i k : Nat} (h : b.bit i k = true) : k < 8 := by
  by_contra hk
  have h1 : b.read i < 2 ^ k :=
    Nat.lt_of_lt_of_le (b.read_lt i)
      (by
        have : (2:Nat) ^ 8 ≤ 2 ^ k := Nat.pow_le_pow_right (by decide) (by omega)
        simpa using this)
  have := Nat.testBit_lt_two_pow h1
  unfold Buffer.bit at h
  rw [this] at h
  exact Bool.noConfusion h

theorem Buffer.ext_bit {a b : Buffer} (h : ∀ i k, a.bit i k = b.bit i k) : a = b :=
  Buffer.ext_read fun i => Nat.eq_of_testBit_eq fun k => h i k

theorem Buffer.bit_write (b : Buffer) (i v j k : Nat) :
    (b.write i v).bit j k = if j = i then (decide (k < 8) && v.testBit k) else b.bit j k := by
  unfold Buffer.bit
  rw [Buffer.read_write]
  by_cases h : j = i
  · simp only [h, if_true]
    exact Nat.testBit_mod_two_pow v 8 k
  · simp only [h, if_false]

theorem Buffer.bit_orAt (b : Buffer) (i m j k : Nat) :
    (b.orAt i m).bit j k =
      if j = i then (b.bit i k || (decide (k < 8) && m.testBit k)) else b.bit j k := by
  unfold Buffer.orAt
  rw [Buffer.bit_write]
  by_cases h : j = i
  · simp only [h, if_true, Nat.testBit_lor]
    by_cases hb : b.bit i k = true
    · have hk := Buffer.bit_lt hb
      unfold Buffer.bit at hb
      simp [hb, hk, Buffer.bit]
    · have hb' : b.bit i k = false := by simpa using hb
      have hb'' : (b.read i).testBit k = false := hb'
      simp [hb', hb'']
  · simp only [h, if_false]

theorem testBit_mask (n k : Nat) :
    (u8 (1 <<< n)).testBit k = (decide (k < 8) && decide (n = k)) := by
  unfold u8
  rw [show (256:Nat) = 2 ^ 8 from rfl, Nat.testBit_mod_two_pow, Nat.one_shiftLeft,
    Nat.testBit_two_pow]

theorem and_mask_ne_zero (x n : Nat) (hn : n < 8) :
    x &&& u8 (1 <<< n) ≠ 0 ↔ x.testBit n = true := by
  constructor
  · intro h
    obtain ⟨i, hi⟩ := Nat.ne_zero_implies_bit_true h
    rw [Nat.testBit_and, testBit_mask] at hi
    simp only [Bool.and_eq_true, decide_eq_true_eq] at hi
    obtain ⟨h1, _, h3⟩ := hi
    rw [h3]; exact h1
  · intro h h0
    have : (x &&& u8 (1 <<< n)).testBit n = true := by
      rw [Nat.testBit_and, testBit_mask, h]
      simp [hn]
    rw [h0] at this
    simp at this

theorem shift_and_one_ne_zero (x n : Nat) :
    (x >>> n) &&& 1 ≠ 0 ↔ x.testBit n = true := by
  rw [Nat.and_one_is_mod, Nat.shiftRight_eq_div_pow, Nat.testBit_to_div_mod]
  simp only [decide_eq_true_eq]
  omega

theorem and_seven_lt (x : Nat) : x &&& 7 < 8 :=
  Nat.and_lt_two_pow x (show 7 < 2 ^ 3 by decide)

theorem Buffer.le_refl (a : Buffer) : a.le a := fun _ _ h => h

theorem Buffer.le_trans {a b c : Buffer} (h1 : a.le b) (h2 : b.le c) : a.le c :=
  fun i k h => h2 i k (h1 i k h)

theorem Buffer.le_orAt (b : Buffer) (i m : Nat) : b.le (b.orAt i m) := by
  intro j k h
  rw [Buffer.bit_orAt]
  by_cases hj : j = i
  · subst hj; simp [h]
  · simp [hj, h]

theorem Buffer.orAt_eq_self (c : Buffer) (i m : Nat)
    (h : ∀ k, k < 8 → m.testBit k = true → c.bit i k = true) : c.orAt i m = c := by
  apply Buffer.ext_bit
  intro j k
  rw [Buffer.bit_orAt]
  by_cases hj : j = i
  · subst hj
    simp only [if_true]
    by_cases hc : c.bit j k = true
    · simp [hc]
    · by_cases hk : k < 8
      · by_cases hm : m.testBit k = true
        · exact absurd (h k hk hm) hc
        · simp [hm]
      · simp [hk]
  · simp [hj]

theorem Buffer.orAt_le_imp {a c : Buffer} {i m : Nat} (h : (a.orAt i m).le c) :
    ∀ k, k < 8 → m.testBit k = true → c.bit i k = true := by
  intro k hk hm
  apply h i k
  rw [Buffer.bit_orAt]
  simp [hk, hm]

theorem Absorbing.congr {F G : Buffer → Buffer} (h : ∀ b, F b = G b) (hG : Absorbing G) :
    Absorbing F := by
  have : F = G := funext h
  rw [this]; exact hG

theorem Absorbing.id : Absorbing (fun b => b) :=
  ⟨fun b => Buffer.le_refl b, fun _ _ _ _ => rfl⟩

theorem Absorbing.orAt (i m : Nat) : Absorbing (fun b => b.orAt i m) :=
  ⟨fun b => Buffer.le_orAt b i m,
   fun _ c _ h => Buffer.orAt_eq_self c i m (Buffer.orAt_le_imp h)⟩

theorem Absorbing.comp {F G : Buffer → Buffer} (hF : Absorbing F) (hG : Absorbing G) :
    Absorbing (fun b => G (F b)) := by
  refine ⟨fun b => Buffer.le_trans (hF.1 b) (hG.1 (F b)), ?_⟩
  intro a c hac h
  have h1 : (F a).le c := Buffer.le_trans (hG.1 (F a)) h
  have h2 : F c = c := hF.2 a c hac h1
  show G (F c) = c
  rw [h2]
  exact hG.2 (F a) c h1 h

theorem Absorbing.guard {p : Buffer → Prop} [DecidablePred p] (i m : Nat)
    (hp : ∀ a c : Buffer, a.le c → p c → p a) :
    Absorbing (fun b => if p b then b.orAt i m else b) := by
  refine ⟨?_, ?_⟩
  · intro b
    show b.le (if p b then b.orAt i m else b)
    split
    · exact Buffer.le_orAt b i m
    · exact Buffer.le_refl b
  · intro a c hac h
    show (if p c then c.orAt i m else c) = c
    by_cases hc : p c
    · have ha := hp a c hac hc
      simp only [ha, if_true] at h
      rw [if_pos hc]
      exact Buffer.orAt_eq_self c i m (Buffer.orAt_le_imp h)
    · rw [if_neg hc]

theorem Absorbing.unless {p : Buffer → Prop} [DecidablePred p] (i m : Nat)
    (hp : ∀ a c : Buffer, a.le c → p a → p c) :
    Absorbing (fun b => if p b then b else b.orAt i m) := by
  refine Absorbing.congr (G := fun b => if ¬ p b then b.orAt i m else b) ?_ ?_
  · intro b
    by_cases h : p b <;> simp [h]
  · exact Absorbing.guard i m (fun a c hac hc ha => hc (hp a c hac ha))

theorem Absorbing.idem {F : Buffer → Buffer} (hF : Absorbing F) (b : Buffer) :
    F (F b) = F b :=
  hF.2 b (F b) (hF.1 b) (Buffer.le_refl (F b))

end pksm

/-! ## The steps of `dex` only set bits -/

namespace pksm

theorem Buffer.read_eq_zero_of_le {a c : Buffer} (h : a.le c) (i : Nat)
    (hc : c.read i = 0) : a.read i = 0 := by
  apply Nat.zero_of_testBit_eq_false
  intro k
  by_contra hk
  have hk' : a.bit i k = true := by
    unfold Buffer.bit
    simpa using hk
  have := h i k hk'
  unfold Buffer.bit at this
  rw [hc] at this
  simp at this

theorem Buffer.bit_false_of_read_zero {b : Buffer} {i : Nat} (h : b.read i = 0) (k : Nat) :
    b.bit i k = false := by
  unfold Buffer.bit
  rw [h]
  simp

theorem Buffer.bit_convertFrom16 (b : Buffer) (p v j k : Nat) :
    (b.convertFrom16 p v).bit j k =
      if j = p + 1 then (decide (k < 8) && (v / 256).testBit k)
      else if j = p then (decide (k < 8) && v.testBit k) else b.bit j k := by
  unfold Buffer.convertFrom16
  rw [Buffer.bit_write]
  by_cases h1 : j = p + 1
  · simp only [h1, if_true]
  · simp only [h1, if_false]
    rw [Buffer.bit_write]

theorem Buffer.convertTo16_eq_zero (b : Buffer) (p : Nat) :
    b.convertTo16 p = 0 ↔ b.read p = 0 ∧ b.read (p + 1) = 0 := by
  unfold Buffer.convertTo16
  omega

namespace Sav6

theorem dexOwnedFlag_absorbing (e : Env) (s : Sav6) (pk : PKX) :
    Absorbing (dexOwnedFlag e s pk) := by
  by_cases h1 : pk.version < e.versionX ∧ u16 pk.species - 1 < 649 ∧ s.game ≠ Game.ORAS
  · exact Absorbing.congr (fun b => by simp only [dexOwnedFlag]; rw [if_pos h1])
      (Absorbing.orAt _ _)
  · by_cases h2 : pk.version ≥ e.versionX ∨ s.game = Game.ORAS
    · exact Absorbing.congr
        (fun b => by simp only [dexOwnedFlag]; rw [if_neg h1, if_pos h2])
        (Absorbing.orAt _ _)
    · exact Absorbing.congr
        (fun b => by simp only [dexOwnedFlag]; rw [if_neg h1, if_neg h2])
        Absorbing.id

theorem dexSeenFlag_absorbing (s : Sav6) (pk : PKX) : Absorbing (dexSeenFlag s pk) :=
  Absorbing.congr (fun _ => rfl) (Absorbing.orAt _ _)

theorem dexDisplayed_iff (s : Sav6) (pk : PKX) (d : Buffer) :
    dexDisplayed s pk d = true ↔
      d.bit (s.PokeDex + 0x8 + (u16 pk.species - 1) >>> 3 + 0x60 * 5)
          ((u16 pk.species - 1) &&& 7) = true ∨
      d.bit (s.PokeDex + 0x8 + (u16 pk.species - 1) >>> 3 + 0x60 * 6)
          ((u16 pk.species - 1) &&& 7) = true ∨
      d.bit (s.PokeDex + 0x8 + (u16 pk.species - 1) >>> 3 + 0x60 * 7)
          ((u16 pk.species - 1) &&& 7) = true ∨
      d.bit (s.PokeDex + 0x8 + (u16 pk.species - 1) >>> 3 + 0x60 * 8)
          ((u16 pk.species - 1) &&& 7) = true := by
  have hb := and_seven_lt (u16 pk.species - 1)
  simp only [dexDisplayed, Bool.or_eq_true, decide_eq_true_eq, and_mask_ne_zero _ _ hb,
    Buffer.bit]
  tauto

theorem dexDisplayed_mono (s : Sav6) (pk : PKX) {a c : Buffer} (h : a.le c)
    (ha : dexDisplayed s pk a = true) : dexDisplayed s pk c = true := by
  rw [dexDisplayed_iff] at ha ⊢
  rcases ha with ha | ha | ha | ha
  · exact Or.inl (h _ _ ha)
  · exact Or.inr (Or.inl (h _ _ ha))
  · exact Or.inr (Or.inr (Or.inl (h _ _ ha)))
  · exact Or.inr (Or.inr (Or.inr (h _ _ ha)))

theorem dexDisplayFlag_absorbing (s : Sav6) (pk : PKX) : Absorbing (dexDisplayFlag s pk) := by
  refine Absorbing.congr (G := fun b => if ¬ dexDisplayed s pk b = true then
    b.orAt (s.PokeDex + 0x8 + (u16 pk.species - 1) >>> 3 + 0x60 * 4 +
      0x60 * (1 + u8 pk.gender % 2 + 2 * (if pk.shiny then 1 else 0)))
      (u8 (1 <<< ((u16 pk.species - 1) &&& 7))) else b) (fun _ => rfl) ?_
  exact Absorbing.guard _ _ (fun a c hac hc ha => hc (dexDisplayed_mono s pk hac ha))

theorem dexLanguageFlag_absorbing (s : Sav6) (pk : PKX) : Absorbing (dexLanguageFlag s pk) :=
  Absorbing.congr (fun _ => rfl) (Absorbing.orAt _ _)

theorem dexNavCount_absorbing (s : Sav6) (pk : PKX) : Absorbing (dexNavCount s pk) := by
  refine ⟨?_, ?_⟩
  · intro b j k hb
    unfold dexNavCount
    split
    · rename_i hg
      obtain ⟨h0, h1⟩ := (Buffer.convertTo16_eq_zero _ _).1 hg.2
      rw [Buffer.bit_convertFrom16]
      by_cases hj1 : j = s.EncounterCount + (u16 pk.species - 1) * 2 + 1
      · subst hj1
        rw [Buffer.bit_false_of_read_zero h1] at hb
        exact Bool.noConfusion hb
      · by_cases hj0 : j = s.EncounterCount + (u16 pk.species - 1) * 2
        · subst hj0
          rw [Buffer.bit_false_of_read_zero h0] at hb
          exact Bool.noConfusion hb
        · simp only [hj1, hj0, if_false]
          exact hb
    · exact hb
  · intro a c hac h
    unfold dexNavCount
    split
    · rename_i hg
      exfalso
      obtain ⟨h0, h1⟩ := (Buffer.convertTo16_eq_zero _ _).1 hg.2
      have ha0 := Buffer.read_eq_zero_of_le hac _ h0
      have ha1 := Buffer.read_eq_zero_of_le hac _ h1
      have hga : s.game = Game.ORAS ∧
          a.convertTo16 (s.EncounterCount + (u16 pk.species - 1) * 2) = 0 :=
        ⟨hg.1, (Buffer.convertTo16_eq_zero _ _).2 ⟨ha0, ha1⟩⟩
      have hbit : (dexNavCount s pk a).bit (s.EncounterCount + (u16 pk.species - 1) * 2) 0
          = true := by
        unfold dexNavCount
        rw [if_pos hga, Buffer.bit_convertFrom16]
        simp
      have := h _ _ hbit
      rw [Buffer.bit_false_of_read_zero h0] at this
      exact Bool.noConfusion this
    · rfl

theorem dexFormDisplayed_mono (s : Sav6) (f fc : Nat) {a c : Buffer} (h : a.le c)
    (ha : dexFormDisplayed s f fc a = true) : dexFormDisplayed s f fc c = true := by
  simp only [dexFormDisplayed, List.any_eq_true, Bool.or_eq_true, decide_eq_true_eq,
    and_mask_ne_zero _ _ (Nat.mod_lt _ (show 0 < 8 by decide))] at ha ⊢
  obtain ⟨i, hi, hbit⟩ := ha
  refine ⟨i, hi, ?_⟩
  rcases hbit with hb | hb
  · exact Or.inl (h _ _ hb)
  · exact Or.inr (h _ _ hb)

theorem dexFormFlags_absorbing (e : Env) (s : Sav6) (pk : PKX) :
    Absorbing (dexFormFlags e s pk) := by
  by_cases hf : dexFormIndex s.game (u16 pk.species) (e.formCount (u16 pk.species)) < 0
  · exact Absorbing.congr (fun b => by simp only [dexFormFlags]; rw [if_pos hf]) Absorbing.id
  · refine Absorbing.congr (G := fun b =>
      (fun d : Buffer => if dexFormDisplayed s
          (dexFormIndex s.game (u16 pk.species) (e.formCount (u16 pk.species))).toNat
          (e.formCount (u16 pk.species)) d = true then d else
        d.orAt (s.PokeDex + 0x8 + 0x60 * 9 +
          (if s.game = Game.XY then 0x18 else 0x26) * (2 + (if pk.shiny then 1 else 0)) +
          ((dexFormIndex s.game (u16 pk.species) (e.formCount (u16 pk.species))).toNat +
            pk.alternativeForm) / 8)
          (u8 (1 <<< (((dexFormIndex s.game (u16 pk.species)
            (e.formCount (u16 pk.species))).toNat + pk.alternativeForm) % 8))))
      ((fun d : Buffer => d.orAt (s.PokeDex + 0x8 + 0x60 * 9 +
          (if s.game = Game.XY then 0x18 else 0x26) * (if pk.shiny then 1 else 0) +
          ((dexFormIndex s.game (u16 pk.species) (e.formCount (u16 pk.species))).toNat +
            pk.alternativeForm) / 8)
          (u8 (1 <<< (((dexFormIndex s.game (u16 pk.species)
            (e.formCount (u16 pk.species))).toNat + pk.alternativeForm) % 8)))) b)) ?_ ?_
    · intro b
      unfold dexFormFlags
      rw [if_neg hf]
    · exact Absorbing.comp (Absorbing.orAt _ _)
        (Absorbing.unless _ _ (fun a c hac ha => dexFormDisplayed_mono s _ _ hac ha))

/-- The buffer update that `dex` performs once its guard has passed. -/
theorem dexSteps_absorbing (e : Env) (s : Sav6) (pk : PKX) :
    Absorbing (fun d => dexFormFlags e s pk (dexNavCount s pk (dexLanguageFlag s pk
      (dexDisplayFlag s pk (dexSeenFlag s pk (dexOwnedFlag e s pk d)))))) :=
  Absorbing.comp (Absorbing.comp (Absorbing.comp (Absorbing.comp (Absorbing.comp
    (dexOwnedFlag_absorbing e s pk) (dexSeenFlag_absorbing s pk))
    (dexDisplayFlag_absorbing s pk)) (dexLanguageFlag_absorbing s pk))
    (dexNavCount_absorbing s pk)) (dexFormFlags_absorbing e s pk)

end Sav6

end pksm

/-! ## Slot read and write, trade -/

namespace pksm

theorem PKX.geoCountrySet_currentHandler (e : Env) (a b : Nat) (pk : PKX) :
    (pk.geoCountrySet e a b).currentHandler = pk.currentHandler := by
  unfold PKX.geoCountrySet; split <;> rfl

theorem PKX.geoRegionSet_currentHandler (e : Env) (a b : Nat) (pk : PKX) :
    (pk.geoRegionSet e a b).currentHandler = pk.currentHandler := by
  unfold PKX.geoRegionSet; split <;> rfl

theorem Sav6.geoPush_currentHandler (e : Env) (s : Sav6) (pk : PKX) :
    (Sav6.geoPush e s pk).currentHandler = pk.currentHandler := by
  simp [Sav6.geoPush, PKX.geoCountrySet_currentHandler, PKX.geoRegionSet_currentHandler]

/-- C4: for a generation-six record that is not an egg and whose original-trainer
identity (otName, TID, SID, otGender) is the container's, trade returns without
consuming a draw, the current handler is 0 afterwards, and unless the record is not
untraded and its entry-0 geolocation differs from the container's (country,
subRegion), the result is the record with only the current handler changed: the
geolocation history keeps all its entries. -/
theorem Sav6.trade_return_to_original_trainer (e : Env) (s : Sav6) (pk : PKX) (date : Date)
    (draws : List (Fin 20)) (hgen : pk.generation = Generation.SIX) (hegg : pk.egg = false)
    (hname : Sav6.otName e s = pk.otName) (htid : Sav6.TID s = pk.TID)
    (hsid : Sav6.SID s = pk.SID) (hgender : Sav6.gender s = pk.otGender) :
    ∃ pk', Sav6.trade e s pk date draws = some (pk', draws) ∧
      pk'.currentHandler = 0 ∧
      (¬ (pk.untraded = false ∧
          (Sav6.country s ≠ pk.geoCountry 0 ∨ Sav6.subRegion s ≠ pk.geoRegion 0)) →
        pk' = { pk with currentHandler := 0 } ∧
        pk'.geoCountry = pk.geoCountry ∧ pk'.geoRegion = pk.geoRegion) := by
  by_cases hc : pk.untraded = false ∧
      (Sav6.country s ≠ pk.geoCountry 0 ∨ Sav6.subRegion s ≠ pk.geoRegion 0)
  · refine ⟨Sav6.geoPush e s { pk with currentHandler := 0 }, ?_, ?_, ?_⟩
    · have hc' : ¬ pk.untraded = true ∧
          (Sav6.country s ≠ pk.geoCountry 0 ∨ Sav6.subRegion s ≠ pk.geoRegion 0) := by
        refine ⟨?_, hc.2⟩
        rw [hc.1]; decide
      simp only [Sav6.trade, hgen, hegg, hname, htid, hsid, hgender]
      simp only [if_true, and_self, Bool.false_eq_true, if_false]
      rw [if_pos hc']
    · rw [Sav6.geoPush_currentHandler]
    · intro h; exact absurd hc h
  · refine ⟨{ pk with currentHandler := 0 }, ?_, rfl, ?_⟩
    · have hc' : ¬ (¬ pk.untraded = true ∧
          (Sav6.country s ≠ pk.geoCountry 0 ∨ Sav6.subRegion s ≠ pk.geoRegion 0)) := by
        intro h
        apply hc
        refine ⟨?_, h.2⟩
        cases hu : pk.untraded
        · rfl
        · exact absurd hu h.1
      simp only [Sav6.trade, hgen, hegg, hname, htid, hsid, hgender]
      simp only [if_true, and_self, Bool.false_eq_true, if_false]
      rw [if_neg hc']
    · intro _; exact ⟨rfl, rfl, rfl⟩

end pksm

namespace pksm

/-- The statement of C4 for the record of the container's own trainer on the XY container. -/
theorem Sav6.trade_return_to_original_trainer_witness :
    ∃ pk', Sav6.trade exampleEnv exampleXY examplePK ⟨1, 1, 2014⟩ [] = some (pk', []) ∧
      pk'.currentHandler = 0 ∧
      (¬ (examplePK.untraded = false ∧
          (Sav6.country exampleXY ≠ examplePK.geoCountry 0 ∨
            Sav6.subRegion exampleXY ≠ examplePK.geoRegion 0)) →
        pk' = { examplePK with currentHandler := 0 } ∧
        pk'.geoCountry = examplePK.geoCountry ∧ pk'.geoRegion = examplePK.geoRegion) :=
  Sav6.trade_return_to_original_trainer exampleEnv exampleXY examplePK ⟨1, 1, 2014⟩ []
    rfl rfl rfl (by decide) (by decide) (by decide)

/-- C5: for a generation-six egg whose original-trainer identity differs from the
container's in otName, TID, SID or gender, trade returns the record with met location
30002 and met date the supplied date, every other field as before; the result does not
depend on the draws and no draw is consumed. -/
theorem Sav6.trade_egg_from_other_trainer (e : Env) (s : Sav6) (pk : PKX) (date : Date)
    (draws : List (Fin 20)) (hgen : pk.generation = Generation.SIX) (hegg : pk.egg = true)
    (hid : Sav6.otName e s ≠ pk.otName ∨ Sav6.TID s ≠ pk.TID ∨ Sav6.SID s ≠ pk.SID ∨
      Sav6.gender s ≠ pk.otGender) :
    Sav6.trade e s pk date draws =
      some ({ pk with metLocation := 30002, metDate := date }, draws) := by
  simp only [Sav6.trade, hgen, hegg, if_true]
  rw [if_pos hid]

/-- The statement of C5 for the egg of trainer 999 on the XY container. -/
theorem Sav6.trade_egg_from_other_trainer_witness :
    Sav6.trade exampleEnv exampleXY exampleEgg ⟨24, 12, 2013⟩ [] =
      some ({ exampleEgg with metLocation := 30002, metDate := ⟨24, 12, 2013⟩ }, []) :=
  Sav6.trade_egg_from_other_trainer exampleEnv exampleXY exampleEgg ⟨24, 12, 2013⟩ []
    rfl rfl (Or.inr (Or.inl (by decide)))

/-- C9: for a record whose generation tag is not SIX, the party write and the box write
(with or without trade) return the container unchanged, buffer included, and trade
returns the record unchanged; none consumes a draw. -/
theorem Sav6.cross_generation_write_rejected (e : Env) (s : Sav6) (pk : PKX)
    (partySlot box slot : Nat) (applyTrade : Bool) (date : Date) (draws : List (Fin 20))
    (hgen : pk.generation ≠ Generation.SIX) :
    Sav6.pkmPartySet e s pk partySlot = s ∧
    Sav6.pkmBoxSet e s pk box slot applyTrade date draws = some (s, draws) ∧
    Sav6.trade e s pk date draws = some (pk, draws) := by
  refine ⟨?_, ?_, ?_⟩
  · simp only [Sav6.pkmPartySet]; rw [if_neg hgen]
  · simp only [Sav6.pkmBoxSet]; rw [if_neg hgen]
  · simp only [Sav6.trade]; rw [if_neg hgen]

/-- The statement of C9 for a generation-five record on the XY container. -/
theorem Sav6.cross_generation_write_rejected_witness :
    Sav6.pkmPartySet exampleEnv exampleXY examplePK5 0 = exampleXY ∧
    Sav6.pkmBoxSet exampleEnv exampleXY examplePK5 5 12 true ⟨1, 1, 2014⟩ [3] =
      some (exampleXY, [3]) ∧
    Sav6.trade exampleEnv exampleXY examplePK5 ⟨1, 1, 2014⟩ [3] = some (examplePK5, [3]) :=
  Sav6.cross_generation_write_rejected exampleEnv exampleXY examplePK5 0 5 12 true
    ⟨1, 1, 2014⟩ [3] (by decide)

end pksm

/-! ## The bits `dex` changes -/

namespace pksm

theorem shiftRight_three (x : Nat) : x >>> 3 = x / 8 := by
  rw [Nat.shiftRight_eq_div_pow]

theorem and_seven (x : Nat) : x &&& 7 = x % 8 :=
  Nat.and_pow_two_sub_one_eq_mod x 3

theorem Buffer.bit_orAt_mask_imp (d : Buffer) (p n q k : Nat)
    (h : (d.orAt p (u8 (1 <<< n))).bit q k = true) : d.bit q k = true ∨ (q = p ∧ k = n) := by
  rw [Buffer.bit_orAt, testBit_mask] at h
  by_cases hq : q = p
  · subst hq
    simp only [if_true, Bool.or_eq_true, Bool.and_eq_true, decide_eq_true_eq] at h
    rcases h with h | h
    · exact Or.inl h
    · exact Or.inr ⟨rfl, h.2.2.symm⟩
  · simp only [hq, if_false] at h
    exact Or.inl h

theorem Buffer.bit_orAt_mask_self (d : Buffer) (p n : Nat) (hn : n < 8) :
    (d.orAt p (u8 (1 <<< n))).bit p n = true := by
  rw [Buffer.bit_orAt, testBit_mask]
  simp [hn]

theorem foldl_count {α : Type} (p : α → Bool) (l : List α) (n : Nat) :
    l.foldl (fun ret x => if p x = true then ret + 1 else ret) n = n + l.countP p := by
  induction l generalizing n with
  | nil => simp
  | cons a l ih =>
    simp only [List.foldl_cons, List.countP_cons]
    rw [ih]
    split <;> omega

theorem countP_succ {α : Type} [DecidableEq α] (p q : α → Bool) (l : List α) (x : α)
    (hnd : l.Nodup) (hx : x ∈ l) (hp : p x = false) (hq : q x = true)
    (hrest : ∀ y ∈ l, y ≠ x → q y = p y) : l.countP q = l.countP p + 1 := by
  induction l with
  | nil => cases hx
  | cons a l ih =>
    rw [List.nodup_cons] at hnd
    simp only [List.countP_cons]
    by_cases hax : a = x
    · subst hax
      have hl : l.countP q = l.countP p := by
        apply List.countP_congr
        intro y hy
        have hne : y ≠ a := fun h => hnd.1 (h ▸ hy)
        rw [hrest y (List.mem_cons_of_mem _ hy) hne]
      rw [hl, hp, hq]; simp
    · have hxl : x ∈ l := by
        rcases List.mem_cons.1 hx with h | h
        · exact absurd h.symm hax
        · exact h
      have := ih hnd.2 hxl (fun y hy hne => hrest y (List.mem_cons_of_mem _ hy) hne)
      rw [this, hrest a (List.mem_cons_self _ _) hax]
      omega

namespace Sav6

theorem dexOwnedFlag_bit (e : Env) (s : Sav6) (pk : PKX) (d : Buffer) (q k : Nat)
    (h : (dexOwnedFlag e s pk d).bit q k = true) :
    d.bit q k = true ∨
      (k = (u16 pk.species - 1) % 8 ∧
        q = s.PokeDex + 0x8 + (u16 pk.species - 1) / 8 + 0x644) ∨
      (k = (u16 pk.species - 1) % 8 ∧ q = s.PokeDex + 0x8 + (u16 pk.species - 1) / 8 ∧
        (pk.version ≥ e.versionX ∨ s.game = Game.ORAS)) := by
  simp only [dexOwnedFlag, shiftRight_three, and_seven] at h
  split at h
  · rcases Buffer.bit_orAt_mask_imp _ _ _ _ _ h with h | h
    · exact Or.inl h
    · exact Or.inr (Or.inl ⟨h.2, h.1⟩)
  · split at h
    · rename_i hv
      rcases Buffer.bit_orAt_mask_imp _ _ _ _ _ h with h | h
      · exact Or.inl h
      · exact Or.inr (Or.inr ⟨h.2, by simpa using h.1, hv⟩)
    · exact Or.inl h

theorem dexSeenFlag_bit (s : Sav6) (pk : PKX) (d : Buffer) (q k : Nat)
    (h : (dexSeenFlag s pk d).bit q k = true) :
    d.bit q k = true ∨
      (k = (u16 pk.species - 1) % 8 ∧
        q = s.PokeDex + 0x8 + (u16 pk.species - 1) / 8 +
          0x60 * (1 + u8 pk.gender % 2 + 2 * (if pk.shiny then 1 else 0))) := by
  simp only [dexSeenFlag, shiftRight_three, and_seven] at h
  rcases Buffer.bit_orAt_mask_imp _ _ _ _ _ h with h | h
  · exact Or.inl h
  · exact Or.inr ⟨h.2, h.1⟩

theorem dexDisplayFlag_bit (s : Sav6) (pk : PKX) (d : Buffer) (q k : Nat)
    (h : (dexDisplayFlag s pk d).bit q k = true) :
    d.bit q k = true ∨
      (dexDisplayed s pk d = false ∧ k = (u16 pk.species - 1) % 8 ∧
        q = s.PokeDex + 0x8 + (u16 pk.species - 1) / 8 + 0x60 * 4 +
          0x60 * (1 + u8 pk.gender % 2 + 2 * (if pk.shiny then 1 else 0))) := by
  unfold dexDisplayFlag at h
  simp only [shiftRight_three, and_seven] at h
  split at h
  · rename_i hd
    rcases Buffer.bit_orAt_mask_imp _ _ _ _ _ h with h | h
    · exact Or.inl h
    · exact Or.inr ⟨by simpa using hd, h.2, h.1⟩
  · exact Or.inl h

theorem dexLanguageFlag_bit (s : Sav6) (pk : PKX) (d : Buffer) (q k : Nat)
    (h : (dexLanguageFlag s pk d).bit q k = true) :
    d.bit q k = true ∨ s.PokeDexLanguageFlags ≤ q := by
  simp only [dexLanguageFlag] at h
  rcases Buffer.bit_orAt_mask_imp _ _ _ _ _ h with h | h
  · exact Or.inl h
  · exact Or.inr (by rw [h.1]; omega)

theorem dexNavCount_bit (s : Sav6) (pk : PKX) (d : Buffer) (q k : Nat)
    (h : (dexNavCount s pk d).bit q k = true) :
    d.bit q k = true ∨
      (s.game = Game.ORAS ∧ q = s.EncounterCount + (u16 pk.species - 1) * 2) := by
  unfold dexNavCount at h
  split at h
  · rename_i hg
    rw [Buffer.bit_convertFrom16] at h
    by_cases h1 : q = s.EncounterCount + (u16 pk.species - 1) * 2 + 1
    · simp [h1] at h
    · by_cases h0 : q = s.EncounterCount + (u16 pk.species - 1) * 2
      · exact Or.inr ⟨hg.1, h0⟩
      · simp only [h1, h0, if_false] at h
        exact Or.inl h
  · exact Or.inl h

theorem dexFormFlags_bit (e : Env) (s : Sav6) (pk : PKX) (d : Buffer) (q k : Nat)
    (h : (dexFormFlags e s pk d).bit q k = true) :
    d.bit q k = true ∨ s.PokeDex + 0x8 + 0x60 * 9 ≤ q := by
  unfold dexFormFlags at h
  simp only [] at h
  generalize (if s.game = Game.XY then 24 else 38 : Nat) = formLen at h
  generalize (if pk.shiny = true then 1 else 0 : Nat) = sh at h
  split at h
  · exact Or.inl h
  · split at h
    · rcases Buffer.bit_orAt_mask_imp _ _ _ _ _ h with h | h
      · exact Or.inl h
      · exact Or.inr (by rw [h.1]; omega)
    · rcases Buffer.bit_orAt_mask_imp _ _ _ _ _ h with h | h
      · rcases Buffer.bit_orAt_mask_imp _ _ _ _ _ h with h | h
        · exact Or.inl h
        · exact Or.inr (by rw [h.1]; omega)
      · exact Or.inr (by rw [h.1]; omega)

end Sav6

end pksm

/-! ## What `dex` does to the buffer as a whole -/

namespace pksm

namespace Sav6

theorem dex_layout (e : Env) (s : Sav6) (pk : PKX) :
    (dex e s pk).PokeDex = s.PokeDex ∧ (dex e s pk).availableSpecies = s.availableSpecies := by
  unfold dex
  split <;> exact ⟨rfl, rfl⟩

theorem dex_data_of_guard (e : Env) (s : Sav6) (pk : PKX)
    (hsup : pk.species ∈ s.availableSpecies) (hegg : pk.egg = false) :
    (dex e s pk).data = dexFormFlags e s pk (dexNavCount s pk (dexLanguageFlag s pk
      (dexDisplayFlag s pk (dexSeenFlag s pk (dexOwnedFlag e s pk s.data))))) := by
  have hc : s.availableSpecies.count pk.species > 0 := List.count_pos_iff.2 hsup
  have hg : ¬ (¬ (s.availableSpecies.count pk.species > 0) ∨ pk.egg = true) := by
    intro h
    rcases h with h | h
    · exact h hc
    · rw [hegg] at h
      exact Bool.noConfusion h
  unfold dex
  rw [if_neg hg]

theorem dex_le (e : Env) (s : Sav6) (pk : PKX) : s.data.le (dex e s pk).data := by
  unfold dex
  split
  · exact Buffer.le_refl _
  · exact (dexSteps_absorbing e s pk).infl s.data

theorem dex_bit_imp (e : Env) (s : Sav6) (pk : PKX) (q k : Nat)
    (h : (dex e s pk).data.bit q k = true) :
    s.data.bit q k = true ∨
      (k = (u16 pk.species - 1) % 8 ∧
        q = s.PokeDex + 0x8 + (u16 pk.species - 1) / 8 + 0x644) ∨
      (k = (u16 pk.species - 1) % 8 ∧ q = s.PokeDex + 0x8 + (u16 pk.species - 1) / 8 ∧
        (pk.version ≥ e.versionX ∨ s.game = Game.ORAS)) ∨
      (k = (u16 pk.species - 1) % 8 ∧
        q = s.PokeDex + 0x8 + (u16 pk.species - 1) / 8 +
          0x60 * (1 + u8 pk.gender % 2 + 2 * (if pk.shiny then 1 else 0))) ∨
      (dexDisplayed s pk s.data = false ∧ k = (u16 pk.species - 1) % 8 ∧
        q = s.PokeDex + 0x8 + (u16 pk.species - 1) / 8 + 0x60 * 4 +
          0x60 * (1 + u8 pk.gender % 2 + 2 * (if pk.shiny then 1 else 0))) ∨
      s.PokeDexLanguageFlags ≤ q ∨
      (s.game = Game.ORAS ∧ q = s.EncounterCount + (u16 pk.species - 1) * 2) ∨
      s.PokeDex + 0x8 + 0x60 * 9 ≤ q := by
  unfold dex at h
  split at h
  · exact Or.inl h
  · simp only [] at h
    rcases dexFormFlags_bit _ _ _ _ _ _ h with h | h
    swap
    · exact Or.inr (Or.inr (Or.inr (Or.inr (Or.inr (Or.inr (Or.inr h))))))
    rcases dexNavCount_bit _ _ _ _ _ h with h | h
    swap
    · exact Or.inr (Or.inr (Or.inr (Or.inr (Or.inr (Or.inr (Or.inl h))))))
    rcases dexLanguageFlag_bit _ _ _ _ _ h with h | h
    swap
    · exact Or.inr (Or.inr (Or.inr (Or.inr (Or.inr (Or.inl h)))))
    rcases dexDisplayFlag_bit _ _ _ _ _ h with h | h
    swap
    · refine Or.inr (Or.inr (Or.inr (Or.inr (Or.inl ⟨?_, h.2⟩))))
      cases hd : dexDisplayed s pk s.data
      · rfl
      · have hle : s.data.le (dexSeenFlag s pk (dexOwnedFlag e s pk s.data)) :=
          Buffer.le_trans ((dexOwnedFlag_absorbing e s pk).infl _)
            ((dexSeenFlag_absorbing s pk).infl _)
        have := dexDisplayed_mono s pk hle hd
        rw [h.1] at this
        exact Bool.noConfusion this
    rcases dexSeenFlag_bit _ _ _ _ _ h with h | h
    swap
    · exact Or.inr (Or.inr (Or.inr (Or.inl h)))
    rcases dexOwnedFlag_bit _ _ _ _ _ _ h with h | h | h
    · exact Or.inl h
    · exact Or.inr (Or.inl h)
    · exact Or.inr (Or.inr (Or.inl h))

theorem dex_seen_bit_set (e : Env) (s : Sav6) (pk : PKX)
    (hsup : pk.species ∈ s.availableSpecies) (hegg : pk.egg = false) :
    (dex e s pk).data.bit
      (s.PokeDex + 0x8 + (u16 pk.species - 1) / 8 +
        0x60 * (1 + u8 pk.gender % 2 + 2 * (if pk.shiny then 1 else 0)))
      ((u16 pk.species - 1) % 8) = true := by
  rw [dex_data_of_guard e s pk hsup hegg]
  apply (dexFormFlags_absorbing e s pk).infl
  apply (dexNavCount_absorbing s pk).infl
  apply (dexLanguageFlag_absorbing s pk).infl
  apply (dexDisplayFlag_absorbing s pk).infl
  simp only [dexSeenFlag, shiftRight_three, and_seven]
  exact Buffer.bit_orAt_mask_self _ _ _ (Nat.mod_lt _ (by decide))

theorem dex_native_bit_set (e : Env) (s : Sav6) (pk : PKX)
    (hsup : pk.species ∈ s.availableSpecies) (hegg : pk.egg = false)
    (hver : pk.version ≥ e.versionX ∨ s.game = Game.ORAS) :
    (dex e s pk).data.bit (s.PokeDex + 0x8 + (u16 pk.species - 1) / 8)
      ((u16 pk.species - 1) % 8) = true := by
  rw [dex_data_of_guard e s pk hsup hegg]
  apply (dexFormFlags_absorbing e s pk).infl
  apply (dexNavCount_absorbing s pk).infl
  apply (dexLanguageFlag_absorbing s pk).infl
  apply (dexDisplayFlag_absorbing s pk).infl
  apply (dexSeenFlag_absorbing s pk).infl
  have h1 : ¬ (pk.version < e.versionX ∧ u16 pk.species - 1 < 649 ∧ s.game ≠ Game.ORAS) := by
    rcases hver with h | h
    · omega
    · intro h'
      exact h'.2.2 h
  simp only [dexOwnedFlag, shiftRight_three, and_seven]
  rw [if_neg h1, if_pos hver]
  exact Buffer.bit_orAt_mask_self _ _ _ (Nat.mod_lt _ (by decide))

theorem seenAny_iff (s : Sav6) (sp : Nat) :
    seenAny s sp = true ↔
      ∃ j, j < 4 ∧ s.data.bit (s.PokeDex + (0x68 + j * 0x60) + (u16 sp - 1) / 8)
        ((u16 sp - 1) % 8) = true := by
  simp only [seenAny, List.any_eq_true, List.mem_range, decide_eq_true_eq,
    shift_and_one_ne_zero, shiftRight_three, and_seven, Buffer.bit]

theorem dexSeen_eq_countP (s : Sav6) : dexSeen s = s.availableSpecies.countP (seenAny s) := by
  unfold dexSeen
  rw [foldl_count]
  omega

end Sav6

end pksm

/-! ## Counting seen and caught species -/

namespace pksm

namespace Sav6

theorem seenAny_dex_other (e : Env) (s : Sav6) (pk : PKX) (hl : DexLayout s)
    (hsup : pk.species ∈ s.availableSpecies) (sp : Nat) (hsp : sp ∈ s.availableSpecies)
    (hne : sp ≠ pk.species) : seenAny (dex e s pk) sp = seenAny s sp := by
  rw [Bool.eq_iff_iff, seenAny_iff, seenAny_iff, (dex_layout e s pk).1]
  have hr := hl.range sp hsp
  have hr' := hl.range pk.species hsup
  have hu : u16 sp = sp := by unfold u16; omega
  have hu' : u16 pk.species = pk.species := by unfold u16; omega
  have hlang := hl.lang
  have hg : u8 pk.gender % 2 < 2 := Nat.mod_lt _ (by decide)
  have hsh : (if pk.shiny = true then 1 else 0 : Nat) ≤ 1 := by split <;> omega
  constructor
  · rintro ⟨j, hj, hbit⟩
    refine ⟨j, hj, ?_⟩
    rcases dex_bit_imp e s pk _ _ hbit with h | h | h | h | h | h | h | h
    · exact h
    · exfalso; rw [hu, hu'] at h; omega
    · exfalso; rw [hu, hu'] at h; omega
    · exfalso
      rw [hu, hu'] at h
      generalize u8 pk.gender % 2 = g at h hg
      generalize (if pk.shiny = true then 1 else 0 : Nat) = sh at h hsh
      omega
    · exfalso
      rw [hu, hu'] at h
      generalize u8 pk.gender % 2 = g at h hg
      generalize (if pk.shiny = true then 1 else 0 : Nat) = sh at h hsh
      omega
    · exfalso; rw [hu] at h; omega
    · exfalso
      have henc := hl.enc h.1
      rw [hu, hu'] at h
      omega
    · exfalso; rw [hu] at h; omega
  · rintro ⟨j, hj, hbit⟩
    exact ⟨j, hj, dex_le e s pk _ _ hbit⟩

theorem seenAny_dex_self (e : Env) (s : Sav6) (pk : PKX)
    (hsup : pk.species ∈ s.availableSpecies) (hegg : pk.egg = false) :
    seenAny (dex e s pk) pk.species = true := by
  rw [seenAny_iff, (dex_layout e s pk).1]
  have hg : u8 pk.gender % 2 < 2 := Nat.mod_lt _ (by decide)
  have hsh : (if pk.shiny = true then 1 else 0 : Nat) ≤ 1 := by split <;> omega
  refine ⟨u8 pk.gender % 2 + 2 * (if pk.shiny = true then 1 else 0), by omega, ?_⟩
  have hpos : s.PokeDex + (0x68 + (u8 pk.gender % 2 + 2 * (if pk.shiny = true then 1 else 0))
      * 0x60) + (u16 pk.species - 1) / 8 =
      s.PokeDex + 0x8 + (u16 pk.species - 1) / 8 +
        0x60 * (1 + u8 pk.gender % 2 + 2 * (if pk.shiny then 1 else 0)) := by
    omega
  rw [hpos]
  exact dex_seen_bit_set e s pk hsup hegg

theorem dexLayout_exampleXY : DexLayout exampleXY where
  nodup := List.nodup_range' 1 721
  range := by
    intro sp hsp
    have := List.mem_range'_1.1 hsp
    omega
  lang := by decide
  enc := by decide

theorem dexLayout_exampleORAS : DexLayout exampleORAS where
  nodup := List.nodup_range' 1 721
  range := by
    intro sp hsp
    have := List.mem_range'_1.1 hsp
    omega
  lang := by decide
  enc := by decide

theorem examplePK_supported : examplePK.species ∈ exampleXY.availableSpecies :=
  List.mem_range'_1.2 (by decide)

end Sav6

/-- C2: dex is idempotent.  For every container and every record, a second dex of the
same record leaves the container, and so every byte of the buffer, as the first dex
left it. -/
theorem Sav6.dex_idempotent (e : Env) (s : Sav6) (pk : PKX) :
    Sav6.dex e (Sav6.dex e s pk) pk = Sav6.dex e s pk := by
  by_cases hg : ¬ (s.availableSpecies.count pk.species > 0) ∨ pk.egg = true
  · have h1 : Sav6.dex e s pk = s := by
      unfold Sav6.dex
      rw [if_pos hg]
    rw [h1, h1]
  · have hF := Sav6.dexSteps_absorbing e s pk
    have h1 : Sav6.dex e s pk =
        { s with data := Sav6.dexFormFlags e s pk (Sav6.dexNavCount s pk
          (Sav6.dexLanguageFlag s pk (Sav6.dexDisplayFlag s pk (Sav6.dexSeenFlag s pk
            (Sav6.dexOwnedFlag e s pk s.data))))) } := by
      unfold Sav6.dex
      rw [if_neg hg]
    rw [h1]
    have h2 := hF.idem s.data
    unfold Sav6.dex
    exact (if_neg hg).trans (congrArg (fun d => { s with data := d }) h2)

/-- C3: displayed is first-set-wins.  On a container with the dex layout, if the bit of
the record's species is set in one of the four displayed planes, dex of a supported
record that is not an egg sets the species' bit in the seen plane of the record's own
combination (plane 1 + gender % 2 + 2 * shiny) and leaves the species' bit in each of
the four displayed planes (planes 5 to 8) as it was. -/
theorem Sav6.dex_displayed_first_set_wins (e : Env) (s : Sav6) (pk : PKX)
    (hl : Sav6.DexLayout s) (hsup : pk.species ∈ s.availableSpecies) (hegg : pk.egg = false)
    (hdisp : Sav6.dexDisplayed s pk s.data = true) :
    (Sav6.dex e s pk).data.bit
        (s.PokeDex + 0x8 + (u16 pk.species - 1) >>> 3 +
          0x60 * (1 + u8 pk.gender % 2 + 2 * (if pk.shiny then 1 else 0)))
        ((u16 pk.species - 1) &&& 7) = true ∧
      ∀ j, j < 4 →
        (Sav6.dex e s pk).data.bit
            (s.PokeDex + 0x8 + (u16 pk.species - 1) >>> 3 + 0x60 * (5 + j))
            ((u16 pk.species - 1) &&& 7) =
          s.data.bit (s.PokeDex + 0x8 + (u16 pk.species - 1) >>> 3 + 0x60 * (5 + j))
            ((u16 pk.species - 1) &&& 7) := by
  rw [shiftRight_three, and_seven]
  refine ⟨Sav6.dex_seen_bit_set e s pk hsup hegg, ?_⟩
  intro j hj
  have hr := hl.range pk.species hsup
  have hu : u16 pk.species = pk.species := by unfold u16; omega
  have hlang := hl.lang
  have hg : u8 pk.gender % 2 < 2 := Nat.mod_lt _ (by decide)
  have hsh : (if pk.shiny = true then 1 else 0 : Nat) ≤ 1 := by split <;> omega
  rw [Bool.eq_iff_iff]
  constructor
  · intro hbit
    rcases Sav6.dex_bit_imp e s pk _ _ hbit with h | h | h | h | h | h | h | h
    · exact h
    · exfalso; omega
    · exfalso; omega
    · exfalso
      generalize u8 pk.gender % 2 = g at h hg
      generalize (if pk.shiny = true then 1 else 0 : Nat) = sh at h hsh
      omega
    · exfalso
      rw [hdisp] at h
      exact Bool.noConfusion h.1
    · exfalso; rw [hu] at h; omega
    · exfalso
      have henc := hl.enc h.1
      rw [hu] at h
      omega
    · exfalso; rw [hu] at h; omega
  · intro hbit
    exact Sav6.dex_le e s pk _ _ hbit

/-- C7: on a container with the dex layout, dex of a supported record that is not an
egg and whose species has none of its four seen-plane bits set raises dexSeen by
exactly 1: it sets the species' bit in the byte at PokeDex + 0x8 +
0x60 * (1 + gender % 2 + 2 * shiny) + ((species - 1) >> 3), one of the four bytes
dexSeen tests for the species, and the seen test of every other species is unchanged. -/
theorem Sav6.dex_seen_count (e : Env) (s : Sav6) (pk : PKX) (hl : Sav6.DexLayout s)
    (hsup : pk.species ∈ s.availableSpecies) (hegg : pk.egg = false)
    (hnew : Sav6.seenAny s pk.species = false) :
    Sav6.dexSeen (Sav6.dex e s pk) = Sav6.dexSeen s + 1 ∧
      (Sav6.dex e s pk).data.bit
        (s.PokeDex + 0x8 + 0x60 * (1 + u8 pk.gender % 2 + 2 * (if pk.shiny then 1 else 0)) +
          (u16 pk.species - 1) >>> 3)
        ((u16 pk.species - 1) &&& 7) = true ∧
      ∀ sp, sp ∈ s.availableSpecies → sp ≠ pk.species →
        Sav6.seenAny (Sav6.dex e s pk) sp = Sav6.seenAny s sp := by
  refine ⟨?_, ?_, ?_⟩
  · rw [Sav6.dexSeen_eq_countP, Sav6.dexSeen_eq_countP, (Sav6.dex_layout e s pk).2]
    exact countP_succ _ _ _ pk.species hl.nodup hsup hnew
      (Sav6.seenAny_dex_self e s pk hsup hegg)
      (fun y hy hne => Sav6.seenAny_dex_other e s pk hl hsup y hy hne)
  · rw [shiftRight_three, and_seven]
    have hpos : s.PokeDex + 0x8 +
        0x60 * (1 + u8 pk.gender % 2 + 2 * (if pk.shiny then 1 else 0)) +
          (u16 pk.species - 1) / 8 =
        s.PokeDex + 0x8 + (u16 pk.species - 1) / 8 +
          0x60 * (1 + u8 pk.gender % 2 + 2 * (if pk.shiny then 1 else 0)) := by
      omega
    rw [hpos]
    exact Sav6.dex_seen_bit_set e s pk hsup hegg
  · intro sp hsp hne
    exact Sav6.seenAny_dex_other e s pk hl hsup sp hsp hne

end pksm

namespace pksm

theorem Sav6.dexLayout_dex (e : Env) (s : Sav6) (pk : PKX) (hl : Sav6.DexLayout s) :
    Sav6.DexLayout (Sav6.dex e s pk) := by
  unfold Sav6.dex
  split
  · exact hl
  · exact ⟨hl.nodup, hl.range, hl.lang, hl.enc⟩

set_option maxRecDepth 1000000 in
/-- The example of C3: dex of the male, non-shiny record on the clean XY container, then dex of
the female shiny record of the same species. -/
theorem Sav6.dex_displayed_first_set_wins_witness :
    (Sav6.dex exampleEnv (Sav6.dex exampleEnv exampleXY examplePK) examplePKFemaleShiny).data.bit
        ((Sav6.dex exampleEnv exampleXY examplePK).PokeDex + 0x8 +
          (u16 examplePKFemaleShiny.species - 1) >>> 3 +
          0x60 * (1 + u8 examplePKFemaleShiny.gender % 2 +
            2 * (if examplePKFemaleShiny.shiny then 1 else 0)))
        ((u16 examplePKFemaleShiny.species - 1) &&& 7) = true ∧
      ∀ j, j < 4 →
        (Sav6.dex exampleEnv (Sav6.dex exampleEnv exampleXY examplePK)
            examplePKFemaleShiny).data.bit
            ((Sav6.dex exampleEnv exampleXY examplePK).PokeDex + 0x8 +
              (u16 examplePKFemaleShiny.species - 1) >>> 3 + 0x60 * (5 + j))
            ((u16 examplePKFemaleShiny.species - 1) &&& 7) =
          (Sav6.dex exampleEnv exampleXY examplePK).data.bit
            ((Sav6.dex exampleEnv exampleXY examplePK).PokeDex + 0x8 +
              (u16 examplePKFemaleShiny.species - 1) >>> 3 + 0x60 * (5 + j))
            ((u16 examplePKFemaleShiny.species - 1) &&& 7) :=
  Sav6.dex_displayed_first_set_wins exampleEnv (Sav6.dex exampleEnv exampleXY examplePK)
    examplePKFemaleShiny
    (Sav6.dexLayout_dex exampleEnv exampleXY examplePK Sav6.dexLayout_exampleXY)
    ((Sav6.dex_layout exampleEnv exampleXY examplePK).2 ▸ Sav6.examplePK_supported)
    rfl (by decide)

set_option maxRecDepth 1000000 in
/-- The statement of C7 for the first dex on the clean XY container. -/
theorem Sav6.dex_seen_count_witness :
    Sav6.dexSeen (Sav6.dex exampleEnv exampleXY examplePK) = Sav6.dexSeen exampleXY + 1 ∧
      (Sav6.dex exampleEnv exampleXY examplePK).data.bit
        (exampleXY.PokeDex + 0x8 +
          0x60 * (1 + u8 examplePK.gender % 2 + 2 * (if examplePK.shiny then 1 else 0)) +
          (u16 examplePK.species - 1) >>> 3)
        ((u16 examplePK.species - 1) &&& 7) = true ∧
      ∀ sp, sp ∈ exampleXY.availableSpecies → sp ≠ examplePK.species →
        Sav6.seenAny (Sav6.dex exampleEnv exampleXY examplePK) sp =
          Sav6.seenAny exampleXY sp :=
  Sav6.dex_seen_count exampleEnv exampleXY examplePK Sav6.dexLayout_exampleXY
    Sav6.examplePK_supported rfl (by decide)

end pksm

/-! ## The voucher ring -/

namespace pksm

theorem Buffer.write_ne (b : Buffer) (i v j : Nat) (h : j ≠ i) : (b.write i v) j = b j := by
  unfold Buffer.write
  rw [if_neg h]

theorem Buffer.convertFrom32_outside (b : Buffer) (p v q : Nat) (h : q < p ∨ p + 4 ≤ q) :
    (b.convertFrom32 p v) q = b q := by
  unfold Buffer.convertFrom32
  rw [Buffer.write_ne _ _ _ _ (by omega), Buffer.write_ne _ _ _ _ (by omega),
    Buffer.write_ne _ _ _ _ (by omega), Buffer.write_ne _ _ _ _ (by omega)]

theorem mul_slot_le (L t k : Nat) (h : t < k) : t * L + L ≤ k * L := by
  have h1 : (t + 1) * L ≤ k * L := Nat.mul_le_mul_right L h
  rw [Nat.succ_mul] at h1
  exact h1

namespace Sav6

theorem giftSlotEmpty_iff (e : Env) (s : Sav6) (t : Nat) :
    giftSlotEmpty e s t = true ↔
      ∀ j, j < e.WC6_length → s.data (s.WondercardData + t * e.WC6_length + j) = 0 := by
  simp only [giftSlotEmpty, List.all_eq_true, List.mem_range, decide_eq_true_eq, Buffer.read]
  constructor
  · intro h j hj
    exact Fin.ext (h j hj)
  · intro h j hj
    rw [h j hj]
    rfl

/-- The bytes of the ring after one redemption: slot `k` holds the voucher, the rest of
the ring is as before. -/
theorem mysteryGift_ring (e : Env) (s : Sav6) (wc : WCX) (k : Nat)
    (hr : Redeemable e s wc) (q : Nat) (hq1 : s.WondercardData ≤ q)
    (hq2 : q < s.WondercardData + 24 * e.WC6_length) :
    (mysteryGift e s wc k).1.data q =
      if s.WondercardData + k * e.WC6_length ≤ q ∧
          q < s.WondercardData + k * e.WC6_length + e.WC6_length then
        wc.rawData (q - (s.WondercardData + k * e.WC6_length))
      else s.data q := by
  have hcopy : ((s.data.orAt (s.WondercardFlags + wc.ID / 8) (0x1 <<< (wc.ID % 8))).copyTo
      (s.WondercardData + e.WC6_length * k) ((List.range e.WC6_length).map wc.rawData)) q =
      if s.WondercardData + k * e.WC6_length ≤ q ∧
          q < s.WondercardData + k * e.WC6_length + e.WC6_length then
        wc.rawData (q - (s.WondercardData + k * e.WC6_length))
      else s.data q := by
    rw [Buffer.copyTo_apply, Nat.mul_comm e.WC6_length k]
    simp only [List.length_map, List.length_range, List.get_eq_getElem, List.getElem_map,
      List.getElem_range]
    by_cases hin : s.WondercardData + k * e.WC6_length ≤ q ∧
        q < s.WondercardData + k * e.WC6_length + e.WC6_length
    · rw [dif_pos hin, if_pos hin]
    · rw [dif_neg hin, if_neg hin]
      unfold Buffer.orAt
      rw [Buffer.write_ne]
      have := hr.flag
      omega
  unfold mysteryGift
  rw [if_pos hr.gen]
  simp only []
  split
  · rename_i hp
    have := hr.patch hp.1 hp.2.1 hp.2.2
    rw [Buffer.convertFrom32_outside _ _ _ _ (by omega),
      Buffer.convertFrom32_outside _ _ _ _ (by omega)]
    exact hcopy
  · exact hcopy

theorem mysteryGift_layout (e : Env) (s : Sav6) (wc : WCX) (k : Nat) :
    (mysteryGift e s wc k).1.WondercardData = s.WondercardData ∧
    (mysteryGift e s wc k).1.WondercardFlags = s.WondercardFlags ∧
    (mysteryGift e s wc k).1.game = s.game := by
  unfold mysteryGift
  split <;> exact ⟨rfl, rfl, rfl⟩

theorem redeemable_mysteryGift (e : Env) (s : Sav6) (wc wc' : WCX) (k : Nat)
    (h : Redeemable e s wc') : Redeemable e (mysteryGift e s wc k).1 wc' := by
  obtain ⟨h1, h2, h3⟩ := mysteryGift_layout e s wc k
  refine ⟨h.gen, h.nonzero, ?_, ?_⟩
  · rw [h1, h2]; exact h.flag
  · rw [h1, h3]; exact h.patch

theorem giftSlotEmpty_mysteryGift (e : Env) (s : Sav6) (wc : WCX) (k t : Nat)
    (hr : Redeemable e s wc) (hk : k < 24) (ht : t < 24) :
    giftSlotEmpty e (mysteryGift e s wc k).1 t =
      if t = k then false else giftSlotEmpty e s t := by
  have hring : ∀ j, j < e.WC6_length →
      s.WondercardData ≤ s.WondercardData + t * e.WC6_length + j ∧
      s.WondercardData + t * e.WC6_length + j < s.WondercardData + 24 * e.WC6_length := by
    intro j hj
    have := mul_slot_le e.WC6_length t 24 ht
    omega
  by_cases htk : t = k
  · subst htk
    rw [if_pos rfl]
    cases hemp : giftSlotEmpty e (mysteryGift e s wc t).1 t
    · rfl
    · exfalso
      rw [giftSlotEmpty_iff, (mysteryGift_layout e s wc t).1] at hemp
      obtain ⟨j, hj, hne⟩ := hr.nonzero
      have h1 := hemp j hj
      rw [mysteryGift_ring e s wc t hr _ (hring j hj).1 (hring j hj).2] at h1
      have hin : s.WondercardData + t * e.WC6_length ≤
            s.WondercardData + t * e.WC6_length + j ∧
          s.WondercardData + t * e.WC6_length + j <
            s.WondercardData + t * e.WC6_length + e.WC6_length := by omega
      rw [if_pos hin] at h1
      have hidx : s.WondercardData + t * e.WC6_length + j -
          (s.WondercardData + t * e.WC6_length) = j := by omega
      rw [hidx] at h1
      exact hne h1
  · rw [if_neg htk, Bool.eq_iff_iff, giftSlotEmpty_iff, giftSlotEmpty_iff,
      (mysteryGift_layout e s wc k).1]
    have hsame : ∀ j, j < e.WC6_length →
        (mysteryGift e s wc k).1.data (s.WondercardData + t * e.WC6_length + j) =
          s.data (s.WondercardData + t * e.WC6_length + j) := by
      intro j hj
      rw [mysteryGift_ring e s wc k hr _ (hring j hj).1 (hring j hj).2]
      have hout : ¬ (s.WondercardData + k * e.WC6_length ≤
            s.WondercardData + t * e.WC6_length + j ∧
          s.WondercardData + t * e.WC6_length + j <
            s.WondercardData + k * e.WC6_length + e.WC6_length) := by
        rcases Nat.lt_or_gt_of_ne htk with h | h
        · have := mul_slot_le e.WC6_length t k h
          omega
        · have := mul_slot_le e.WC6_length k t h
          omega
      rw [if_neg hout]
    constructor
    · intro h j hj
      rw [← hsame j hj]; exact h j hj
    · intro h j hj
      rw [hsame j hj]; exact h j hj

theorem redeemAll_slots (e : Env) : ∀ (wcs : List WCX) (s : Sav6) (k : Nat),
    k + wcs.length ≤ 24 → (∀ wc, wc ∈ wcs → Redeemable e s wc) →
    (∀ t, t < 24 → (giftSlotEmpty e s t = true ↔ k ≤ t)) →
    ∀ t, t < 24 → (giftSlotEmpty e (redeemAll e s wcs (k % 24)).1 t = true ↔
      k + wcs.length ≤ t) := by
  intro wcs
  induction wcs with
  | nil =>
    intro s k _ _ hinv t ht
    simpa [redeemAll] using hinv t ht
  | cons wc rest ih =>
    intro s k hlen hwc hinv t ht
    simp only [List.length_cons] at hlen
    have hk : k < 24 := by omega
    have hmod : k % 24 = k := Nat.mod_eq_of_lt hk
    have hr := hwc wc (List.mem_cons_self _ _)
    have hstep : redeemAll e s (wc :: rest) (k % 24) =
        redeemAll e (mysteryGift e s wc k).1 rest ((k + 1) % 24) := by
      simp only [redeemAll, List.foldl_cons, hmod]
      have : (mysteryGift e s wc k).2 = (k + 1) % 24 := by
        unfold mysteryGift
        rw [if_pos hr.gen]
      rw [← this]
    rw [hstep, List.length_cons]
    have := ih (mysteryGift e s wc k).1 (k + 1) (by omega)
      (fun wc' hwc' => redeemable_mysteryGift e s wc wc' k
        (hwc wc' (List.mem_cons_of_mem _ hwc')))
      (by
        intro t' ht'
        rw [giftSlotEmpty_mysteryGift e s wc k t' hr hk ht']
        by_cases h : t' = k
        · simp only [h, if_true]
          constructor
          · intro h'; exact Bool.noConfusion h'
          · intro h'; omega
        · rw [if_neg h, hinv t' ht']
          omega) t ht
    rw [this]
    omega

theorem giftScan_eq (e : Env) (s : Sav6) (n : Nat)
    (hinv : ∀ t, t < 24 → (giftSlotEmpty e s t = true ↔ n ≤ t)) :
    ∀ (m t : Nat), t + m = 24 → t ≤ n → n ≤ 24 → giftScan e s m t = n := by
  intro m
  induction m with
  | zero =>
    intro t h1 h2 h3
    simp only [giftScan]
    omega
  | succ m ih =>
    intro t h1 h2 h3
    simp only [giftScan]
    by_cases hemp : giftSlotEmpty e s t = true
    · rw [if_pos hemp]
      have := (hinv t (by omega)).1 hemp
      omega
    · rw [if_neg hemp]
      have hlt : ¬ n ≤ t := fun h => hemp ((hinv t (by omega)).2 h)
      exact ih (t + 1) (by omega) (by omega) h3

end Sav6

/-- C6, as the code has it: starting from a ring whose 24 slots are all zero and a
cursor of 0, after mysteryGift calls for a list of n <= 24 vouchers, each of generation
six, with a non-zero byte among its WC6::length bytes and with its flag byte (and, for
the special-cased voucher on ORAS, the patched words) outside the ring, the cursor
threaded through the calls, currentGiftAmount returns n. -/
theorem Sav6.gift_count_after_redemptions (e : Env) (s : Sav6) (wcs : List WCX)
    (hn : wcs.length ≤ 24) (hzero : ∀ t, t < 24 → Sav6.giftSlotEmpty e s t = true)
    (hwc : ∀ wc, wc ∈ wcs → Sav6.Redeemable e s wc) :
    Sav6.currentGiftAmount e (Sav6.redeemAll e s wcs 0).1 = wcs.length := by
  have h := Sav6.redeemAll_slots e wcs s 0 (by omega) hwc
    (fun t ht => ⟨fun _ => Nat.zero_le t, fun _ => hzero t ht⟩)
  simp only [Nat.zero_mod, Nat.zero_add] at h
  exact Sav6.giftScan_eq e _ wcs.length h 24 0 rfl (Nat.zero_le _) hn

end pksm

namespace pksm

theorem Sav6.redeemable_exampleWC : Sav6.Redeemable exampleEnv exampleXY exampleWC where
  gen := rfl
  nonzero := ⟨0, by decide, by decide⟩
  flag := by decide
  patch := by decide

set_option maxRecDepth 1000000 in
theorem Sav6.exampleXY_ring_empty :
    ∀ t, t < 24 → Sav6.giftSlotEmpty exampleEnv exampleXY t = true := by
  decide

/-- The statement of C6, as amended, for three redemptions of the voucher with ID 1 on the XY
container. -/
theorem Sav6.gift_count_after_redemptions_witness :
    Sav6.currentGiftAmount exampleEnv
      (Sav6.redeemAll exampleEnv exampleXY [exampleWC, exampleWC, exampleWC] 0).1 =
      [exampleWC, exampleWC, exampleWC].length :=
  Sav6.gift_count_after_redemptions exampleEnv exampleXY [exampleWC, exampleWC, exampleWC]
    (by decide) Sav6.exampleXY_ring_empty
    (by
      intro wc hwc
      have : wc = exampleWC := by simpa using hwc
      rw [this]
      exact Sav6.redeemable_exampleWC)

set_option maxRecDepth 1000000 in
/-- C6 fails as stated: on the XY container, whose 24 voucher slots are all zero, one
mysteryGift call from cursor 0 with the generation-six voucher whose bytes are all zero
leaves slot 0 all zero, so currentGiftAmount returns 0 after n = 1 redemption. -/
theorem Sav6.gift_count_after_redemptions_counterexample :
    (∀ t, t < 24 → Sav6.giftSlotEmpty exampleEnv exampleXY t = true) ∧
      exampleWCZero.generation = Generation.SIX ∧
      [exampleWCZero].length = 1 ∧
      Sav6.currentGiftAmount exampleEnv
        (Sav6.redeemAll exampleEnv exampleXY [exampleWCZero] 0).1 = 0 := by
  refine ⟨Sav6.exampleXY_ring_empty, rfl, rfl, by decide!⟩

end pksm

/-! ## Indices are not range-checked -/

namespace pksm

theorem Sav6.itemGet_itemSet (s : Sav6) (item : Item) (pouch : Pouch) (slot : Nat)
    (hitem : item.bytes.length = 4)
    (hp : pouch ∈ [Pouch.NormalItem, Pouch.KeyItem, Pouch.TM, Pouch.Medicine, Pouch.Berry]) :
    Sav6.itemGet (Sav6.itemSet s item pouch slot) pouch slot = some item := by
  have hrb : ∀ ofs, (s.data.copyTo ofs item.bytes).readBytes ofs 4 = item.bytes := by
    intro ofs
    have := Buffer.readBytes_copyTo s.data ofs item.bytes
    rw [hitem] at this
    exact this
  simp only [List.mem_cons, List.mem_singleton, List.not_mem_nil, or_false] at hp
  rcases hp with h | h | h | h | h <;> subst h <;>
    simp only [Sav6.itemSet, Sav6.itemGet, hrb]

/-- C10, as the code has it: no index is range-checked and nothing is signalled.  For
every box, box slot, party slot and pouch slot, within capacity or not, whose bytes lie
inside the buffer (offset + number of bytes stored <= length of the buffer), the box
write of a generation-six record stores its first BOX_LENGTH bytes at boxOffset(box, slot)
and a box read of the same indices decodes them; the party write stores the encrypted
party clone's bytes at partyOffset(slot); the item write to one of the five known
pouches stores the item's 4 bytes at the pouch base + 4 * slot and the item read of the
same pouch and slot returns the item.  None of the three writes touches a byte at or
beyond the length of the buffer. -/
theorem Sav6.slot_access_unchecked (e : Env) (s : Sav6) (pk : PKX)
    (box slot partySlot : Nat) (date : Date) (draws : List (Fin 20)) (item : Item)
    (pouch : Pouch) (itemSlot base : Nat)
    (hgen : pk.generation = Generation.SIX)
    (hlen : e.BOX_LENGTH ≤ (e.rawData pk).length)
    (hitem : item.bytes.length = 4)
    (hp : (pouch, base) ∈ [(Pouch.NormalItem, s.PouchHeldItem), (Pouch.KeyItem, s.PouchKeyItem),
      (Pouch.TM, s.PouchTMHM), (Pouch.Medicine, s.PouchMedicine),
      (Pouch.Berry, s.PouchBerry)])
    (hboxIn : Sav6.boxOffset e s box slot + e.BOX_LENGTH ≤ s.length)
    (hpartyIn : Sav6.partyOffset e s partySlot +
      (e.rawData (e.encrypt (e.partyClone pk))).length ≤ s.length)
    (hitemIn : base + itemSlot * 4 + 4 ≤ s.length) :
    (∃ s', Sav6.pkmBoxSet e s pk box slot false date draws = some (s', draws) ∧
      s'.data.readBytes (Sav6.boxOffset e s box slot) e.BOX_LENGTH =
        (e.rawData pk).take e.BOX_LENGTH ∧
      Sav6.pkmBox e s' box slot = e.getPKM ((e.rawData pk).take e.BOX_LENGTH) ∧
      ∀ q, s.length ≤ q → s'.data q = s.data q) ∧
    ((Sav6.pkmPartySet e s pk partySlot).data.readBytes (Sav6.partyOffset e s partySlot)
        (e.rawData (e.encrypt (e.partyClone pk))).length =
      e.rawData (e.encrypt (e.partyClone pk)) ∧
      ∀ q, s.length ≤ q → (Sav6.pkmPartySet e s pk partySlot).data q = s.data q) ∧
    ((Sav6.itemSet s item pouch itemSlot).data.readBytes (base + itemSlot * 4) 4 =
        item.bytes ∧
      Sav6.itemGet (Sav6.itemSet s item pouch itemSlot) pouch itemSlot = some item ∧
      ∀ q, s.length ≤ q → (Sav6.itemSet s item pouch itemSlot).data q = s.data q) := by
  have hl : ((e.rawData pk).take e.BOX_LENGTH).length = e.BOX_LENGTH := by
    rw [List.length_take]; omega
  have hbytes : (s.data.copyTo (Sav6.boxOffset e s box slot)
      ((e.rawData pk).take e.BOX_LENGTH)).readBytes (Sav6.boxOffset e s box slot)
        e.BOX_LENGTH = (e.rawData pk).take e.BOX_LENGTH := by
    have := Buffer.readBytes_copyTo s.data (Sav6.boxOffset e s box slot)
      ((e.rawData pk).take e.BOX_LENGTH)
    rw [hl] at this
    exact this
  have hrb : ∀ ofs, (s.data.copyTo ofs item.bytes).readBytes ofs 4 = item.bytes := by
    intro ofs
    have := Buffer.readBytes_copyTo s.data ofs item.bytes
    rw [hitem] at this
    exact this
  refine ⟨?_, ?_, ?_⟩
  · let d' := s.data.copyTo (Sav6.boxOffset e s box slot) ((e.rawData pk).take e.BOX_LENGTH)
    refine ⟨{ s with data := d' }, ?_, hbytes, ?_, ?_⟩
    · simp [Sav6.pkmBoxSet, hgen, d']
    · show e.getPKM ((s.data.copyTo (Sav6.boxOffset e s box slot)
        ((e.rawData pk).take e.BOX_LENGTH)).readBytes (Sav6.boxOffset e s box slot)
          e.BOX_LENGTH) = _
      rw [hbytes]
    · intro q hq
      exact Buffer.copyTo_outside _ _ _ _ (by rw [hl]; omega)
  · simp only [Sav6.pkmPartySet, hgen, if_true]
    exact ⟨Buffer.readBytes_copyTo _ _ _,
      fun q hq => Buffer.copyTo_outside _ _ _ _ (by omega)⟩
  · simp only [List.mem_cons, List.mem_singleton, List.not_mem_nil, or_false,
      Prod.mk.injEq] at hp
    rcases hp with ⟨h1, h2⟩ | ⟨h1, h2⟩ | ⟨h1, h2⟩ | ⟨h1, h2⟩ | ⟨h1, h2⟩ <;> subst h1 <;>
      subst h2 <;>
      exact ⟨hrb _, by simp only [Sav6.itemSet, Sav6.itemGet, hrb],
        fun q hq => Buffer.copyTo_outside _ _ _ _ (by rw [hitem]; omega)⟩

set_option maxRecDepth 1000000 in
/-- The statement of C10, as amended, at box 31, slot 30, party slot 6 and item slot 286 of the
XY container, all beyond capacity and all inside the buffer. -/
theorem Sav6.slot_access_unchecked_witness :
    (∃ s', Sav6.pkmBoxSet exampleEnv exampleXY examplePK 31 30 false ⟨1, 1, 2014⟩ [] =
        some (s', []) ∧
      s'.data.readBytes (Sav6.boxOffset exampleEnv exampleXY 31 30) exampleEnv.BOX_LENGTH =
        (exampleEnv.rawData examplePK).take exampleEnv.BOX_LENGTH ∧
      Sav6.pkmBox exampleEnv s' 31 30 =
        exampleEnv.getPKM ((exampleEnv.rawData examplePK).take exampleEnv.BOX_LENGTH) ∧
      ∀ q, exampleXY.length ≤ q → s'.data q = exampleXY.data q) ∧
    ((Sav6.pkmPartySet exampleEnv exampleXY examplePK 6).data.readBytes
        (Sav6.partyOffset exampleEnv exampleXY 6)
        (exampleEnv.rawData (exampleEnv.encrypt (exampleEnv.partyClone examplePK))).length =
      exampleEnv.rawData (exampleEnv.encrypt (exampleEnv.partyClone examplePK)) ∧
      ∀ q, exampleXY.length ≤ q →
        (Sav6.pkmPartySet exampleEnv exampleXY examplePK 6).data q = exampleXY.data q) ∧
    ((Sav6.itemSet exampleXY exampleItem Pouch.NormalItem 286).data.readBytes
        (exampleXY.PouchHeldItem + 286 * 4) 4 = exampleItem.bytes ∧
      Sav6.itemGet (Sav6.itemSet exampleXY exampleItem Pouch.NormalItem 286)
        Pouch.NormalItem 286 = some exampleItem ∧
      ∀ q, exampleXY.length ≤ q →
        (Sav6.itemSet exampleXY exampleItem Pouch.NormalItem 286).data q =
          exampleXY.data q) :=
  Sav6.slot_access_unchecked exampleEnv exampleXY examplePK 31 30 6 ⟨1, 1, 2014⟩ []
    exampleItem Pouch.NormalItem 286 exampleXY.PouchHeldItem rfl
    (by simp [exampleEnv, exampleRawData]) rfl (by decide) (by decide)
    (by simp [exampleEnv, exampleRawData, Sav6.partyOffset, exampleXY]) (by decide)

set_option maxRecDepth 1000000 in
/-- C10 fails as stated: the XY container has 31 boxes and its normal-item pouch holds
286 slots, yet the box write to box 31, slot 0 goes through (no signal) and changes the
byte at boxOffset(31, 0), inside the buffer, from 0 to 1, and the item write to slot
286 changes the byte at PouchHeldItem + 286 * 4 from 0 to 1. -/
theorem Sav6.slot_access_unchecked_counterexample :
    exampleXY.maxBoxes = 31 ∧
      Sav6.boxOffset exampleEnv exampleXY 31 0 + exampleEnv.BOX_LENGTH ≤ exampleXY.length ∧
      exampleXY.data.read (Sav6.boxOffset exampleEnv exampleXY 31 0) = 0 ∧
      (Sav6.pkmBoxSet exampleEnv exampleXY examplePK 31 0 false ⟨1, 1, 2014⟩ []).map
        (fun r => r.1.data.read (Sav6.boxOffset exampleEnv exampleXY 31 0)) = some 1 ∧
      (Pouch.NormalItem, 286) ∈ Sav6.pouches exampleXY ∧
      exampleXY.data.read (exampleXY.PouchHeldItem + 286 * 4) = 0 ∧
      (Sav6.itemSet exampleXY exampleItem Pouch.NormalItem 286).data.read
        (exampleXY.PouchHeldItem + 286 * 4) = 1 := by
  refine ⟨rfl, by decide, by decide, by decide!, by decide, by decide, by decide⟩

end pksm

/-! ## The handler-change branch of trade -/

namespace pksm

namespace Sav6

theorem geoPush_eq (e : Env) (s : Sav6) (pk : PKX) :
    geoPush e s pk =
      { pk with
        geoCountry := (geoPush e s pk).geoCountry,
        geoRegion := (geoPush e s pk).geoRegion } := by
  cases h : e.geoValueFirst <;>
    simp [geoPush, PKX.geoCountrySet, PKX.geoRegionSet, h]

theorem feelLoop_some (bits : Nat) : ∀ (draws : List (Fin 20)),
    (∃ d, d ∈ draws ∧ bits &&& (1 <<< d.val) ≠ 0) →
    ∃ f rest, feelLoop bits draws = some (f, rest) ∧ f < 20 ∧ bits &&& (1 <<< f) ≠ 0 := by
  intro draws
  induction draws with
  | nil => rintro ⟨d, hd, _⟩; cases hd
  | cons x xs ih =>
    intro h
    by_cases hx : bits &&& (1 <<< x.val) ≠ 0
    · exact ⟨x.val, xs, by simp only [feelLoop]; rw [if_pos hx], x.isLt, hx⟩
    · have : ∃ d, d ∈ xs ∧ bits &&& (1 <<< d.val) ≠ 0 := by
        obtain ⟨d, hd, hb⟩ := h
        rcases List.mem_cons.1 hd with h1 | h1
        · subst h1; exact absurd hb hx
        · exact ⟨d, h1, hb⟩
      obtain ⟨f, rest, h1, h2, h3⟩ := ih this
      exact ⟨f, rest, by simp only [feelLoop]; rw [if_neg hx]; exact h1, h2, h3⟩

theorem feel_mem (f : Nat) (h1 : f < 20) (h2 : 0x04CBFD &&& (1 <<< f) ≠ 0) :
    f ∈ [0, 2, 3, 4, 5, 6, 7, 8, 9, 11, 14, 15, 18] := by
  interval_cases f <;> revert h2 <;> decide

/-- The handler-change branch of `trade` in terms of `handlerChange`. -/
theorem trade_handler_change (e : Env) (s : Sav6) (pk : PKX) (date : Date)
    (draws : List (Fin 20)) (hgen : pk.generation = Generation.SIX) (hegg : pk.egg = false)
    (hid : otName e s ≠ pk.otName ∨ TID s ≠ pk.TID ∨ SID s ≠ pk.SID ∨
      gender s ≠ pk.otGender) :
    trade e s pk date draws =
      if (handlerChange e s pk).htMemory = 0 then
        match feelLoop 0x04CBFD draws with
        | none => none
        | some (feel, rest) =>
          some ({ handlerChange e s pk with
            htMemory := 4, htTextVar := 9, htIntensity := 1, htFeeling := feel }, rest)
      else some (handlerChange e s pk, draws) := by
  have hid' : ¬ (otName e s = pk.otName ∧ TID s = pk.TID ∧ SID s = pk.SID ∧
      gender s = pk.otGender) := by
    rintro ⟨h1, h2, h3, h4⟩
    rcases hid with h | h | h | h
    · exact h h1
    · exact h h2
    · exact h h3
    · exact h h4
  simp only [trade, hgen, hegg, if_true, Bool.false_eq_true, if_false]
  rw [if_neg hid']
  rfl

theorem handlerChange_htMemory (e : Env) (s : Sav6) (pk : PKX) :
    (handlerChange e s pk).htMemory = pk.htMemory := by
  unfold handlerChange
  simp only []
  split <;> split <;> first | rfl | (rw [geoPush_eq])

end Sav6
namespace Sav6

theorem handlerChange_eq (e : Env) (s : Sav6) (pk : PKX) :
    handlerChange e s pk =
      { pk with
        geoCountry :=
          if otName e s ≠ pk.htName ∨ gender s ≠ pk.htGender ∨
              (pk.geoCountry 0 = 0 ∧ pk.geoRegion 0 = 0 ∧ ¬ pk.untradedEvent) then
            (geoPush e s pk).geoCountry
          else pk.geoCountry,
        geoRegion :=
          if otName e s ≠ pk.htName ∨ gender s ≠ pk.htGender ∨
              (pk.geoCountry 0 = 0 ∧ pk.geoRegion 0 = 0 ∧ ¬ pk.untradedEvent) then
            (geoPush e s pk).geoRegion
          else pk.geoRegion,
        htFriendship := if pk.htName ≠ otName e s then pk.baseFriendship else pk.htFriendship,
        htAffection := if pk.htName ≠ otName e s then 0 else pk.htAffection,
        htName := otName e s,
        currentHandler := 1,
        htGender := gender s } := by
  unfold handlerChange
  simp only []
  by_cases hc : otName e s ≠ pk.htName ∨ gender s ≠ pk.htGender ∨
      (pk.geoCountry 0 = 0 ∧ pk.geoRegion 0 = 0 ∧ ¬ pk.untradedEvent)
  · rw [if_pos hc, if_pos hc, if_pos hc]
    have hname : (geoPush e s pk).htName = pk.htName := by rw [geoPush_eq]
    have hbase : (geoPush e s pk).baseFriendship = pk.baseFriendship := by rw [geoPush_eq]
    rw [hname, hbase]
    by_cases hn : pk.htName ≠ otName e s
    · rw [if_pos hn, if_pos hn, if_pos hn]
      conv_lhs => rw [geoPush_eq]
    · rw [if_neg hn, if_neg hn, if_neg hn]
      have hn' : pk.htName = otName e s := by simpa using hn
      conv_lhs => rw [geoPush_eq]
      rw [← hn']
  · rw [if_neg hc, if_neg hc, if_neg hc]
    by_cases hn : pk.htName ≠ otName e s
    · rw [if_pos hn, if_pos hn, if_pos hn]
    · rw [if_neg hn, if_neg hn, if_neg hn]
      have hn' : pk.htName = otName e s := by simpa using hn
      rw [← hn']

/-- The result of the handler-change branch of `trade` when the handler memory is set
already or the draws hold an eligible feeling. -/
theorem trade_handler_change_some (e : Env) (s : Sav6) (pk : PKX) (date : Date)
    (draws : List (Fin 20)) (hgen : pk.generation = Generation.SIX) (hegg : pk.egg = false)
    (hid : otName e s ≠ pk.otName ∨ TID s ≠ pk.TID ∨ SID s ≠ pk.SID ∨
      gender s ≠ pk.otGender)
    (hdraw : pk.htMemory ≠ 0 ∨ ∃ d, d ∈ draws ∧ 0x04CBFD &&& (1 <<< d.val) ≠ 0) :
    ∃ pk' rest, trade e s pk date draws = some (pk', rest) ∧
      (pk.htMemory ≠ 0 → pk' = handlerChange e s pk ∧ rest = draws) ∧
      (pk.htMemory = 0 → ∃ f, f < 20 ∧ 0x04CBFD &&& (1 <<< f) ≠ 0 ∧
        pk' = { handlerChange e s pk with
          htMemory := 4, htTextVar := 9, htIntensity := 1, htFeeling := f }) := by
  rw [trade_handler_change e s pk date draws hgen hegg hid, handlerChange_htMemory]
  by_cases hm : pk.htMemory = 0
  · rw [if_pos hm]
    have hd : ∃ d, d ∈ draws ∧ 0x04CBFD &&& (1 <<< d.val) ≠ 0 := by
      rcases hdraw with h | h
      · exact absurd hm h
      · exact h
    obtain ⟨f, rest, h1, h2, h3⟩ := feelLoop_some 0x04CBFD draws hd
    rw [h1]
    exact ⟨_, rest, rfl, fun h => absurd hm h, fun _ => ⟨f, h2, h3, rfl⟩⟩
  · rw [if_neg hm]
    exact ⟨_, draws, rfl, fun _ => ⟨rfl, rfl⟩, fun h => absurd h hm⟩

end Sav6

set_option maxRecDepth 100000 in
/-- C11 fails on the code.  The container's (country, subRegion) is (49, 7) and the
record's history is countries 10, 20, 30, 40, 50 and regions 11, 12, 13, 14, 15.  The
loop calls the setters as (previous value, entry) and the two final calls as
(0, country()) and (0, subRegion()).  If the setters take the value first, trade leaves
entry 0 at (10, 11) instead of (49, 7); if they take the entry number first, entries
1 to 4 stay (20, 12) ... (50, 15) instead of becoming the previous entries 0 to 3.
Both the identity-match case and the handler-change case push this way. -/
theorem Sav6.trade_geo_push_slip :
    Sav6.country exampleXY = 49 ∧ Sav6.subRegion exampleXY = 7 ∧
    (List.range 5).map examplePKHistory.geoCountry = [10, 20, 30, 40, 50] ∧
    (List.range 5).map examplePKHistory.geoRegion = [11, 12, 13, 14, 15] ∧
    (Sav6.trade exampleEnv exampleXY examplePKHistory ⟨1, 1, 2014⟩ []).map
        (fun r => ((List.range 5).map r.1.geoCountry, (List.range 5).map r.1.geoRegion)) =
      some ([10, 10, 20, 30, 40], [11, 11, 12, 13, 14]) ∧
    (Sav6.trade exampleEnvEntryFirst exampleXY examplePKHistory ⟨1, 1, 2014⟩ []).map
        (fun r => ((List.range 5).map r.1.geoCountry, (List.range 5).map r.1.geoRegion)) =
      some ([49, 20, 30, 40, 50], [7, 12, 13, 14, 15]) ∧
    (Sav6.trade exampleEnv exampleXY examplePKTraded ⟨1, 1, 2014⟩ []).map
        (fun r => ((List.range 5).map r.1.geoCountry, (List.range 5).map r.1.geoRegion)) =
      some ([10, 10, 20, 30, 40], [11, 11, 12, 13, 14]) ∧
    (Sav6.trade exampleEnvEntryFirst exampleXY examplePKTraded ⟨1, 1, 2014⟩ []).map
        (fun r => ((List.range 5).map r.1.geoCountry, (List.range 5).map r.1.geoRegion)) =
      some ([49, 20, 30, 40, 50], [7, 12, 13, 14, 15]) := by
  refine ⟨by decide, by decide, by decide, by decide, by decide, by decide, by decide,
    by decide⟩

/-- C12, as the code has it: for a generation-six record that is not an egg and whose
original-trainer identity differs from the container's, trade (which returns when the
handler memory is set or the draws hold an eligible feeling) pushes the geolocation
history when the handler name differs from the container's trainer name, or the
handler gender differs from the container's gender, or (geoCountry(0) = 0 and
geoRegion(0) = 0 and the record lacks the untraded-event marker); otherwise the history
is left as it was. -/
theorem Sav6.trade_handler_change_push_condition (e : Env) (s : Sav6) (pk : PKX)
    (date : Date) (draws : List (Fin 20)) (hgen : pk.generation = Generation.SIX)
    (hegg : pk.egg = false)
    (hid : Sav6.otName e s ≠ pk.otName ∨ Sav6.TID s ≠ pk.TID ∨ Sav6.SID s ≠ pk.SID ∨
      Sav6.gender s ≠ pk.otGender)
    (hdraw : pk.htMemory ≠ 0 ∨ ∃ d, d ∈ draws ∧ 0x04CBFD &&& (1 <<< d.val) ≠ 0) :
    ∃ pk' rest, Sav6.trade e s pk date draws = some (pk', rest) ∧
      ((Sav6.otName e s ≠ pk.htName ∨ Sav6.gender s ≠ pk.htGender ∨
          (pk.geoCountry 0 = 0 ∧ pk.geoRegion 0 = 0 ∧ pk.untradedEvent = false)) →
        pk'.geoCountry = (Sav6.geoPush e s pk).geoCountry ∧
        pk'.geoRegion = (Sav6.geoPush e s pk).geoRegion) ∧
      (¬ (Sav6.otName e s ≠ pk.htName ∨ Sav6.gender s ≠ pk.htGender ∨
          (pk.geoCountry 0 = 0 ∧ pk.geoRegion 0 = 0 ∧ pk.untradedEvent = false)) →
        pk'.geoCountry = pk.geoCountry ∧ pk'.geoRegion = pk.geoRegion) := by
  obtain ⟨pk', rest, h1, h2, h3⟩ :=
    Sav6.trade_handler_change_some e s pk date draws hgen hegg hid hdraw
  have hc : (Sav6.otName e s ≠ pk.htName ∨ Sav6.gender s ≠ pk.htGender ∨
        (pk.geoCountry 0 = 0 ∧ pk.geoRegion 0 = 0 ∧ pk.untradedEvent = false)) ↔
      (Sav6.otName e s ≠ pk.htName ∨ Sav6.gender s ≠ pk.htGender ∨
        (pk.geoCountry 0 = 0 ∧ pk.geoRegion 0 = 0 ∧ ¬ pk.untradedEvent = true)) := by
    cases pk.untradedEvent <;> simp
  have hgeo : pk'.geoCountry = (Sav6.handlerChange e s pk).geoCountry ∧
      pk'.geoRegion = (Sav6.handlerChange e s pk).geoRegion := by
    by_cases hm : pk.htMemory = 0
    · obtain ⟨f, _, _, hf⟩ := h3 hm
      rw [hf]
      exact ⟨rfl, rfl⟩
    · rw [(h2 hm).1]
      exact ⟨rfl, rfl⟩
  rw [Sav6.handlerChange_eq] at hgeo
  refine ⟨pk', rest, h1, ?_, ?_⟩
  · intro h
    have h' := hc.1 h
    rw [hgeo.1, hgeo.2]
    exact ⟨if_pos h', if_pos h'⟩
  · intro h
    have h' : ¬ _ := fun x => h (hc.2 x)
    rw [hgeo.1, hgeo.2]
    exact ⟨if_neg h', if_neg h'⟩

/-- The statement of C12, as amended, for the traded record on the XY container. -/
theorem Sav6.trade_handler_change_push_condition_witness :
    ∃ pk' rest, Sav6.trade exampleEnv exampleXY examplePKTraded ⟨1, 1, 2014⟩ [] =
        some (pk', rest) ∧
      ((Sav6.otName exampleEnv exampleXY ≠ examplePKTraded.htName ∨
          Sav6.gender exampleXY ≠ examplePKTraded.htGender ∨
          (examplePKTraded.geoCountry 0 = 0 ∧ examplePKTraded.geoRegion 0 = 0 ∧
            examplePKTraded.untradedEvent = false)) →
        pk'.geoCountry = (Sav6.geoPush exampleEnv exampleXY examplePKTraded).geoCountry ∧
        pk'.geoRegion = (Sav6.geoPush exampleEnv exampleXY examplePKTraded).geoRegion) ∧
      (¬ (Sav6.otName exampleEnv exampleXY ≠ examplePKTraded.htName ∨
          Sav6.gender exampleXY ≠ examplePKTraded.htGender ∨
          (examplePKTraded.geoCountry 0 = 0 ∧ examplePKTraded.geoRegion 0 = 0 ∧
            examplePKTraded.untradedEvent = false)) →
        pk'.geoCountry = examplePKTraded.geoCountry ∧
        pk'.geoRegion = examplePKTraded.geoRegion) :=
  Sav6.trade_handler_change_push_condition exampleEnv exampleXY examplePKTraded
    ⟨1, 1, 2014⟩ [] rfl rfl (Or.inr (Or.inl (by decide))) (Or.inl (by decide))

set_option maxRecDepth 100000 in
/-- C12 fails as stated: the traded record is not an egg, its original trainer (TID 999)
is not the container's, its handler name is the container's trainer name and its
entry-0 geolocation is (10, 11), so the claim's condition is false; but its handler
gender 0 differs from the container's gender 1 and trade rewrites the history, for
either argument order of the setters. -/
theorem Sav6.trade_handler_change_push_condition_counterexample :
    examplePKTraded.generation = Generation.SIX ∧ examplePKTraded.egg = false ∧
    Sav6.TID exampleXY ≠ examplePKTraded.TID ∧
    Sav6.otName exampleEnv exampleXY = examplePKTraded.htName ∧
    examplePKTraded.geoCountry 0 = 10 ∧ examplePKTraded.geoRegion 0 = 11 ∧
    Sav6.gender exampleXY = 1 ∧ examplePKTraded.htGender = 0 ∧
    (List.range 5).map examplePKTraded.geoCountry = [10, 20, 30, 40, 50] ∧
    (Sav6.trade exampleEnv exampleXY examplePKTraded ⟨1, 1, 2014⟩ []).map
        (fun r => (List.range 5).map r.1.geoCountry) = some [10, 10, 20, 30, 40] ∧
    (Sav6.trade exampleEnvEntryFirst exampleXY examplePKTraded ⟨1, 1, 2014⟩ []).map
        (fun r => (List.range 5).map r.1.geoCountry) = some [49, 20, 30, 40, 50] := by
  refine ⟨rfl, rfl, by decide, by decide, by decide, by decide, by decide, rfl, by decide,
    by decide, by decide⟩

/-- C13: for a generation-six record that is not an egg and whose original-trainer
identity differs from the container's in otName, TID, SID or gender, trade (which
returns when the handler memory is set or the draws hold an eligible feeling) leaves
currentHandler at 1, the handler gender at the container's gender and the handler name
at the container's otName. -/
theorem Sav6.trade_handler_identity (e : Env) (s : Sav6) (pk : PKX)
    (date : Date) (draws : List (Fin 20)) (hgen : pk.generation = Generation.SIX)
    (hegg : pk.egg = false)
    (hid : Sav6.otName e s ≠ pk.otName ∨ Sav6.TID s ≠ pk.TID ∨ Sav6.SID s ≠ pk.SID ∨
      Sav6.gender s ≠ pk.otGender)
    (hdraw : pk.htMemory ≠ 0 ∨ ∃ d, d ∈ draws ∧ 0x04CBFD &&& (1 <<< d.val) ≠ 0) :
    ∃ pk' rest, Sav6.trade e s pk date draws = some (pk', rest) ∧
      pk'.currentHandler = 1 ∧ pk'.htGender = Sav6.gender s ∧
      pk'.htName = Sav6.otName e s := by
  obtain ⟨pk', rest, h1, h2, h3⟩ :=
    Sav6.trade_handler_change_some e s pk date draws hgen hegg hid hdraw
  refine ⟨pk', rest, h1, ?_⟩
  by_cases hm : pk.htMemory = 0
  · obtain ⟨f, _, _, hf⟩ := h3 hm
    rw [hf, Sav6.handlerChange_eq]
    exact ⟨rfl, rfl, rfl⟩
  · rw [(h2 hm).1, Sav6.handlerChange_eq]
    exact ⟨rfl, rfl, rfl⟩

/-- The statement of C13 for the record of trainer 999 on the XY container, the draws
being 1 (not eligible) and 3 (eligible). -/
theorem Sav6.trade_handler_identity_witness :
    ∃ pk' rest, Sav6.trade exampleEnv exampleXY examplePKOther ⟨1, 1, 2014⟩ [1, 3] =
        some (pk', rest) ∧
      pk'.currentHandler = 1 ∧ pk'.htGender = Sav6.gender exampleXY ∧
      pk'.htName = Sav6.otName exampleEnv exampleXY :=
  Sav6.trade_handler_identity exampleEnv exampleXY examplePKOther ⟨1, 1, 2014⟩ [1, 3]
    rfl rfl (Or.inr (Or.inl (by decide))) (Or.inr ⟨3, by decide, by decide⟩)

/-- C14: in the handler-change case of trade (generation six, not an egg,
original-trainer identity differing from the container's; trade returns when the
handler memory is set or the draws hold an eligible feeling), if the handler name
before the call differs from the container's trainer name then afterwards the handler
friendship is the base friendship and the handler affection is 0; if the handler name
is the trainer name already, handler friendship and affection are as before. -/
theorem Sav6.trade_handler_friendship (e : Env) (s : Sav6) (pk : PKX)
    (date : Date) (draws : List (Fin 20)) (hgen : pk.generation = Generation.SIX)
    (hegg : pk.egg = false)
    (hid : Sav6.otName e s ≠ pk.otName ∨ Sav6.TID s ≠ pk.TID ∨ Sav6.SID s ≠ pk.SID ∨
      Sav6.gender s ≠ pk.otGender)
    (hdraw : pk.htMemory ≠ 0 ∨ ∃ d, d ∈ draws ∧ 0x04CBFD &&& (1 <<< d.val) ≠ 0) :
    ∃ pk' rest, Sav6.trade e s pk date draws = some (pk', rest) ∧
      (pk.htName ≠ Sav6.otName e s →
        pk'.htFriendship = pk.baseFriendship ∧ pk'.htAffection = 0) ∧
      (pk.htName = Sav6.otName e s →
        pk'.htFriendship = pk.htFriendship ∧ pk'.htAffection = pk.htAffection) := by
  obtain ⟨pk', rest, h1, h2, h3⟩ :=
    Sav6.trade_handler_change_some e s pk date draws hgen hegg hid hdraw
  have hfields : pk'.htFriendship = (Sav6.handlerChange e s pk).htFriendship ∧
      pk'.htAffection = (Sav6.handlerChange e s pk).htAffection := by
    by_cases hm : pk.htMemory = 0
    · obtain ⟨f, _, _, hf⟩ := h3 hm
      rw [hf]
      exact ⟨rfl, rfl⟩
    · rw [(h2 hm).1]
      exact ⟨rfl, rfl⟩
  rw [Sav6.handlerChange_eq] at hfields
  refine ⟨pk', rest, h1, ?_, ?_⟩
  · intro hn
    rw [hfields.1, hfields.2]
    exact ⟨if_pos hn, if_pos hn⟩
  · intro hn
    have hn' : ¬ pk.htName ≠ Sav6.otName e s := fun h => h hn
    rw [hfields.1, hfields.2]
    exact ⟨if_neg hn', if_neg hn'⟩

/-- The statement of C14 for the record of trainer 999 on the XY container. -/
theorem Sav6.trade_handler_friendship_witness :
    ∃ pk' rest, Sav6.trade exampleEnv exampleXY examplePKOther ⟨1, 1, 2014⟩ [1, 3] =
        some (pk', rest) ∧
      (examplePKOther.htName ≠ Sav6.otName exampleEnv exampleXY →
        pk'.htFriendship = examplePKOther.baseFriendship ∧ pk'.htAffection = 0) ∧
      (examplePKOther.htName = Sav6.otName exampleEnv exampleXY →
        pk'.htFriendship = examplePKOther.htFriendship ∧
        pk'.htAffection = examplePKOther.htAffection) :=
  Sav6.trade_handler_friendship exampleEnv exampleXY examplePKOther ⟨1, 1, 2014⟩ [1, 3]
    rfl rfl (Or.inr (Or.inl (by decide))) (Or.inr ⟨3, by decide, by decide⟩)

/-- C15: in the handler-change case of trade (generation six, not an egg,
original-trainer identity differing from the container's), if the handler memory is 0
before the call then, for every list of draws that holds an eligible value, trade
returns with htMemory = 4, htTextVar = 9, htIntensity = 1 and htFeeling a value below 20
whose bit is set in the mask 0x04CBFD, one of 0, 2, 3, 4, 5, 6, 7, 8, 9, 11, 14, 15, 18;
if the handler memory is not 0, trade returns with memory, text variable, intensity and
feeling as before and consumes no draw. -/
theorem Sav6.trade_handler_memory (e : Env) (s : Sav6) (pk : PKX)
    (date : Date) (draws : List (Fin 20)) (hgen : pk.generation = Generation.SIX)
    (hegg : pk.egg = false)
    (hid : Sav6.otName e s ≠ pk.otName ∨ Sav6.TID s ≠ pk.TID ∨ Sav6.SID s ≠ pk.SID ∨
      Sav6.gender s ≠ pk.otGender)
    (hdraw : pk.htMemory ≠ 0 ∨ ∃ d, d ∈ draws ∧ 0x04CBFD &&& (1 <<< d.val) ≠ 0) :
    ∃ pk' rest, Sav6.trade e s pk date draws = some (pk', rest) ∧
      (pk.htMemory = 0 →
        pk'.htMemory = 4 ∧ pk'.htTextVar = 9 ∧ pk'.htIntensity = 1 ∧
        pk'.htFeeling < 20 ∧ 0x04CBFD &&& (1 <<< pk'.htFeeling) ≠ 0 ∧
        pk'.htFeeling ∈ [0, 2, 3, 4, 5, 6, 7, 8, 9, 11, 14, 15, 18]) ∧
      (pk.htMemory ≠ 0 →
        pk'.htMemory = pk.htMemory ∧ pk'.htTextVar = pk.htTextVar ∧
        pk'.htIntensity = pk.htIntensity ∧ pk'.htFeeling = pk.htFeeling ∧
        rest = draws) := by
  obtain ⟨pk', rest, h1, h2, h3⟩ :=
    Sav6.trade_handler_change_some e s pk date draws hgen hegg hid hdraw
  refine ⟨pk', rest, h1, ?_, ?_⟩
  · intro hm
    obtain ⟨f, hf1, hf2, hf⟩ := h3 hm
    rw [hf]
    exact ⟨rfl, rfl, rfl, hf1, hf2, Sav6.feel_mem f hf1 hf2⟩
  · intro hm
    obtain ⟨hpk, hrest⟩ := h2 hm
    rw [hpk, Sav6.handlerChange_eq]
    exact ⟨rfl, rfl, rfl, rfl, hrest⟩

/-- The statement of C15 for the record of trainer 999, whose handler memory is 0, on
the XY container, the draws being 1 (not eligible) and 3 (eligible). -/
theorem Sav6.trade_handler_memory_witness :
    ∃ pk' rest, Sav6.trade exampleEnv exampleXY examplePKOther ⟨1, 1, 2014⟩ [1, 3] =
        some (pk', rest) ∧
      (examplePKOther.htMemory = 0 →
        pk'.htMemory = 4 ∧ pk'.htTextVar = 9 ∧ pk'.htIntensity = 1 ∧
        pk'.htFeeling < 20 ∧ 0x04CBFD &&& (1 <<< pk'.htFeeling) ≠ 0 ∧
        pk'.htFeeling ∈ [0, 2, 3, 4, 5, 6, 7, 8, 9, 11, 14, 15, 18]) ∧
      (examplePKOther.htMemory ≠ 0 →
        pk'.htMemory = examplePKOther.htMemory ∧ pk'.htTextVar = examplePKOther.htTextVar ∧
        pk'.htIntensity = examplePKOther.htIntensity ∧
        pk'.htFeeling = examplePKOther.htFeeling ∧ rest = [1, 3]) :=
  Sav6.trade_handler_memory exampleEnv exampleXY examplePKOther ⟨1, 1, 2014⟩ [1, 3]
    rfl rfl (Or.inr (Or.inl (by decide))) (Or.inr ⟨3, by decide, by decide⟩)

/-- C16: if the record's species is not in availableSpecies() or the record is an egg,
dex returns the container as it was, every byte of the buffer included. -/
theorem Sav6.dex_noop_unsupported_or_egg (e : Env) (s : Sav6) (pk : PKX)
    (h : pk.species ∉ s.availableSpecies ∨ pk.egg = true) :
    Sav6.dex e s pk = s ∧ ∀ i, (Sav6.dex e s pk).data i = s.data i := by
  have hg : ¬ (s.availableSpecies.count pk.species > 0) ∨ pk.egg = true := by
    rcases h with h | h
    · exact Or.inl (fun hc => h (List.count_pos_iff.1 hc))
    · exact Or.inr h
  have h1 : Sav6.dex e s pk = s := by
    unfold Sav6.dex
    rw [if_pos hg]
  exact ⟨h1, fun i => by rw [h1]⟩

/-- The statement of C16 for the egg on the XY container. -/
theorem Sav6.dex_noop_unsupported_or_egg_witness :
    Sav6.dex exampleEnv exampleXY exampleEgg = exampleXY ∧
      ∀ i, (Sav6.dex exampleEnv exampleXY exampleEgg).data i = exampleXY.data i :=
  Sav6.dex_noop_unsupported_or_egg exampleEnv exampleXY exampleEgg (Or.inr rfl)

end pksm

/-! ## The bytes dex writes: owned plane, language flag, encounter count, form planes -/

namespace pksm

theorem Buffer.orAt_ne (b : Buffer) (i m q : Nat) (h : q ≠ i) : (b.orAt i m) q = b q := by
  unfold Buffer.orAt
  exact Buffer.write_ne _ _ _ _ h

namespace Sav6

theorem dexOwnedFlag_frame (e : Env) (s : Sav6) (pk : PKX) (d : Buffer) (q : Nat)
    (hq : q ∉ dexFlagBytes e s pk) : dexOwnedFlag e s pk d q = d q := by
  simp only [dexFlagBytes, List.mem_append, not_or] at hq
  have h := hq.1.1
  simp only [dexOwnedFlag]
  split
  · rename_i hc
    rw [if_pos hc] at h
    exact Buffer.orAt_ne _ _ _ _ (by simpa using h)
  · rename_i hc
    rw [if_neg hc] at h
    split
    · rename_i hc2
      rw [if_pos hc2] at h
      exact Buffer.orAt_ne _ _ _ _ (by simpa using h)
    · rfl

theorem dexSeenFlag_frame (e : Env) (s : Sav6) (pk : PKX) (d : Buffer) (q : Nat)
    (hq : q ∉ dexFlagBytes e s pk) : dexSeenFlag s pk d q = d q := by
  simp only [dexFlagBytes, List.mem_append, List.mem_cons, not_or] at hq
  exact Buffer.orAt_ne _ _ _ _ hq.1.2.1

theorem dexDisplayFlag_frame (e : Env) (s : Sav6) (pk : PKX) (d : Buffer) (q : Nat)
    (hq : q ∉ dexFlagBytes e s pk) : dexDisplayFlag s pk d q = d q := by
  simp only [dexFlagBytes, List.mem_append, List.mem_cons, not_or] at hq
  simp only [dexDisplayFlag]
  split
  · exact Buffer.orAt_ne _ _ _ _ hq.1.2.2.1
  · rfl

theorem dexLanguageFlag_frame (e : Env) (s : Sav6) (pk : PKX) (d : Buffer) (q : Nat)
    (hq : q ∉ dexFlagBytes e s pk) : dexLanguageFlag s pk d q = d q := by
  simp only [dexFlagBytes, List.mem_append, List.mem_cons, not_or] at hq
  exact Buffer.orAt_ne _ _ _ _ hq.1.2.2.2.1

theorem dexFormFlags_frame (e : Env) (s : Sav6) (pk : PKX) (d : Buffer) (q : Nat)
    (hq : q ∉ dexFlagBytes e s pk) : dexFormFlags e s pk d q = d q := by
  simp only [dexFlagBytes, List.mem_append, not_or] at hq
  have h := hq.2
  simp only [dexFormFlags]
  by_cases hf : dexFormIndex s.game (u16 pk.species) (e.formCount (u16 pk.species)) < 0
  · rw [if_pos hf]
  · rw [if_neg hf]
    rw [if_neg hf] at h
    simp only [List.mem_cons, List.mem_singleton, List.not_mem_nil, or_false, not_or] at h
    generalize (if s.game = Game.XY then 24 else 38 : Nat) = formLen at h ⊢
    generalize (if pk.shiny = true then 1 else 0 : Nat) = sh at h ⊢
    split
    · exact Buffer.orAt_ne _ _ _ _ h.1
    · rw [Buffer.orAt_ne _ _ _ _ h.2]
      exact Buffer.orAt_ne _ _ _ _ h.1

theorem dexNavCount_frame (s : Sav6) (pk : PKX) (d : Buffer) (q : Nat)
    (hq : s.game = Game.ORAS →
      q ≠ s.EncounterCount + (u16 pk.species - 1) * 2 ∧
      q ≠ s.EncounterCount + (u16 pk.species - 1) * 2 + 1) :
    dexNavCount s pk d q = d q := by
  unfold dexNavCount
  split
  · rename_i hg
    unfold Buffer.convertFrom16
    rw [Buffer.write_ne _ _ _ _ (hq hg.1).2, Buffer.write_ne _ _ _ _ (hq hg.1).1]
  · rfl

/-- Outside the flag bytes of the record and, on ORAS, the encounter count of its
species, `dex` leaves the buffer as it was. -/
theorem dex_frame (e : Env) (s : Sav6) (pk : PKX) (q : Nat)
    (hq : q ∉ dexFlagBytes e s pk)
    (hn : s.game = Game.ORAS →
      q ≠ s.EncounterCount + (u16 pk.species - 1) * 2 ∧
      q ≠ s.EncounterCount + (u16 pk.species - 1) * 2 + 1) :
    (dex e s pk).data q = s.data q := by
  unfold dex
  split
  · rfl
  · show dexFormFlags e s pk _ q = s.data q
    rw [dexFormFlags_frame e s pk _ q hq, dexNavCount_frame s pk _ q hn,
      dexLanguageFlag_frame e s pk _ q hq, dexDisplayFlag_frame e s pk _ q hq,
      dexSeenFlag_frame e s pk _ q hq, dexOwnedFlag_frame e s pk _ q hq]

end Sav6
theorem Buffer.bit_orAt_mask_frame (d : Buffer) (p n q k : Nat) (h : ¬ (q = p ∧ k = n)) :
    (d.orAt p (u8 (1 <<< n))).bit q k = d.bit q k := by
  rw [Bool.eq_iff_iff]
  constructor
  · intro hb
    rcases Buffer.bit_orAt_mask_imp d p n q k hb with h1 | h1
    · exact h1
    · exact absurd h1 h
  · intro hb
    exact Buffer.le_orAt d p _ q k hb

namespace Sav6

theorem dex_foreign_bit_set (e : Env) (s : Sav6) (pk : PKX)
    (hsup : pk.species ∈ s.availableSpecies) (hegg : pk.egg = false)
    (hver : pk.version < e.versionX ∧ u16 pk.species - 1 < 649 ∧ s.game ≠ Game.ORAS) :
    (dex e s pk).data.bit (s.PokeDex + 0x8 + (u16 pk.species - 1) / 8 + 0x644)
      ((u16 pk.species - 1) % 8) = true := by
  rw [dex_data_of_guard e s pk hsup hegg]
  apply (dexFormFlags_absorbing e s pk).infl
  apply (dexNavCount_absorbing s pk).infl
  apply (dexLanguageFlag_absorbing s pk).infl
  apply (dexDisplayFlag_absorbing s pk).infl
  apply (dexSeenFlag_absorbing s pk).infl
  simp only [dexOwnedFlag, shiftRight_three, and_seven]
  rw [if_pos hver]
  exact Buffer.bit_orAt_mask_self _ _ _ (Nat.mod_lt _ (by decide))

theorem dexFormIndex_XY_of_ORAS_only :
    ∀ p, p ∈ dexFormTableORAS → ∀ fc : Int, dexFormIndex Game.XY p.1 fc = -1 := by
  have hnone : ∀ p, p ∈ dexFormTableORAS → dexFormTable.lookup p.1 = none := by decide
  intro p hp fc
  unfold dexFormIndex
  split
  · rfl
  · simp [hnone p hp]

theorem convertTo16_convertFrom16_one (b : Buffer) (p : Nat) :
    (b.convertFrom16 p 1).convertTo16 p = 1 := by
  unfold Buffer.convertTo16 Buffer.convertFrom16
  rw [Buffer.read_write, Buffer.read_write, Buffer.read_write]
  simp

end Sav6

/-- C17, as the code has it: dex of a supported record that is not an egg sets the
species' owned bit in the foreign plane (byte PokeDex+0x8+0x644+((species-1)>>3)) when
the origin version predates GameVersion::X, the species number is at most 649 and the
container is not ORAS, and in the native plane (byte PokeDex+0x8+((species-1)>>3)) when
the origin version is GameVersion::X or later or the container is ORAS; in either case
the owned section changes no other bit of the buffer. -/
theorem Sav6.dex_owned_plane (e : Env) (s : Sav6) (pk : PKX)
    (hsup : pk.species ∈ s.availableSpecies) (hegg : pk.egg = false) :
    ((pk.version < e.versionX ∧ u16 pk.species - 1 < 649 ∧ s.game ≠ Game.ORAS) →
      (Sav6.dex e s pk).data.bit (s.PokeDex + 0x8 + 0x644 + (u16 pk.species - 1) >>> 3)
          ((u16 pk.species - 1) &&& 7) = true ∧
        ∀ (d : Buffer) (q k : Nat),
          ¬ (q = s.PokeDex + 0x8 + 0x644 + (u16 pk.species - 1) >>> 3 ∧
            k = (u16 pk.species - 1) &&& 7) →
          (Sav6.dexOwnedFlag e s pk d).bit q k = d.bit q k) ∧
    ((pk.version ≥ e.versionX ∨ s.game = Game.ORAS) →
      (Sav6.dex e s pk).data.bit (s.PokeDex + 0x8 + (u16 pk.species - 1) >>> 3)
          ((u16 pk.species - 1) &&& 7) = true ∧
        ∀ (d : Buffer) (q k : Nat),
          ¬ (q = s.PokeDex + 0x8 + (u16 pk.species - 1) >>> 3 ∧
            k = (u16 pk.species - 1) &&& 7) →
          (Sav6.dexOwnedFlag e s pk d).bit q k = d.bit q k) := by
  constructor
  · intro hver
    constructor
    · rw [shiftRight_three, and_seven]
      have hpos : s.PokeDex + 0x8 + 0x644 + (u16 pk.species - 1) / 8 =
          s.PokeDex + 0x8 + (u16 pk.species - 1) / 8 + 0x644 := by omega
      rw [hpos]
      exact Sav6.dex_foreign_bit_set e s pk hsup hegg hver
    · intro d q k hqk
      simp only [Sav6.dexOwnedFlag]
      rw [if_pos hver]
      apply Buffer.bit_orAt_mask_frame
      intro h
      apply hqk
      refine ⟨?_, h.2⟩
      rw [h.1]
      omega
  · intro hver
    have h1 : ¬ (pk.version < e.versionX ∧ u16 pk.species - 1 < 649 ∧
        s.game ≠ Game.ORAS) := by
      rcases hver with h | h
      · omega
      · intro h'
        exact h'.2.2 h
    constructor
    · rw [shiftRight_three, and_seven]
      exact Sav6.dex_native_bit_set e s pk hsup hegg hver
    · intro d q k hqk
      simp only [Sav6.dexOwnedFlag]
      rw [if_neg h1, if_pos hver]
      apply Buffer.bit_orAt_mask_frame
      intro h
      apply hqk
      refine ⟨?_, h.2⟩
      rw [h.1]
      omega

/-- The statement of C17, as amended, for the record of origin version 24 on the XY
container. -/
theorem Sav6.dex_owned_plane_witness :
    ((examplePK.version < exampleEnv.versionX ∧ u16 examplePK.species - 1 < 649 ∧
        exampleXY.game ≠ Game.ORAS) →
      (Sav6.dex exampleEnv exampleXY examplePK).data.bit
          (exampleXY.PokeDex + 0x8 + 0x644 + (u16 examplePK.species - 1) >>> 3)
          ((u16 examplePK.species - 1) &&& 7) = true ∧
        ∀ (d : Buffer) (q k : Nat),
          ¬ (q = exampleXY.PokeDex + 0x8 + 0x644 + (u16 examplePK.species - 1) >>> 3 ∧
            k = (u16 examplePK.species - 1) &&& 7) →
          (Sav6.dexOwnedFlag exampleEnv exampleXY examplePK d).bit q k = d.bit q k) ∧
    ((examplePK.version ≥ exampleEnv.versionX ∨ exampleXY.game = Game.ORAS) →
      (Sav6.dex exampleEnv exampleXY examplePK).data.bit
          (exampleXY.PokeDex + 0x8 + (u16 examplePK.species - 1) >>> 3)
          ((u16 examplePK.species - 1) &&& 7) = true ∧
        ∀ (d : Buffer) (q k : Nat),
          ¬ (q = exampleXY.PokeDex + 0x8 + (u16 examplePK.species - 1) >>> 3 ∧
            k = (u16 examplePK.species - 1) &&& 7) →
          (Sav6.dexOwnedFlag exampleEnv exampleXY examplePK d).bit q k = d.bit q k) :=
  Sav6.dex_owned_plane exampleEnv exampleXY examplePK Sav6.examplePK_supported rfl

set_option maxRecDepth 1000000 in
/-- C17 fails as stated: on the XY container the record of species 650 and origin
version 20 (before GameVersion::X = 24) is supported and is not an egg, so the claim has
dex set its bit in the foreign plane; but after dex the species' bit is set neither in
the foreign plane nor in the native plane. -/
theorem Sav6.dex_owned_plane_counterexample :
    examplePKOld650.species ∈ exampleXY.availableSpecies ∧ examplePKOld650.egg = false ∧
    examplePKOld650.version < exampleEnv.versionX ∧ exampleXY.game = Game.XY ∧
    examplePKOld650.species = 650 ∧
    (Sav6.dex exampleEnv exampleXY examplePKOld650).data.bit
        (exampleXY.PokeDex + 0x8 + 0x644 + (u16 examplePKOld650.species - 1) >>> 3)
        ((u16 examplePKOld650.species - 1) &&& 7) = false ∧
    (Sav6.dex exampleEnv exampleXY examplePKOld650).data.bit
        (exampleXY.PokeDex + 0x8 + (u16 examplePKOld650.species - 1) >>> 3)
        ((u16 examplePKOld650.species - 1) &&& 7) = false := by
  refine ⟨List.mem_range'_1.2 (by decide), rfl, by decide, rfl, rfl, by decide, by decide⟩

set_option maxRecDepth 1000000 in
/-- C18 fails on the code.  For the record of species 1 with language value 9, dex
computes lang = 9 - 1 = 8, lowers it to 7 (above 5) and sets bit 0 * 7 + 7 = 7 of the
language-flag region, which is the first of the 7 bits of species 2, not one of the
bits 0 to 6 of species 1. -/
theorem Sav6.dex_language_index_out_of_group :
    examplePKLanguage9.species = 1 ∧ examplePKLanguage9.language = 9 ∧
    Sav6.dexLang examplePKLanguage9 = 7 ∧
    (u16 examplePKLanguage9.species - 1) * 7 + Sav6.dexLang examplePKLanguage9 =
      (2 - 1) * 7 + 0 ∧
    exampleXY.data.bit (exampleXY.PokeDexLanguageFlags + 7 / 8) (7 % 8) = false ∧
    (Sav6.dex exampleEnv exampleXY examplePKLanguage9).data.bit
      (exampleXY.PokeDexLanguageFlags + 7 / 8) (7 % 8) = true := by
  refine ⟨rfl, rfl, by decide, by decide, by decide, by decide⟩

namespace Sav6

/-- The encounter count of the record's species after `dex`, when no flag byte of the
record is one of its two bytes: it is what the DexNav section alone makes of it. -/
theorem dex_encounter_bytes (e : Env) (s : Sav6) (pk : PKX)
    (hsup : pk.species ∈ s.availableSpecies) (hegg : pk.egg = false)
    (hapart : ∀ q, q ∈ dexFlagBytes e s pk →
      q ≠ s.EncounterCount + (u16 pk.species - 1) * 2 ∧
      q ≠ s.EncounterCount + (u16 pk.species - 1) * 2 + 1) :
    (dex e s pk).data.convertTo16 (s.EncounterCount + (u16 pk.species - 1) * 2) =
      (dexNavCount s pk s.data).convertTo16 (s.EncounterCount + (u16 pk.species - 1) * 2) := by
  have h0 : s.EncounterCount + (u16 pk.species - 1) * 2 ∉ dexFlagBytes e s pk :=
    fun h => (hapart _ h).1 rfl
  have h1 : s.EncounterCount + (u16 pk.species - 1) * 2 + 1 ∉ dexFlagBytes e s pk :=
    fun h => (hapart _ h).2 rfl
  have hpre : ∀ q, q ∉ dexFlagBytes e s pk →
      dexLanguageFlag s pk (dexDisplayFlag s pk (dexSeenFlag s pk
        (dexOwnedFlag e s pk s.data))) q = s.data q := by
    intro q hq
    rw [dexLanguageFlag_frame e s pk _ q hq, dexDisplayFlag_frame e s pk _ q hq,
      dexSeenFlag_frame e s pk _ q hq, dexOwnedFlag_frame e s pk _ q hq]
  have hc : (dexLanguageFlag s pk (dexDisplayFlag s pk (dexSeenFlag s pk
      (dexOwnedFlag e s pk s.data)))).convertTo16
        (s.EncounterCount + (u16 pk.species - 1) * 2) =
      s.data.convertTo16 (s.EncounterCount + (u16 pk.species - 1) * 2) := by
    unfold Buffer.convertTo16 Buffer.read
    rw [hpre _ h0, hpre _ h1]
  rw [dex_data_of_guard e s pk hsup hegg]
  have hform : ∀ (d : Buffer),
      (dexFormFlags e s pk d).convertTo16 (s.EncounterCount + (u16 pk.species - 1) * 2) =
        d.convertTo16 (s.EncounterCount + (u16 pk.species - 1) * 2) := by
    intro d
    unfold Buffer.convertTo16 Buffer.read
    rw [dexFormFlags_frame e s pk d _ h0, dexFormFlags_frame e s pk d _ h1]
  rw [hform]
  unfold dexNavCount
  rw [hc]
  by_cases hg : s.game = Game.ORAS ∧
      s.data.convertTo16 (s.EncounterCount + (u16 pk.species - 1) * 2) = 0
  · rw [if_pos hg, if_pos hg, convertTo16_convertFrom16_one, convertTo16_convertFrom16_one]
  · rw [if_neg hg, if_neg hg, hc]

end Sav6

/-- C19: for a supported record that is not an egg and none of whose flag bytes is a
byte of the encounter count of its species, on an ORAS container the 16-bit
little-endian count at EncounterCount + (species - 1) * 2 is 1 after dex if it was 0
before and is as before if it was not 0; on an XY container dex changes no byte other
than the flag bytes of the record, so it never writes the encounter-count table. -/
theorem Sav6.dex_encounter_count (e : Env) (s : Sav6) (pk : PKX)
    (hsup : pk.species ∈ s.availableSpecies) (hegg : pk.egg = false)
    (hapart : ∀ q, q ∈ Sav6.dexFlagBytes e s pk →
      q ≠ s.EncounterCount + (u16 pk.species - 1) * 2 ∧
      q ≠ s.EncounterCount + (u16 pk.species - 1) * 2 + 1) :
    (s.game = Game.ORAS →
      (Sav6.dex e s pk).data.convertTo16 (s.EncounterCount + (u16 pk.species - 1) * 2) =
        if s.data.convertTo16 (s.EncounterCount + (u16 pk.species - 1) * 2) = 0 then 1
        else s.data.convertTo16 (s.EncounterCount + (u16 pk.species - 1) * 2)) ∧
    (s.game = Game.XY →
      (∀ q, q ∉ Sav6.dexFlagBytes e s pk → (Sav6.dex e s pk).data q = s.data q) ∧
      (Sav6.dex e s pk).data.convertTo16 (s.EncounterCount + (u16 pk.species - 1) * 2) =
        s.data.convertTo16 (s.EncounterCount + (u16 pk.species - 1) * 2)) := by
  have hb := Sav6.dex_encounter_bytes e s pk hsup hegg hapart
  constructor
  · intro hg
    rw [hb]
    unfold Sav6.dexNavCount
    by_cases hz : s.data.convertTo16 (s.EncounterCount + (u16 pk.species - 1) * 2) = 0
    · rw [if_pos ⟨hg, hz⟩, if_pos hz, Sav6.convertTo16_convertFrom16_one]
    · rw [if_neg (fun h => hz h.2), if_neg hz]
  · intro hg
    have hno : ¬ s.game = Game.ORAS := by rw [hg]; decide
    constructor
    · intro q hq
      exact Sav6.dex_frame e s pk q hq (fun h => absurd h hno)
    · rw [hb]
      unfold Sav6.dexNavCount
      rw [if_neg (fun h => hno h.1)]

/-- The statement of C19 for the first dex on the clean ORAS container. -/
theorem Sav6.dex_encounter_count_witness :
    (exampleORAS.game = Game.ORAS →
      (Sav6.dex exampleEnv exampleORAS examplePK).data.convertTo16
          (exampleORAS.EncounterCount + (u16 examplePK.species - 1) * 2) =
        if exampleORAS.data.convertTo16
            (exampleORAS.EncounterCount + (u16 examplePK.species - 1) * 2) = 0 then 1
        else exampleORAS.data.convertTo16
          (exampleORAS.EncounterCount + (u16 examplePK.species - 1) * 2)) ∧
    (exampleORAS.game = Game.XY →
      (∀ q, q ∉ Sav6.dexFlagBytes exampleEnv exampleORAS examplePK →
        (Sav6.dex exampleEnv exampleORAS examplePK).data q = exampleORAS.data q) ∧
      (Sav6.dex exampleEnv exampleORAS examplePK).data.convertTo16
          (exampleORAS.EncounterCount + (u16 examplePK.species - 1) * 2) =
        exampleORAS.data.convertTo16
          (exampleORAS.EncounterCount + (u16 examplePK.species - 1) * 2)) :=
  Sav6.dex_encounter_count exampleEnv exampleORAS examplePK
    (List.mem_range'_1.2 (by decide)) rfl (by decide)

/-- C20: for a species for which dexFormIndex returns -1 the form section of dex stores
nothing, and dex leaves every byte of the four form planes (the 4 * formLen bytes from
PokeDex + 0x8 + 0x60 * 9 on, formLen being 0x18 on XY and 0x26 on ORAS) as it was,
provided none of the record's flag bytes (owned, seen, displayed and language byte for
such a species) and, on ORAS, no byte of the encounter count of the species lies in
the planes.  dexFormIndex returns -1 for a form count below 1 and, on XY, for each
species of the ORAS-only table. -/
theorem Sav6.dex_no_form_flags (e : Env) (s : Sav6) (pk : PKX)
    (hapart : ∀ q, q ∈ Sav6.dexFlagBytes e s pk →
      q < s.PokeDex + 0x8 + 0x60 * 9 ∨
      s.PokeDex + 0x8 + 0x60 * 9 + 4 * (if s.game = Game.XY then 0x18 else 0x26) ≤ q)
    (henc : s.game = Game.ORAS →
      s.EncounterCount + (u16 pk.species - 1) * 2 + 2 ≤ s.PokeDex + 0x8 + 0x60 * 9 ∨
      s.PokeDex + 0x8 + 0x60 * 9 + 4 * (if s.game = Game.XY then 0x18 else 0x26) ≤
        s.EncounterCount + (u16 pk.species - 1) * 2) :
    (Sav6.dexFormIndex s.game (u16 pk.species) (e.formCount (u16 pk.species)) = -1 →
      (∀ d, Sav6.dexFormFlags e s pk d = d) ∧
      ∀ q, s.PokeDex + 0x8 + 0x60 * 9 ≤ q →
        q < s.PokeDex + 0x8 + 0x60 * 9 + 4 * (if s.game = Game.XY then 0x18 else 0x26) →
        (Sav6.dex e s pk).data q = s.data q) ∧
    (∀ (game : Game) (species fc : Int), fc < 1 → Sav6.dexFormIndex game species fc = -1) ∧
    (∀ p, p ∈ Sav6.dexFormTableORAS → ∀ fc : Int,
      Sav6.dexFormIndex Game.XY p.1 fc = -1) := by
  refine ⟨?_, ?_, Sav6.dexFormIndex_XY_of_ORAS_only⟩
  · intro hf
    have hneg : Sav6.dexFormIndex s.game (u16 pk.species) (e.formCount (u16 pk.species)) < 0 := by
      rw [hf]; decide
    constructor
    · intro d
      simp only [Sav6.dexFormFlags]
      rw [if_pos hneg]
    · intro q h1 h2
      apply Sav6.dex_frame
      · intro hq
        have := hapart q hq
        omega
      · intro hg
        have := henc hg
        omega
  · intro game species fc hfc
    unfold Sav6.dexFormIndex
    rw [if_pos (Or.inl hfc)]

/-- The statement of C20 for species 1, which has no form index, on the XY container. -/
theorem Sav6.dex_no_form_flags_witness :
    (Sav6.dexFormIndex exampleXY.game (u16 examplePK.species)
        (exampleEnv.formCount (u16 examplePK.species)) = -1 →
      (∀ d, Sav6.dexFormFlags exampleEnv exampleXY examplePK d = d) ∧
      ∀ q, exampleXY.PokeDex + 0x8 + 0x60 * 9 ≤ q →
        q < exampleXY.PokeDex + 0x8 + 0x60 * 9 +
          4 * (if exampleXY.game = Game.XY then 0x18 else 0x26) →
        (Sav6.dex exampleEnv exampleXY examplePK).data q = exampleXY.data q) ∧
    (∀ (game : Game) (species fc : Int), fc < 1 → Sav6.dexFormIndex game species fc = -1) ∧
    (∀ p, p ∈ Sav6.dexFormTableORAS → ∀ fc : Int,
      Sav6.dexFormIndex Game.XY p.1 fc = -1) :=
  Sav6.dex_no_form_flags exampleEnv exampleXY examplePK (by decide) (by decide)

end pksm

/-! ## Vouchers: redemption, the special-cased patch and the count -/

namespace pksm

theorem Buffer.convertTo32_convertFrom32 (b : Buffer) (p v : Nat) :
    (b.convertFrom32 p v).convertTo32 p = v % 4294967296 := by
  unfold Buffer.convertTo32 Buffer.convertFrom32
  simp only [Buffer.read_write]
  have h1 : ¬ (p = p + 1) := by omega
  have h2 : ¬ (p = p + 2) := by omega
  have h3 : ¬ (p = p + 3) := by omega
  have h4 : ¬ (p + 1 = p + 2) := by omega
  have h5 : ¬ (p + 1 = p + 3) := by omega
  have h6 : ¬ (p + 2 = p + 3) := by omega
  simp only [h1, h2, h3, h4, h5, h6, if_true, if_false]
  omega

theorem Buffer.convertTo32_congr (a b : Buffer) (p : Nat)
    (h : ∀ q, p ≤ q → q < p + 4 → a q = b q) : a.convertTo32 p = b.convertTo32 p := by
  unfold Buffer.convertTo32 Buffer.read
  rw [h p (by omega) (by omega), h (p + 1) (by omega) (by omega),
    h (p + 2) (by omega) (by omega), h (p + 3) (by omega) (by omega)]

namespace Sav6

/-- The buffer after the flag store and the copy of `mysteryGift`, before the patch. -/
theorem mysteryGift_data (e : Env) (s : Sav6) (wc : WCX) (pos : Nat)
    (hgen : wc.generation = Generation.SIX) :
    (mysteryGift e s wc pos).1.data =
      if s.game = Game.ORAS ∧ wc.ID = 2048 ∧ wc.object = 726 then
        (((s.data.orAt (s.WondercardFlags + wc.ID / 8) (0x1 <<< (wc.ID % 8))).copyTo
          (s.WondercardData + e.WC6_length * pos)
          ((List.range e.WC6_length).map wc.rawData)).convertFrom32 0x319B8
            0x225D73C2).convertFrom32 0x319DE 0x225D73C2
      else
        (s.data.orAt (s.WondercardFlags + wc.ID / 8) (0x1 <<< (wc.ID % 8))).copyTo
          (s.WondercardData + e.WC6_length * pos)
          ((List.range e.WC6_length).map wc.rawData) := by
  unfold mysteryGift
  rw [if_pos hgen]

theorem mysteryGift_other (e : Env) (s : Sav6) (wc : WCX) (pos : Nat)
    (hgen : wc.generation ≠ Generation.SIX) : mysteryGift e s wc pos = (s, pos) := by
  unfold mysteryGift
  rw [if_neg hgen]

/-- A byte that the patch of `mysteryGift` does not store to holds what the flag store
and the copy left. -/
theorem mysteryGift_unpatched (e : Env) (s : Sav6) (wc : WCX) (pos q : Nat)
    (hgen : wc.generation = Generation.SIX)
    (hq : s.game = Game.ORAS → wc.ID = 2048 → wc.object = 726 →
      ¬ ((0x319B8 ≤ q ∧ q < 0x319B8 + 4) ∨ (0x319DE ≤ q ∧ q < 0x319DE + 4))) :
    (mysteryGift e s wc pos).1.data q =
      ((s.data.orAt (s.WondercardFlags + wc.ID / 8) (0x1 <<< (wc.ID % 8))).copyTo
        (s.WondercardData + e.WC6_length * pos)
        ((List.range e.WC6_length).map wc.rawData)) q := by
  rw [mysteryGift_data e s wc pos hgen]
  split
  · rename_i hp
    have := hq hp.1 hp.2.1 hp.2.2
    rw [Buffer.convertFrom32_outside _ _ _ _ (by omega),
      Buffer.convertFrom32_outside _ _ _ _ (by omega)]
  · rfl

end Sav6

set_option maxRecDepth 1000000 in
/-- C21 fails on the code.  On the ORAS container the flag bytes start at 0x1CC00 and the
voucher ring at 0x1CD00, so for the generation-six voucher with ID 2048 and object 726,
the one mysteryGift has a special case for, the flag byte WondercardFlags + ID/8 is the
first byte of ring slot 0.  With the cursor 0 the call returns the cursor 1, but the
copy has stored the voucher's first byte (0) over the flag: bit ID mod 8 = 0 of the
flag byte is not set afterwards.  With the cursor 1, after a voucher with ID 2 has been
stored in slot 0, the flag store changes the first two bytes of slot 0, that voucher's
ID, from 2, 0 to 3, 0. -/
theorem Sav6.voucher_flag_store_on_ring :
    exampleWCEon.generation = Generation.SIX ∧ exampleWCEon.ID = 2048 ∧
      exampleWCEon.object = 726 ∧
      exampleORAS.WondercardFlags + exampleWCEon.ID / 8 =
        exampleORAS.WondercardData + exampleEnv.WC6_length * 0 ∧
      (Sav6.mysteryGift exampleEnv exampleORAS exampleWCEon 0).2 = 1 ∧
      (Sav6.mysteryGift exampleEnv exampleORAS exampleWCEon 0).1.data.bit
        (exampleORAS.WondercardFlags + exampleWCEon.ID / 8) (exampleWCEon.ID % 8) = false ∧
      (Sav6.mysteryGift exampleEnv exampleORAS exampleWCTwo 0).1.data.readBytes
        exampleORAS.WondercardData 2 = [2, 0] ∧
      (Sav6.redeemAll exampleEnv exampleORAS [exampleWCTwo, exampleWCEon] 0).1.data.readBytes
        exampleORAS.WondercardData 2 = [3, 0] := by
  refine ⟨rfl, rfl, rfl, by decide, by decide, by decide!, by decide!, by decide!⟩

/-- C22, as the code has it: the patch is made on an ORAS container only.  There,
mysteryGift of a generation-six voucher with ID 2048 and object 726 leaves the
little-endian 32-bit value 0x225D73C2 at the offsets 0x319B8 and 0x319DE.  For every
other call (an XY container, a voucher without both ID 2048 and object 726, a voucher of
another generation) no patch is stored: every byte other than the flag byte at
WondercardFlags + ID/8 and the bytes of the slot written holds what it held before, the
bytes of the two fields among them. -/
theorem Sav6.eon_ticket_patch (e : Env) (s : Sav6) (wc : WCX) (pos : Nat) :
    (wc.generation = Generation.SIX → s.game = Game.ORAS → wc.ID = 2048 →
      wc.object = 726 →
      (Sav6.mysteryGift e s wc pos).1.data.convertTo32 0x319B8 = 0x225D73C2 ∧
      (Sav6.mysteryGift e s wc pos).1.data.convertTo32 0x319DE = 0x225D73C2) ∧
    (¬ (wc.generation = Generation.SIX ∧ s.game = Game.ORAS ∧ wc.ID = 2048 ∧
        wc.object = 726) →
      ∀ q, q ≠ s.WondercardFlags + wc.ID / 8 →
        (q < s.WondercardData + e.WC6_length * pos ∨
          s.WondercardData + e.WC6_length * pos + e.WC6_length ≤ q) →
        (Sav6.mysteryGift e s wc pos).1.data q = s.data q) := by
  refine ⟨?_, ?_⟩
  · intro hgen hgame hid hobj
    rw [Sav6.mysteryGift_data e s wc pos hgen, if_pos ⟨hgame, hid, hobj⟩]
    refine ⟨?_, ?_⟩
    · rw [Buffer.convertTo32_congr _ _ _
        (fun q h1 h2 => Buffer.convertFrom32_outside _ 0x319DE _ q (by omega)),
        Buffer.convertTo32_convertFrom32]
    · rw [Buffer.convertTo32_convertFrom32]
  · intro hnot q hq hslot
    by_cases hgen : wc.generation = Generation.SIX
    · rw [Sav6.mysteryGift_unpatched e s wc pos q hgen
        (fun h1 h2 h3 => absurd ⟨hgen, h1, h2, h3⟩ hnot)]
      rw [Buffer.copyTo_outside _ _ _ _
        (by simp only [List.length_map, List.length_range]; omega)]
      exact Buffer.orAt_ne _ _ _ _ hq
    · rw [Sav6.mysteryGift_other e s wc pos hgen]

set_option maxRecDepth 1000000 in
/-- The statement of C22, as amended, for the special-cased voucher and the cursor 0 on the ORAS
container. -/
theorem Sav6.eon_ticket_patch_witness :
    (Sav6.mysteryGift exampleEnv exampleORAS exampleWCEon 0).1.data.convertTo32 0x319B8 =
        0x225D73C2 ∧
      (Sav6.mysteryGift exampleEnv exampleORAS exampleWCEon 0).1.data.convertTo32 0x319DE =
        0x225D73C2 :=
  (Sav6.eon_ticket_patch exampleEnv exampleORAS exampleWCEon 0).1 rfl rfl rfl rfl

set_option maxRecDepth 1000000 in
/-- C22 fails as stated: on the XY container, mysteryGift of the generation-six voucher
with ID 2048 and object 726 (cursor 1) leaves the value 0, not 0x225D73C2, at the
offsets 0x319B8 and 0x319DE. -/
theorem Sav6.eon_ticket_patch_counterexample :
    exampleWCEon.generation = Generation.SIX ∧ exampleWCEon.ID = 2048 ∧
      exampleWCEon.object = 726 ∧ exampleXY.game = Game.XY ∧
      (Sav6.mysteryGift exampleEnv exampleXY exampleWCEon 1).1.data.convertTo32 0x319B8 = 0 ∧
      (Sav6.mysteryGift exampleEnv exampleXY exampleWCEon 1).1.data.convertTo32 0x319DE = 0 := by
  refine ⟨rfl, rfl, rfl, rfl, by decide!, by decide!⟩

namespace Sav6

theorem giftSlotEmpty_false (e : Env) (s : Sav6) (t : Nat) (h : giftSlotEmpty e s t = false) :
    ∃ j, j < e.WC6_length ∧ s.data.read (s.WondercardData + t * e.WC6_length + j) ≠ 0 := by
  by_contra hne
  have hall : giftSlotEmpty e s t = true := by
    rw [giftSlotEmpty_iff]
    intro j hj
    by_contra hz
    apply hne
    refine ⟨j, hj, ?_⟩
    intro h0
    exact hz (Fin.ext h0)
  rw [h] at hall
  exact Bool.noConfusion hall

/-- The scan of `currentGiftAmount` from slot `t` on: it stops at the first slot from `t`
on that holds only zero bytes, and at 24 when there is none. -/
theorem giftScan_spec (e : Env) (s : Sav6) : ∀ (m t : Nat), t + m = 24 →
    t ≤ giftScan e s m t ∧ giftScan e s m t ≤ 24 ∧
    (∀ u, t ≤ u → u < giftScan e s m t → giftSlotEmpty e s u = false) ∧
    (giftScan e s m t < 24 → giftSlotEmpty e s (giftScan e s m t) = true) := by
  intro m
  induction m with
  | zero =>
    intro t h
    simp only [giftScan]
    exact ⟨Nat.le_refl _, by omega, fun u h1 h2 => by omega, fun h1 => by omega⟩
  | succ m ih =>
    intro t h
    simp only [giftScan]
    by_cases hemp : giftSlotEmpty e s t = true
    · rw [if_pos hemp]
      exact ⟨Nat.le_refl _, by omega, fun u h1 h2 => by omega, fun _ => hemp⟩
    · rw [if_neg hemp]
      obtain ⟨h1, h2, h3, h4⟩ := ih (t + 1) (by omega)
      refine ⟨by omega, h2, ?_, h4⟩
      intro u hu1 hu2
      by_cases hut : u = t
      · subst hut
        simpa using hemp
      · exact h3 u (by omega) hu2

end Sav6

/-- C23: currentGiftAmount returns a number n of at most 24 such that each of the slots
0 to n - 1 of the voucher ring holds a non-zero byte among its WC6::length bytes and,
when n is below 24, all WC6::length bytes of slot n are zero: n is the smallest index of
an all-zero slot, and 24 when no slot is all zero.  The function only reads the buffer. -/
theorem Sav6.gift_count_first_empty_slot (e : Env) (s : Sav6) :
    Sav6.currentGiftAmount e s ≤ 24 ∧
      (∀ t, t < Sav6.currentGiftAmount e s →
        ∃ j, j < e.WC6_length ∧
          s.data.read (s.WondercardData + t * e.WC6_length + j) ≠ 0) ∧
      (Sav6.currentGiftAmount e s < 24 →
        ∀ j, j < e.WC6_length →
          s.data.read (s.WondercardData + Sav6.currentGiftAmount e s * e.WC6_length + j) =
            0) := by
  obtain ⟨_, h2, h3, h4⟩ := Sav6.giftScan_spec e s 24 0 rfl
  refine ⟨h2, ?_, ?_⟩
  · intro t ht
    exact Sav6.giftSlotEmpty_false e s t (h3 t (Nat.zero_le _) ht)
  · intro hlt j hj
    have := (Sav6.giftSlotEmpty_iff e s _).1 (h4 hlt) j hj
    unfold Buffer.read
    unfold Sav6.currentGiftAmount
    rw [this]
    rfl

end pksm

/-! ## Item pouches, the box write and slot addressing -/

namespace pksm

/-- C24: for each of the five known pouches, with the base offset the source uses for
it, the item write stores the item's 4 bytes at base + slot * 4 and leaves every other
byte of the buffer as it was, and the item read of the same pouch and slot returns the
record of those 4 bytes; the read of a known pouch always is the 4 bytes at
base + slot * 4.  For every other pouch identity the write returns the container
unchanged and the read returns null. -/
theorem Sav6.item_pouch_write_read (s : Sav6) (item : Item) (pouch : Pouch) (slot base : Nat)
    (hitem : item.bytes.length = 4) :
    ((pouch, base) ∈ [(Pouch.NormalItem, s.PouchHeldItem), (Pouch.KeyItem, s.PouchKeyItem),
        (Pouch.TM, s.PouchTMHM), (Pouch.Medicine, s.PouchMedicine),
        (Pouch.Berry, s.PouchBerry)] →
      (Sav6.itemSet s item pouch slot).data.readBytes (base + slot * 4) 4 = item.bytes ∧
      (∀ q, q < base + slot * 4 ∨ base + slot * 4 + 4 ≤ q →
        (Sav6.itemSet s item pouch slot).data q = s.data q) ∧
      Sav6.itemGet (Sav6.itemSet s item pouch slot) pouch slot = some item ∧
      Sav6.itemGet s pouch slot = some ⟨s.data.readBytes (base + slot * 4) 4⟩) ∧
    (pouch ∉ [Pouch.NormalItem, Pouch.KeyItem, Pouch.TM, Pouch.Medicine, Pouch.Berry] →
      Sav6.itemSet s item pouch slot = s ∧ Sav6.itemGet s pouch slot = none) := by
  have hrb : ∀ ofs, (s.data.copyTo ofs item.bytes).readBytes ofs 4 = item.bytes := by
    intro ofs
    have := Buffer.readBytes_copyTo s.data ofs item.bytes
    rw [hitem] at this
    exact this
  have hout : ∀ ofs q, q < ofs ∨ ofs + 4 ≤ q → (s.data.copyTo ofs item.bytes) q = s.data q := by
    intro ofs q hq
    exact Buffer.copyTo_outside _ _ _ _ (by rw [hitem]; exact hq)
  refine ⟨?_, ?_⟩
  · intro hp
    simp only [List.mem_cons, List.mem_singleton, List.not_mem_nil, or_false,
      Prod.mk.injEq] at hp
    rcases hp with ⟨h1, h2⟩ | ⟨h1, h2⟩ | ⟨h1, h2⟩ | ⟨h1, h2⟩ | ⟨h1, h2⟩ <;> subst h1 <;>
      subst h2 <;>
      exact ⟨hrb _, fun q hq => hout _ q hq, by simp only [Sav6.itemSet, Sav6.itemGet, hrb],
        rfl⟩
  · intro hp
    simp only [List.mem_cons, List.mem_singleton, List.not_mem_nil, or_false, not_or] at hp
    obtain ⟨h1, h2, h3, h4, h5⟩ := hp
    cases pouch <;> first | exact absurd rfl h1 | exact absurd rfl h2 | exact absurd rfl h3 |
      exact absurd rfl h4 | exact absurd rfl h5 | exact ⟨rfl, rfl⟩

/-- The statement of C24 for the TM pouch, slot 5, and for the Ball pouch, which `Sav6` does
not know, on the XY container. -/
theorem Sav6.item_pouch_write_read_witness :
    ((Sav6.itemSet exampleXY exampleItem Pouch.TM 5).data.readBytes
          (exampleXY.PouchTMHM + 5 * 4) 4 = exampleItem.bytes ∧
      (∀ q, q < exampleXY.PouchTMHM + 5 * 4 ∨ exampleXY.PouchTMHM + 5 * 4 + 4 ≤ q →
        (Sav6.itemSet exampleXY exampleItem Pouch.TM 5).data q = exampleXY.data q) ∧
      Sav6.itemGet (Sav6.itemSet exampleXY exampleItem Pouch.TM 5) Pouch.TM 5 =
        some exampleItem ∧
      Sav6.itemGet exampleXY Pouch.TM 5 =
        some ⟨exampleXY.data.readBytes (exampleXY.PouchTMHM + 5 * 4) 4⟩) ∧
    (Sav6.itemSet exampleXY exampleItem Pouch.Ball 5 = exampleXY ∧
      Sav6.itemGet exampleXY Pouch.Ball 5 = none) :=
  ⟨(Sav6.item_pouch_write_read exampleXY exampleItem Pouch.TM 5 exampleXY.PouchTMHM rfl).1
      (by decide),
    (Sav6.item_pouch_write_read exampleXY exampleItem Pouch.Ball 5 0 rfl).2 (by decide)⟩

theorem Buffer.readBytes_congr (a b : Buffer) (ofs n : Nat)
    (h : ∀ q, ofs ≤ q → q < ofs + n → a q = b q) : a.readBytes ofs n = b.readBytes ofs n := by
  unfold Buffer.readBytes
  apply List.map_congr_left
  intro i hi
  rw [List.mem_range] at hi
  exact h _ (by omega) (by omega)

namespace Sav6

/-- Function `trade` returns whenever the draws hold an eligible feeling. -/
theorem trade_some (e : Env) (s : Sav6) (pk : PKX) (date : Date) (draws : List (Fin 20))
    (hdraw : ∃ d, d ∈ draws ∧ 0x04CBFD &&& (1 <<< d.val) ≠ 0) :
    ∃ pk' rest, trade e s pk date draws = some (pk', rest) := by
  by_cases hgen : pk.generation = Generation.SIX
  · cases hegg : pk.egg
    · by_cases hid : otName e s = pk.otName ∧ TID s = pk.TID ∧ SID s = pk.SID ∧
          gender s = pk.otGender
      · simp only [trade, hgen, hegg, if_true, Bool.false_eq_true, if_false]
        rw [if_pos hid]
        split <;> exact ⟨_, _, rfl⟩
      · have hid' : otName e s ≠ pk.otName ∨ TID s ≠ pk.TID ∨ SID s ≠ pk.SID ∨
            gender s ≠ pk.otGender := by
          by_contra h
          simp only [not_or, ne_eq, not_not] at h
          exact hid h
        obtain ⟨pk', rest, h, _⟩ :=
          trade_handler_change_some e s pk date draws hgen hegg hid' (Or.inr hdraw)
        exact ⟨pk', rest, h⟩
    · simp only [trade, hgen, hegg, if_true]
      split <;> exact ⟨_, _, rfl⟩
  · exact ⟨pk, draws, by simp only [trade]; rw [if_neg hgen]⟩

theorem boxOffset_eq (e : Env) (s : Sav6) (box slot : Nat) :
    boxOffset e s box slot = s.Box + e.BOX_LENGTH * (30 * box + slot) := by
  unfold boxOffset
  rw [Nat.mul_add, Nat.mul_assoc, Nat.add_assoc]

theorem boxOffset_disjoint (e : Env) (s : Sav6) (box slot box' slot' : Nat)
    (hs : slot < 30) (hs' : slot' < 30) (hne : (box, slot) ≠ (box', slot')) :
    boxOffset e s box slot + e.BOX_LENGTH ≤ boxOffset e s box' slot' ∨
      boxOffset e s box' slot' + e.BOX_LENGTH ≤ boxOffset e s box slot := by
  rw [boxOffset_eq, boxOffset_eq]
  have hidx : 30 * box + slot ≠ 30 * box' + slot' := by
    intro h
    apply hne
    have h1 : box = box' := by omega
    have h2 : slot = slot' := by omega
    rw [h1, h2]
  rcases Nat.lt_or_gt_of_ne hidx with h | h
  · left
    have := Nat.mul_le_mul_left e.BOX_LENGTH (Nat.succ_le_of_lt h)
    rw [Nat.mul_succ] at this
    omega
  · right
    have := Nat.mul_le_mul_left e.BOX_LENGTH (Nat.succ_le_of_lt h)
    rw [Nat.mul_succ] at this
    omega

/-- The box write in terms of the record that is stored. -/
theorem pkmBoxSet_of_traded (e : Env) (s : Sav6) (pk pkm : PKX) (box slot : Nat)
    (applyTrade : Bool) (date : Date) (draws rest : List (Fin 20))
    (hgen : pk.generation = Generation.SIX)
    (htr : (if applyTrade then trade e s pk date draws else some (pk, draws)) =
      some (pkm, rest)) :
    pkmBoxSet e s pk box slot applyTrade date draws =
      some ({ s with data :=
        s.data.copyTo (boxOffset e s box slot) ((e.rawData pkm).take e.BOX_LENGTH) }, rest) := by
  unfold pkmBoxSet
  rw [if_pos hgen]
  simp only []
  rw [htr]

/-- A box write stores to the bytes of its own slot only. -/
theorem pkmBoxSet_frame (e : Env) (s : Sav6) (pk : PKX) (box slot : Nat)
    (applyTrade : Bool) (date : Date) (draws : List (Fin 20)) (r : Sav6 × List (Fin 20))
    (h : pkmBoxSet e s pk box slot applyTrade date draws = some r) :
    r.1 = { s with data := r.1.data } ∧
      ∀ q, q < boxOffset e s box slot ∨ boxOffset e s box slot + e.BOX_LENGTH ≤ q →
        r.1.data q = s.data q := by
  unfold pkmBoxSet at h
  split at h
  · simp only [] at h
    split at h
    · exact Option.noConfusion h
    · rename_i pkm rest _
      injection h with h
      subst h
      refine ⟨rfl, ?_⟩
      intro q hq
      apply Buffer.copyTo_outside
      have : ((e.rawData pkm).take e.BOX_LENGTH).length ≤ e.BOX_LENGTH := by
        rw [List.length_take]; omega
      omega
  · injection h with h
    subst h
    exact ⟨rfl, fun _ _ => rfl⟩

end Sav6

/-- C25: for a generation-six record, whose encoding has at least BOX_LENGTH bytes, the
box write returns (with applyTrade set: whenever the draws hold an eligible feeling, so
that trade returns) and the result is the container with the first BOX_LENGTH bytes of
the encoding of the stored record at boxOffset(box, slot) and every byte outside
these BOX_LENGTH bytes as before; the stored record is the result of trade on the copy
of the record when applyTrade is set and the record itself otherwise.  Bytes of the
encoding beyond the first BOX_LENGTH are not stored; nothing but the buffer changes. -/
theorem Sav6.box_write_frame (e : Env) (s : Sav6) (pk : PKX) (box slot : Nat)
    (applyTrade : Bool) (date : Date) (draws : List (Fin 20))
    (hgen : pk.generation = Generation.SIX)
    (hlen : ∀ p : PKX, e.BOX_LENGTH ≤ (e.rawData p).length)
    (hdraw : applyTrade = true → ∃ d, d ∈ draws ∧ 0x04CBFD &&& (1 <<< d.val) ≠ 0) :
    ∃ pkm rest s',
      (if applyTrade then Sav6.trade e s pk date draws else some (pk, draws)) =
        some (pkm, rest) ∧
      Sav6.pkmBoxSet e s pk box slot applyTrade date draws = some (s', rest) ∧
      s'.data.readBytes (Sav6.boxOffset e s box slot) e.BOX_LENGTH =
        (e.rawData pkm).take e.BOX_LENGTH ∧
      (∀ q, q < Sav6.boxOffset e s box slot ∨
          Sav6.boxOffset e s box slot + e.BOX_LENGTH ≤ q → s'.data q = s.data q) ∧
      s' = { s with data := s'.data } := by
  have htr : ∃ pkm rest,
      (if applyTrade then Sav6.trade e s pk date draws else some (pk, draws)) =
        some (pkm, rest) := by
    cases happ : applyTrade
    · exact ⟨pk, draws, rfl⟩
    · exact Sav6.trade_some e s pk date draws (hdraw happ)
  obtain ⟨pkm, rest, htr⟩ := htr
  have hset := Sav6.pkmBoxSet_of_traded e s pk pkm box slot applyTrade date draws rest hgen htr
  have hl : ((e.rawData pkm).take e.BOX_LENGTH).length = e.BOX_LENGTH := by
    rw [List.length_take]
    have := hlen pkm
    omega
  refine ⟨pkm, rest, _, htr, hset, ?_, ?_, rfl⟩
  · have := Buffer.readBytes_copyTo s.data (Sav6.boxOffset e s box slot)
      ((e.rawData pkm).take e.BOX_LENGTH)
    rw [hl] at this
    exact this
  · intro q hq
    exact (Sav6.pkmBoxSet_frame e s pk box slot applyTrade date draws _ hset).2 q hq

set_option maxRecDepth 1000000 in
/-- The statement of C25 for the record of trainer 999 written with trade to box 5, slot 12 of
the XY container, the draws being 1 (not eligible) and 3 (eligible). -/
theorem Sav6.box_write_frame_witness :
    ∃ pkm rest s',
      (if true then Sav6.trade exampleEnv exampleXY examplePKOther ⟨1, 1, 2014⟩ [1, 3]
        else some (examplePKOther, [1, 3])) = some (pkm, rest) ∧
      Sav6.pkmBoxSet exampleEnv exampleXY examplePKOther 5 12 true ⟨1, 1, 2014⟩ [1, 3] =
        some (s', rest) ∧
      s'.data.readBytes (Sav6.boxOffset exampleEnv exampleXY 5 12) exampleEnv.BOX_LENGTH =
        (exampleEnv.rawData pkm).take exampleEnv.BOX_LENGTH ∧
      (∀ q, q < Sav6.boxOffset exampleEnv exampleXY 5 12 ∨
          Sav6.boxOffset exampleEnv exampleXY 5 12 + exampleEnv.BOX_LENGTH ≤ q →
        s'.data q = exampleXY.data q) ∧
      s' = { exampleXY with data := s'.data } :=
  Sav6.box_write_frame exampleEnv exampleXY examplePKOther 5 12 true ⟨1, 1, 2014⟩ [1, 3] rfl
    (fun p => by simp [exampleEnv, exampleRawData]) (fun _ => ⟨3, by decide, by decide⟩)

/-- C26: the tables chkofs and chklen of SavLGPE have 21 entries each; for every i in
0..19, chkofs[i] + chklen[i] <= chkofs[i+1]; and for all i < j < 21 the region i ends
at or before the offset of region j, which is strictly larger than the offset of
region i: the 21 regions are pairwise disjoint and listed in strictly increasing
order of offset. -/
theorem SavLGPE.checksum_regions_disjoint :
    SavLGPE.chkofs.length = 21 ∧ SavLGPE.chklen.length = 21 ∧
      (∀ i, i < 20 →
        SavLGPE.chkofs.getD i 0 + SavLGPE.chklen.getD i 0 ≤ SavLGPE.chkofs.getD (i + 1) 0) ∧
      (∀ j, j < 21 → ∀ i, i < j →
        SavLGPE.chkofs.getD i 0 + SavLGPE.chklen.getD i 0 ≤ SavLGPE.chkofs.getD j 0 ∧
        SavLGPE.chkofs.getD i 0 < SavLGPE.chkofs.getD j 0) := by
  refine ⟨rfl, rfl, by decide, by decide⟩

end pksm

namespace pksm

namespace Sav6

/-- The rejection loop stops at the first eligible draw: the draws before it are not
eligible, and the loop returns it together with the draws after it. -/
theorem feelLoop_first (bits : Nat) : ∀ (draws : List (Fin 20)),
    (∃ d, d ∈ draws ∧ bits &&& (1 <<< d.val) ≠ 0) →
    ∃ pre feel rest, draws = pre ++ feel :: rest ∧
      (∀ d, d ∈ pre → bits &&& (1 <<< d.val) = 0) ∧ bits &&& (1 <<< feel.val) ≠ 0 ∧
      feelLoop bits draws = some (feel.val, rest) := by
  intro draws
  induction draws with
  | nil => rintro ⟨d, hd, _⟩; cases hd
  | cons x xs ih =>
    intro h
    by_cases hx : bits &&& (1 <<< x.val) ≠ 0
    · refine ⟨[], x, xs, rfl, ?_, hx, ?_⟩
      · intro d hd
        cases hd
      · simp only [feelLoop]
        rw [if_pos hx]
    · have : ∃ d, d ∈ xs ∧ bits &&& (1 <<< d.val) ≠ 0 := by
        obtain ⟨d, hd, hb⟩ := h
        rcases List.mem_cons.1 hd with h1 | h1
        · subst h1; exact absurd hb hx
        · exact ⟨d, h1, hb⟩
      obtain ⟨pre, feel, rest, h1, h2, h3, h4⟩ := ih this
      refine ⟨x :: pre, feel, rest, ?_, ?_, h3, ?_⟩
      · rw [h1]; rfl
      · intro d hd
        rcases List.mem_cons.1 hd with h5 | h5
        · subst h5
          simpa using hx
        · exact h2 d h5
      · simp only [feelLoop]
        rw [if_neg hx]
        exact h4

end Sav6

/-- C28: the mask 0x04CBFD has a bit set among bits 0..19, and in the handler-change
case of trade with handler memory 0 (the case that runs the rejection loop), for every
list of draws from [0, 19] that holds an eligible value, the draws split into ineligible
draws, the first eligible draw and the rest; the loop returns that first eligible draw
with the rest, and trade returns with it as the feeling and the rest as the unconsumed
draws.  No ineligible draw is accepted. -/
theorem Sav6.feeling_selection_terminates (e : Env) (s : Sav6) (pk : PKX) (date : Date)
    (draws : List (Fin 20)) (hgen : pk.generation = Generation.SIX) (hegg : pk.egg = false)
    (hid : Sav6.otName e s ≠ pk.otName ∨ Sav6.TID s ≠ pk.TID ∨ Sav6.SID s ≠ pk.SID ∨
      Sav6.gender s ≠ pk.otGender)
    (hmem : pk.htMemory = 0)
    (hdraw : ∃ d, d ∈ draws ∧ 0x04CBFD &&& (1 <<< d.val) ≠ 0) :
    (∃ k, k < 20 ∧ 0x04CBFD &&& (1 <<< k) ≠ 0) ∧
    ∃ pre feel rest pk', draws = pre ++ feel :: rest ∧
      (∀ d, d ∈ pre → 0x04CBFD &&& (1 <<< d.val) = 0) ∧
      0x04CBFD &&& (1 <<< feel.val) ≠ 0 ∧
      Sav6.feelLoop 0x04CBFD draws = some (feel.val, rest) ∧
      Sav6.trade e s pk date draws = some (pk', rest) ∧
      pk'.htFeeling = feel.val := by
  refine ⟨⟨0, by decide, by decide⟩, ?_⟩
  obtain ⟨pre, feel, rest, h1, h2, h3, h4⟩ := Sav6.feelLoop_first 0x04CBFD draws hdraw
  have htr : Sav6.trade e s pk date draws =
      some ({ Sav6.handlerChange e s pk with
        htMemory := 4, htTextVar := 9, htIntensity := 1, htFeeling := feel.val }, rest) := by
    rw [Sav6.trade_handler_change e s pk date draws hgen hegg hid,
      Sav6.handlerChange_htMemory, if_pos hmem, h4]
  exact ⟨pre, feel, rest, _, h1, h2, h3, h4, htr, rfl⟩

/-- The statement of C28 for the record of trainer 999, whose handler memory is 0, on the XY
container, the draws being 1, 10 (not eligible), 3 (eligible) and 5. -/
theorem Sav6.feeling_selection_terminates_witness :
    (∃ k, k < 20 ∧ 0x04CBFD &&& (1 <<< k) ≠ 0) ∧
    ∃ pre feel rest pk', ([1, 10, 3, 5] : List (Fin 20)) = pre ++ feel :: rest ∧
      (∀ d, d ∈ pre → 0x04CBFD &&& (1 <<< d.val) = 0) ∧
      0x04CBFD &&& (1 <<< feel.val) ≠ 0 ∧
      Sav6.feelLoop 0x04CBFD [1, 10, 3, 5] = some (feel.val, rest) ∧
      Sav6.trade exampleEnv exampleXY examplePKOther ⟨1, 1, 2014⟩ [1, 10, 3, 5] =
        some (pk', rest) ∧
      pk'.htFeeling = feel.val :=
  Sav6.feeling_selection_terminates exampleEnv exampleXY examplePKOther ⟨1, 1, 2014⟩
    [1, 10, 3, 5] rfl rfl (Or.inr (Or.inl (by decide))) rfl ⟨3, by decide, by decide⟩

/-- C29: boxOffset(box, slot) = Box + BOX_LENGTH * (30 * box + slot) and
partyOffset(slot) = Party + PARTY_LENGTH * slot, whatever the buffer holds; for two
distinct pairs (box, slot), (box2, slot2) with slot, slot2 < 30 the BOX_LENGTH bytes
from boxOffset(box, slot) and those from boxOffset(box2, slot2) are disjoint; and a box
write to (box, slot), with or without trade, of any record, leaves the record read from
(box2, slot2) as it was (the write without trade always returns). -/
theorem Sav6.slot_addressing (e : Env) (s : Sav6) (pk : PKX) (box slot box2 slot2 : Nat)
    (applyTrade : Bool) (date : Date) (draws : List (Fin 20))
    (hs : slot < 30) (hs2 : slot2 < 30) (hne : (box, slot) ≠ (box2, slot2)) :
    Sav6.boxOffset e s box slot = s.Box + e.BOX_LENGTH * (30 * box + slot) ∧
    (∀ p, Sav6.partyOffset e s p = s.Party + e.PARTY_LENGTH * p) ∧
    (∀ d : Buffer, Sav6.boxOffset e { s with data := d } box slot = Sav6.boxOffset e s box slot ∧
      ∀ p, Sav6.partyOffset e { s with data := d } p = Sav6.partyOffset e s p) ∧
    (Sav6.boxOffset e s box slot + e.BOX_LENGTH ≤ Sav6.boxOffset e s box2 slot2 ∨
      Sav6.boxOffset e s box2 slot2 + e.BOX_LENGTH ≤ Sav6.boxOffset e s box slot) ∧
    (∀ r, Sav6.pkmBoxSet e s pk box slot applyTrade date draws = some r →
      Sav6.pkmBox e r.1 box2 slot2 = Sav6.pkmBox e s box2 slot2) ∧
    (∃ s', Sav6.pkmBoxSet e s pk box slot false date draws = some (s', draws) ∧
      Sav6.pkmBox e s' box2 slot2 = Sav6.pkmBox e s box2 slot2) := by
  have hdis := Sav6.boxOffset_disjoint e s box slot box2 slot2 hs hs2 hne
  have hread : ∀ (app : Bool) (r : Sav6 × List (Fin 20)),
      Sav6.pkmBoxSet e s pk box slot app date draws = some r →
      Sav6.pkmBox e r.1 box2 slot2 = Sav6.pkmBox e s box2 slot2 := by
    intro app r hr
    obtain ⟨h1, h2⟩ := Sav6.pkmBoxSet_frame e s pk box slot app date draws r hr
    unfold Sav6.pkmBox
    have hofs : Sav6.boxOffset e r.1 box2 slot2 = Sav6.boxOffset e s box2 slot2 := by
      rw [h1]; rfl
    rw [hofs]
    congr 1
    apply Buffer.readBytes_congr
    intro q hq1 hq2
    exact h2 q (by omega)
  refine ⟨Sav6.boxOffset_eq e s box slot, fun _ => rfl, fun _ => ⟨rfl, fun _ => rfl⟩, hdis,
    hread applyTrade, ?_⟩
  have hex : ∃ s', Sav6.pkmBoxSet e s pk box slot false date draws = some (s', draws) := by
    unfold Sav6.pkmBoxSet
    split
    · exact ⟨_, rfl⟩
    · exact ⟨_, rfl⟩
  obtain ⟨s', hs'⟩ := hex
  exact ⟨s', hs', hread false _ hs'⟩

set_option maxRecDepth 1000000 in
/-- The statement of C29 for a write with trade to box 5, slot 12 and a read from box 5, slot 13
of the XY container. -/
theorem Sav6.slot_addressing_witness :
    Sav6.boxOffset exampleEnv exampleXY 5 12 =
      exampleXY.Box + exampleEnv.BOX_LENGTH * (30 * 5 + 12) ∧
    (∀ p, Sav6.partyOffset exampleEnv exampleXY p =
      exampleXY.Party + exampleEnv.PARTY_LENGTH * p) ∧
    (∀ d : Buffer,
      Sav6.boxOffset exampleEnv { exampleXY with data := d } 5 12 =
        Sav6.boxOffset exampleEnv exampleXY 5 12 ∧
      ∀ p, Sav6.partyOffset exampleEnv { exampleXY with data := d } p =
        Sav6.partyOffset exampleEnv exampleXY p) ∧
    (Sav6.boxOffset exampleEnv exampleXY 5 12 + exampleEnv.BOX_LENGTH ≤
        Sav6.boxOffset exampleEnv exampleXY 5 13 ∨
      Sav6.boxOffset exampleEnv exampleXY 5 13 + exampleEnv.BOX_LENGTH ≤
        Sav6.boxOffset exampleEnv exampleXY 5 12) ∧
    (∀ r, Sav6.pkmBoxSet exampleEnv exampleXY examplePKOther 5 12 true ⟨1, 1, 2014⟩ [1, 3] =
        some r →
      Sav6.pkmBox exampleEnv r.1 5 13 = Sav6.pkmBox exampleEnv exampleXY 5 13) ∧
    (∃ s', Sav6.pkmBoxSet exampleEnv exampleXY examplePKOther 5 12 false ⟨1, 1, 2014⟩ [1, 3] =
        some (s', [1, 3]) ∧
      Sav6.pkmBox exampleEnv s' 5 13 = Sav6.pkmBox exampleEnv exampleXY 5 13) :=
  Sav6.slot_addressing exampleEnv exampleXY examplePKOther 5 12 5 13 true ⟨1, 1, 2014⟩ [1, 3]
    (by decide) (by decide) (by decide)

/-- C30: for every container and every record, every bit of the buffer that is set
before dex is set afterwards, and every byte satisfies old AND new = old; the write of
the encounter count is included, as it is made only when both bytes of the count are
zero. -/
theorem Sav6.dex_only_sets_bits (e : Env) (s : Sav6) (pk : PKX) :
    (∀ i k, s.data.bit i k = true → (Sav6.dex e s pk).data.bit i k = true) ∧
      ∀ i, s.data.read i &&& (Sav6.dex e s pk).data.read i = s.data.read i := by
  have h := Sav6.dex_le e s pk
  refine ⟨h, ?_⟩
  intro i
  apply Nat.eq_of_testBit_eq
  intro k
  rw [Nat.testBit_and]
  by_cases hb : (s.data.read i).testBit k = true
  · have := h i k hb
    unfold Buffer.bit at this
    rw [hb, this]
    rfl
  · have hb' : (s.data.read i).testBit k = false := by simpa using hb
    rw [hb']
    rfl

end pksm

/-! ## The displayed planes -/

namespace pksm

namespace Sav6

theorem dex_eq_self (e : Env) (s : Sav6) (pk : PKX)
    (h : ¬ (pk.species ∈ s.availableSpecies ∧ pk.egg = false)) : dex e s pk = s := by
  have hg : ¬ (s.availableSpecies.count pk.species > 0) ∨ pk.egg = true := by
    by_cases hsup : pk.species ∈ s.availableSpecies
    · right
      cases hegg : pk.egg
      · exact absurd ⟨hsup, hegg⟩ h
      · rfl
    · exact Or.inl (fun hc => hsup (List.count_pos_iff.1 hc))
  unfold dex
  rw [if_pos hg]

theorem dexDisplayed_of_bit (s : Sav6) (pk : PKX) (d : Buffer) (i : Nat) (hi : i < 4)
    (h : d.bit (s.PokeDex + 0x8 + (u16 pk.species - 1) / 8 + 0x60 * (5 + i))
      ((u16 pk.species - 1) % 8) = true) : dexDisplayed s pk d = true := by
  rw [dexDisplayed_iff, shiftRight_three, and_seven]
  interval_cases i
  · exact Or.inl h
  · exact Or.inr (Or.inl h)
  · exact Or.inr (Or.inr (Or.inl h))
  · exact Or.inr (Or.inr (Or.inr h))

theorem dexDisplayed_exists_bit (s : Sav6) (pk : PKX) (d : Buffer)
    (h : dexDisplayed s pk d = true) :
    ∃ i, i < 4 ∧ d.bit (s.PokeDex + 0x8 + (u16 pk.species - 1) / 8 + 0x60 * (5 + i))
      ((u16 pk.species - 1) % 8) = true := by
  rw [dexDisplayed_iff, shiftRight_three, and_seven] at h
  rcases h with h | h | h | h
  · exact ⟨0, by decide, h⟩
  · exact ⟨1, by decide, h⟩
  · exact ⟨2, by decide, h⟩
  · exact ⟨3, by decide, h⟩

/-- The owned and the seen store of `dex` do not touch the displayed bits of the species. -/
theorem dexDisplayed_seen_owned (e : Env) (s : Sav6) (pk : PKX) (d : Buffer) :
    dexDisplayed s pk (dexSeenFlag s pk (dexOwnedFlag e s pk d)) = dexDisplayed s pk d := by
  have hg : u8 pk.gender % 2 < 2 := Nat.mod_lt _ (by decide)
  have hsh : (if pk.shiny = true then 1 else 0 : Nat) ≤ 1 := by split <;> omega
  rw [Bool.eq_iff_iff]
  constructor
  · intro h
    obtain ⟨i, hi, hb⟩ := dexDisplayed_exists_bit s pk _ h
    rcases dexSeenFlag_bit _ _ _ _ _ hb with hb | hb
    · rcases dexOwnedFlag_bit _ _ _ _ _ _ hb with hb | hb | hb
      · exact dexDisplayed_of_bit s pk d i hi hb
      · exfalso; omega
      · exfalso; omega
    · exfalso
      generalize u8 pk.gender % 2 = g at hb hg
      generalize (if pk.shiny = true then 1 else 0 : Nat) = sh at hb hsh
      omega
  · intro h
    exact dexDisplayed_mono s pk (Buffer.le_trans ((dexOwnedFlag_absorbing e s pk).infl _)
      ((dexSeenFlag_absorbing s pk).infl _)) h

/-- The displayed bits of the record's species after `dex`: a bit is set when it was set
before, or when none of the four was set and the plane is the one of the record's
combination of gender and shininess. -/
theorem dex_displayed_bit (e : Env) (s : Sav6) (pk : PKX) (hl : DexLayout s)
    (hsup : pk.species ∈ s.availableSpecies) (hegg : pk.egg = false) (j : Nat) (hj : j < 4) :
    (dex e s pk).data.bit (s.PokeDex + 0x8 + (u16 pk.species - 1) / 8 + 0x60 * (5 + j))
        ((u16 pk.species - 1) % 8) = true ↔
      s.data.bit (s.PokeDex + 0x8 + (u16 pk.species - 1) / 8 + 0x60 * (5 + j))
          ((u16 pk.species - 1) % 8) = true ∨
        (dexDisplayed s pk s.data = false ∧
          j = u8 pk.gender % 2 + 2 * (if pk.shiny then 1 else 0)) := by
  have hr := hl.range pk.species hsup
  have hu : u16 pk.species = pk.species := by unfold u16; omega
  have hlang := hl.lang
  have hg : u8 pk.gender % 2 < 2 := Nat.mod_lt _ (by decide)
  have hsh : (if pk.shiny = true then 1 else 0 : Nat) ≤ 1 := by split <;> omega
  constructor
  · intro hbit
    rcases dex_bit_imp e s pk _ _ hbit with h | h | h | h | h | h | h | h
    · exact Or.inl h
    · exfalso; omega
    · exfalso; omega
    · exfalso
      generalize u8 pk.gender % 2 = g at h hg
      generalize (if pk.shiny = true then 1 else 0 : Nat) = sh at h hsh
      omega
    · refine Or.inr ⟨h.1, ?_⟩
      have h2 := h.2.2
      generalize u8 pk.gender % 2 = g at h2 hg ⊢
      generalize (if pk.shiny = true then 1 else 0 : Nat) = sh at h2 hsh ⊢
      omega
    · exfalso; rw [hu] at h; omega
    · exfalso
      have henc := hl.enc h.1
      rw [hu] at h
      omega
    · exfalso; rw [hu] at h; omega
  · intro h
    rcases h with h | ⟨hd, hjc⟩
    · exact dex_le e s pk _ _ h
    · rw [dex_data_of_guard e s pk hsup hegg]
      apply (dexFormFlags_absorbing e s pk).infl
      apply (dexNavCount_absorbing s pk).infl
      apply (dexLanguageFlag_absorbing s pk).infl
      have hd2 : ¬ dexDisplayed s pk (dexSeenFlag s pk (dexOwnedFlag e s pk s.data)) = true := by
        rw [dexDisplayed_seen_owned, hd]
        exact Bool.noConfusion
      have haddr : s.PokeDex + 0x8 + (u16 pk.species - 1) / 8 + 0x60 * (5 + j) =
          s.PokeDex + 0x8 + (u16 pk.species - 1) / 8 + 0x60 * 4 +
            0x60 * (1 + u8 pk.gender % 2 + 2 * (if pk.shiny then 1 else 0)) := by
        rw [hjc]; omega
      rw [haddr]
      simp only [dexDisplayFlag, shiftRight_three, and_seven]
      rw [if_pos hd2]
      exact Buffer.bit_orAt_mask_self _ _ _ (Nat.mod_lt _ (by decide))

end Sav6

/-- C27: on a container with the dex layout, if at most one of the four displayed planes
(planes 5 to 8, one for each combination of gender and shininess) has the bit of the
record's species set before dex, at most one has it set afterwards; and if none has it
set before, then after dex of a supported record that is not an egg the bit is set in
the displayed plane 5 + gender % 2 + 2 * shiny of the record's own combination and in
no other displayed plane. -/
theorem Sav6.dex_displayed_invariant (e : Env) (s : Sav6) (pk : PKX) (hl : Sav6.DexLayout s) :
    ((∀ i j, i < 4 → j < 4 →
        s.data.bit (s.PokeDex + 0x8 + (u16 pk.species - 1) >>> 3 + 0x60 * (5 + i))
          ((u16 pk.species - 1) &&& 7) = true →
        s.data.bit (s.PokeDex + 0x8 + (u16 pk.species - 1) >>> 3 + 0x60 * (5 + j))
          ((u16 pk.species - 1) &&& 7) = true → i = j) →
      ∀ i j, i < 4 → j < 4 →
        (Sav6.dex e s pk).data.bit
          (s.PokeDex + 0x8 + (u16 pk.species - 1) >>> 3 + 0x60 * (5 + i))
          ((u16 pk.species - 1) &&& 7) = true →
        (Sav6.dex e s pk).data.bit
          (s.PokeDex + 0x8 + (u16 pk.species - 1) >>> 3 + 0x60 * (5 + j))
          ((u16 pk.species - 1) &&& 7) = true → i = j) ∧
    (pk.species ∈ s.availableSpecies → pk.egg = false →
      (∀ j, j < 4 →
        s.data.bit (s.PokeDex + 0x8 + (u16 pk.species - 1) >>> 3 + 0x60 * (5 + j))
          ((u16 pk.species - 1) &&& 7) = false) →
      ∀ j, j < 4 →
        ((Sav6.dex e s pk).data.bit
            (s.PokeDex + 0x8 + (u16 pk.species - 1) >>> 3 + 0x60 * (5 + j))
            ((u16 pk.species - 1) &&& 7) = true ↔
          j = u8 pk.gender % 2 + 2 * (if pk.shiny then 1 else 0))) := by
  simp only [shiftRight_three, and_seven]
  refine ⟨?_, ?_⟩
  · intro hone i j hi hj hbi hbj
    by_cases hguard : pk.species ∈ s.availableSpecies ∧ pk.egg = false
    · obtain ⟨hsup, hegg⟩ := hguard
      rcases (Sav6.dex_displayed_bit e s pk hl hsup hegg i hi).1 hbi with h1 | h1
      · rcases (Sav6.dex_displayed_bit e s pk hl hsup hegg j hj).1 hbj with h2 | h2
        · exact hone i j hi hj h1 h2
        · have := Sav6.dexDisplayed_of_bit s pk s.data i hi h1
          rw [h2.1] at this
          exact Bool.noConfusion this
      · rcases (Sav6.dex_displayed_bit e s pk hl hsup hegg j hj).1 hbj with h2 | h2
        · have := Sav6.dexDisplayed_of_bit s pk s.data j hj h2
          rw [h1.1] at this
          exact Bool.noConfusion this
        · rw [h1.2, h2.2]
    · rw [Sav6.dex_eq_self e s pk hguard] at hbi hbj
      exact hone i j hi hj hbi hbj
  · intro hsup hegg hnone j hj
    have hd : Sav6.dexDisplayed s pk s.data = false := by
      cases hdd : Sav6.dexDisplayed s pk s.data
      · rfl
      · obtain ⟨i, hi, hb⟩ := Sav6.dexDisplayed_exists_bit s pk s.data hdd
        rw [hnone i hi] at hb
        exact Bool.noConfusion hb
    rw [Sav6.dex_displayed_bit e s pk hl hsup hegg j hj, hnone j hj]
    constructor
    · intro h
      rcases h with h | h
      · exact Bool.noConfusion h
      · exact h.2
    · intro h
      exact Or.inr ⟨hd, h⟩

set_option maxRecDepth 1000000 in
/-- The statement of C27 for the first dex on the clean XY container, at the displayed planes
5 and 8: the bit of species 1 is set in plane 5 + 0, the plane of the record's own
combination, and it is not set in plane 5 + 3. -/
theorem Sav6.dex_displayed_invariant_witness :
    ((Sav6.dex exampleEnv exampleXY examplePK).data.bit
          (exampleXY.PokeDex + 0x8 + (u16 examplePK.species - 1) >>> 3 + 0x60 * (5 + 0))
          ((u16 examplePK.species - 1) &&& 7) = true ↔
        0 = u8 examplePK.gender % 2 + 2 * (if examplePK.shiny then 1 else 0)) ∧
      ((Sav6.dex exampleEnv exampleXY examplePK).data.bit
          (exampleXY.PokeDex + 0x8 + (u16 examplePK.species - 1) >>> 3 + 0x60 * (5 + 3))
          ((u16 examplePK.species - 1) &&& 7) = true ↔
        3 = u8 examplePK.gender % 2 + 2 * (if examplePK.shiny then 1 else 0)) :=
  ⟨(Sav6.dex_displayed_invariant exampleEnv exampleXY examplePK Sav6.dexLayout_exampleXY).2
      Sav6.examplePK_supported rfl (by decide) 0 (by decide),
    (Sav6.dex_displayed_invariant exampleEnv exampleXY examplePK Sav6.dexLayout_exampleXY).2
      Sav6.examplePK_supported rfl (by decide) 3 (by decide)⟩

end pksm

/-! ## The form index table -/

namespace pksm

theorem lookup_mem (l : List (Int × Int)) (a r : Int) (h : l.lookup a = some r) :
    (a, r) ∈ l := by
  induction l with
  | nil => cases h
  | cons p l ih =>
    obtain ⟨k, v⟩ := p
    by_cases hk : a = k
    · subst hk
      simp only [List.lookup_cons, beq_self_eq_true] at h
      have hv : v = r := Option.some.inj h
      rw [hv]
      exact List.mem_cons_self _ _
    · have hb : (a == k) = false := by simpa using hk
      simp only [List.lookup_cons, hb] at h
      exact List.mem_cons_of_mem _ (ih h)

theorem mem_lookup (l : List (Int × Int)) (a : Int) (h : a ∈ l.map Prod.fst) :
    ∃ r, l.lookup a = some r ∧ (a, r) ∈ l := by
  induction l with
  | nil => cases h
  | cons p l ih =>
    obtain ⟨k, v⟩ := p
    by_cases hk : a = k
    · subst hk
      exact ⟨v, by simp only [List.lookup_cons, beq_self_eq_true], List.mem_cons_self _ _⟩
    · have hb : (a == k) = false := by simpa using hk
      have hin : a ∈ l.map Prod.fst := by
        rcases List.mem_cons.1 h with h1 | h1
        · exact absurd h1 hk
        · exact h1
      obtain ⟨r, h1, h2⟩ := ih hin
      exact ⟨r, by simp only [List.lookup_cons, hb]; exact h1, List.mem_cons_of_mem _ h2⟩

namespace Sav6

/-- A result of `dexFormIndex` that is not negative is the index that one of the two
`switch` statements lists for the species; the first one counts on ORAS only. -/
theorem dexFormIndex_mem (game : Game) (sp fc : Int) (h : 0 ≤ dexFormIndex game sp fc) :
    (sp, dexFormIndex game sp fc) ∈
      (if game = Game.ORAS then dexFormTableORAS else []) ++ dexFormTable := by
  unfold dexFormIndex at h ⊢
  split at h
  · exact absurd h (by decide)
  · rename_i hg
    rw [if_neg hg]
    cases hl : (if game = Game.ORAS then dexFormTableORAS.lookup sp else none) with
    | some r =>
      simp only []
      apply List.mem_append_left
      by_cases hgame : game = Game.ORAS
      · rw [if_pos hgame] at hl ⊢
        exact lookup_mem _ _ _ hl
      · rw [if_neg hgame] at hl
        cases hl
    | none =>
      rw [hl] at h
      simp only [] at h ⊢
      cases hl2 : dexFormTable.lookup sp with
      | some r =>
        simp only []
        exact List.mem_append_right _ (lookup_mem _ _ _ hl2)
      | none =>
        rw [hl2] at h
        exact absurd h (by decide)

set_option maxRecDepth 1000000 in
theorem dexFormTable_XY_facts :
    ∀ p ∈ dexFormTable, 0 ≤ p.1 ∧ 0 ≤ p.2 ∧ p.2 < 8 * 0x18 ∧
      ∀ q ∈ dexFormTable, p.2 = q.2 → p.1 = q.1 := by
  decide

set_option maxRecDepth 1000000 in
theorem dexFormTable_ORAS_facts :
    ∀ p ∈ dexFormTableORAS ++ dexFormTable, 0 ≤ p.1 ∧ 0 ≤ p.2 ∧ p.2 < 8 * 0x26 ∧
      ∀ q ∈ dexFormTableORAS ++ dexFormTable, p.2 = q.2 → p.1 = q.1 := by
  decide

theorem dexFormTable_facts (game : Game) :
    ∀ p ∈ (if game = Game.ORAS then dexFormTableORAS else []) ++ dexFormTable,
      0 ≤ p.1 ∧ 0 ≤ p.2 ∧ p.2 < (if game = Game.XY then 8 * 0x18 else 8 * 0x26) ∧
      ∀ q ∈ (if game = Game.ORAS then dexFormTableORAS else []) ++ dexFormTable,
        p.2 = q.2 → p.1 = q.1 := by
  cases game
  · exact dexFormTable_XY_facts
  · exact dexFormTable_ORAS_facts

end Sav6

/-- C31: for each game variant and all species and form counts, two calls of
dexFormIndex for distinct species whose results are both non-negative return distinct
indices, and every result is below the number of bits of one form plane of the variant,
8 * 0x18 = 192 on XY and 8 * 0x26 = 304 on ORAS; with a form count of at least 1 the
result is non-negative exactly for the species that the switch statements of the
variant list. -/
theorem Sav6.dexFormIndex_distinct_in_range (game : Game) (sp sp2 fc fc2 : Int) :
    (sp ≠ sp2 → 0 ≤ Sav6.dexFormIndex game sp fc → 0 ≤ Sav6.dexFormIndex game sp2 fc2 →
      Sav6.dexFormIndex game sp fc ≠ Sav6.dexFormIndex game sp2 fc2) ∧
    Sav6.dexFormIndex game sp fc < (if game = Game.XY then 8 * 0x18 else 8 * 0x26) ∧
    (1 ≤ fc → (0 ≤ Sav6.dexFormIndex game sp fc ↔
      sp ∈ ((if game = Game.ORAS then Sav6.dexFormTableORAS else []) ++
        Sav6.dexFormTable).map Prod.fst)) := by
  refine ⟨?_, ?_, ?_⟩
  · intro hne h1 h2 heq
    have m1 := Sav6.dexFormIndex_mem game sp fc h1
    have m2 := Sav6.dexFormIndex_mem game sp2 fc2 h2
    exact hne ((Sav6.dexFormTable_facts game _ m1).2.2.2 _ m2 heq)
  · by_cases h : 0 ≤ Sav6.dexFormIndex game sp fc
    · exact (Sav6.dexFormTable_facts game _ (Sav6.dexFormIndex_mem game sp fc h)).2.2.1
    · have hneg : Sav6.dexFormIndex game sp fc < 0 := by omega
      have hpos : (0 : Int) < (if game = Game.XY then 8 * 0x18 else 8 * 0x26) := by
        split <;> decide
      omega
  · intro hfc
    constructor
    · intro h
      exact List.mem_map.2 ⟨_, Sav6.dexFormIndex_mem game sp fc h, rfl⟩
    · intro h
      rw [List.map_append, List.mem_append] at h
      have hsp : 0 ≤ sp := by
        have hin : sp ∈ ((if game = Game.ORAS then Sav6.dexFormTableORAS else []) ++
            Sav6.dexFormTable).map Prod.fst := by
          rw [List.map_append, List.mem_append]; exact h
        obtain ⟨p, hp, hp1⟩ := List.mem_map.1 hin
        rw [← hp1]
        exact (Sav6.dexFormTable_facts game p hp).1
      have hg : ¬ (fc < 1 ∨ sp < 0) := by omega
      unfold Sav6.dexFormIndex
      rw [if_neg hg]
      by_cases hgame : game = Game.ORAS
      · rw [if_pos hgame] at h
        rw [if_pos hgame]
        cases hl : Sav6.dexFormTableORAS.lookup sp with
        | some r =>
          simp only []
          have := Sav6.dexFormTable_facts game (sp, r)
            (List.mem_append_left _ (by rw [if_pos hgame]; exact lookup_mem _ _ _ hl))
          exact this.2.1
        | none =>
          simp only []
          rcases h with h | h
          · obtain ⟨r, hr, _⟩ := mem_lookup _ _ h
            rw [hl] at hr
            cases hr
          · obtain ⟨r, hr, hm⟩ := mem_lookup _ _ h
            rw [hr]
            simp only []
            exact (Sav6.dexFormTable_facts game (sp, r) (List.mem_append_right _ hm)).2.1
      · rw [if_neg hgame] at h
        rw [if_neg hgame]
        simp only []
        rcases h with h | h
        · simp at h
        · obtain ⟨r, hr, hm⟩ := mem_lookup _ _ h
          rw [hr]
          simp only []
          exact (Sav6.dexFormTable_facts game (sp, r) (List.mem_append_right _ hm)).2.1

/-- The statement of C31 for Furfrou (species 676, 10 forms) and Arceus (species 493,
18 forms) on ORAS: the indices 261 and 238 differ and 261 is below 304. -/
theorem Sav6.dexFormIndex_distinct_in_range_witness :
    Sav6.dexFormIndex Game.ORAS 676 10 = 261 ∧ Sav6.dexFormIndex Game.ORAS 493 18 = 238 ∧
      Sav6.dexFormIndex Game.ORAS 676 10 ≠ Sav6.dexFormIndex Game.ORAS 493 18 ∧
      Sav6.dexFormIndex Game.ORAS 676 10 <
        (if Game.ORAS = Game.XY then 8 * 0x18 else 8 * 0x26) :=
  ⟨by decide, by decide,
    (Sav6.dexFormIndex_distinct_in_range Game.ORAS 676 493 10 18).1 (by decide) (by decide)
      (by decide),
    (Sav6.dexFormIndex_distinct_in_range Game.ORAS 676 493 10 18).2.1⟩

end pksm
